import Mathlib

/-!
# gopy `bind` generator: signature translation

A shallow embedding of `bind/gen_func.go` (`genFuncSig`, `genFunc`, `genMethod`,
`genIfcMethod`, `genFuncBody`) and of `bind/gen.go` (`genAll`, `genConst`, `genVar`, the
handle type names and the two boolean helpers of the shim preamble), with a model of the
handle registry the emitted shims call.

The generator writes into four `printer` streams.  Every call made on a stream
(`Printf`, `Indent`, `Outdent`) is recorded, in order, with the format string and the
arguments exactly as they occur in the Go source, so each definition below can be read
side by side with the function it embeds.  A Go panic is an `Except.error`.
-/

set_option autoImplicit false

set_option linter.unnecessarySeqFocus false

namespace Gopy

/-! ## Data model -/

/-- Modelled from the spec: the `printer` type is declared outside the files under study
("stream writes are treated as abstract sinks", each stream "carries its own
indentation/nesting state").  One entry is one call made on a stream: a `Printf` with its
format string and its arguments, an `Indent` or an `Outdent`. -/
inductive PrintOp where
  | printf (format : String) (args : List String)
  | indent
  | outdent
  deriving DecidableEq, Repr

/-- Modelled from the spec: a `printer` stream, as the ordered log of the calls made on
it. -/
abbrev printer := List PrintOp

/-- The call `p.Printf(format, args...)`. -/
def printer.Printf (p : printer) (format : String) (args : List String) : printer :=
  p ++ [PrintOp.printf format args]

/-- The call `p.Indent()`. -/
def printer.Indent (p : printer) : printer :=
  p ++ [PrintOp.indent]

/-- The call `p.Outdent()`. -/
def printer.Outdent (p : printer) : printer :=
  p ++ [PrintOp.outdent]

/-- Identity of a native Go type (`types.Type`), by its type string. -/
abbrev GoType := String

/-- Modelled from the spec: the `symbol` type is declared outside the files under study.
The string fields are the ones read by `gen_func.go`; the boolean fields and `gofmt` hold
the results of the methods `isSignature()`, `isInterface()`, `hasHandle()`,
`isPtrOrIface()`, `isType()` and `gofmt()`. -/
structure symbol where
  goname : String
  cgoname : String
  cpyname : String
  pyname : String
  zval : String
  go2py : String
  py2go : String
  py2goParenEx : String
  gofmt : String
  isSignature : Bool
  isInterface : Bool
  hasHandle : Bool
  isPtrOrIface : Bool
  isType : Bool
  deriving DecidableEq, Repr

/-- Modelled from the spec: the symbol table (`symtab`), a finite map from native type
identity to the `symbol` created for it during package analysis. -/
structure symtab where
  syms : List (GoType × symbol)
  deriving DecidableEq, Repr

/-- The lookup `syms.symtype(typ)`; `none` is Go's `nil`. -/
def symtab.symtype (s : symtab) (typ : GoType) : Option symbol :=
  s.syms.lookup typ

/-- Modelled from the spec: `syms.names()`, the names under which the table holds its
symbols, in the order in which `genAll` walks them. -/
def symtab.names (s : symtab) : List String :=
  s.syms.map (fun e => e.1)

/-- The lookup `syms.sym(n)`; `none` is Go's `nil`. -/
def symtab.sym (s : symtab) (n : String) : Option symbol :=
  s.syms.lookup n

/-- Modelled from the spec: `Var`, one parameter or result of a signature: its name
(`Name()`), its native type (`GoType()`) and the `symbol` stored with it (`sym`). -/
structure Var where
  Name : String
  GoType : GoType
  sym : symbol
  deriving DecidableEq, Repr

/-- Modelled from the spec: `Signature`, the ordered parameters (`Params()`) and results
(`Results()`) of a function. -/
structure Signature where
  Params : List Var
  Results : List Var
  deriving DecidableEq, Repr

/-- Modelled from the spec: `Func`.  `sig` is a pointer in Go (`none` is `nil`), `err`
marks a final failure-indicator result; `GoName`, `GoFmt` and `PackageName` hold the
results of `GoName()`, `GoFmt()` and `Package().Name()`. -/
structure Func where
  sig : Option Signature
  err : Bool
  GoName : String
  GoFmt : String
  PackageName : String
  deriving DecidableEq, Repr

/-- The accessor `fsym.Signature()`. -/
def Func.Signature (f : Func) : Option Signature := f.sig

/-- Modelled from the spec: `Struct`, of which `genMethod` reads the `sym` pointer. -/
structure Struct where
  sym : Option symbol
  meths : List Func
  ctors : List Func
  deriving DecidableEq, Repr

/-- Modelled from the spec: `Interface`, of which `genIfcMethod` reads the `sym`
pointer. -/
structure Interface where
  sym : Option symbol
  meths : List Func
  deriving DecidableEq, Repr

/-- Modelled from the spec: `Const`, a constant of the package: its native name and its
`symbol`. -/
structure Const where
  Name : String
  sym : symbol
  deriving DecidableEq, Repr

/-- Modelled from the spec: `Package`, with its symbol table and its lists of constants,
variables, interfaces, structs and free functions. -/
structure Package where
  Name : String
  syms : symtab
  consts : List Const
  vars : List Var
  ifaces : List Interface
  structs : List Struct
  funcs : List Func
  deriving DecidableEq, Repr

/-- Modelled from the spec: `isErrorType`, declared outside the files under study: the
failure-indicator kind is the native type `error`. -/
def isErrorType (typ : GoType) : Bool :=
  typ == "error"

/-- `var GoHandle = "int64"` (gen.go). -/
def GoHandle : String := "int64"

/-- `var CGoHandle = "C.longlong"` (gen.go). -/
def CGoHandle : String := "C.longlong"

/-- `var PyHandle = "int64_t"` (gen.go). -/
def PyHandle : String := "int64_t"

/-- A line written with `fmt.Printf` to the standard output of the generator. -/
inductive StdoutMsg where
  | emptyZval (sym : symbol)
  deriving DecidableEq, Repr

/-- The generator `pybindGen` (gen.go): the four output streams, the package and the
diagnostic list `err`.  `stdout` is not a field of the Go struct: it carries what the
generator prints with `fmt.Printf`, so that the functions below stay pure. -/
structure pybindGen where
  gofile : printer
  pybuild : printer
  pywrap : printer
  makefile : printer
  pkg : Package
  err : List String
  stdout : List StdoutMsg
  deriving DecidableEq, Repr

/-- The value carried by a Go panic. -/
inductive GenPanic where
  | symbolNotFound (name : String)
  | nilDereference
  deriving DecidableEq, Repr

/-! ## `genFuncSig` -/

/-- The parameter loop of `genFuncSig` (gen_func.go, lines 46-63), run on the remaining
parameters with the three lists built so far; `none` is the `return false` taken inside
the loop. -/
def genFuncSig.argsLoop (syms : symtab) :
    List Var → List String × List String × List String →
    Option (List String × List String × List String)
  | [], acc => some acc
  | arg :: rest, (goArgs, pyArgs, wpArgs) =>
    match syms.symtype arg.GoType with
    | none => none
    | some sarg =>
      if sarg.isSignature then none
      else
        genFuncSig.argsLoop syms rest
          (goArgs ++ [arg.Name ++ " " ++ sarg.cgoname],
           pyArgs ++ ["param('" ++ sarg.cpyname ++ "', '" ++ arg.Name ++ "')"],
           wpArgs ++ [arg.Name])

/-- The function `genFuncSig` (gen_func.go, lines 15-122).  The boolean is the Go return
value; `Except.error` is the panic of line 92. -/
def genFuncSig (g : pybindGen) (sym : Option symbol) (fsym : Func) :
    Except GenPanic (Bool × pybindGen) :=
  let isMethod := sym.isSome
  match fsym.sig with
  | none => .ok (false, g)
  | some sig =>
    let args := sig.Params
    let res := sig.Results
    let nres := res.length
    if nres > 2 then .ok (false, g)
    else if nres == 2 && !fsym.err then .ok (false, g)
    else
      let goArgs : List String := if isMethod then ["_handle CGoHandle"] else []
      let pyArgs : List String :=
        if isMethod then ["param('" ++ PyHandle ++ "', '_handle')"] else []
      let wpArgs : List String := if isMethod then ["self"] else []
      match genFuncSig.argsLoop g.pkg.syms args (goArgs, pyArgs, wpArgs) with
      | none => .ok (false, g)
      | some (goArgs, pyArgs, wpArgs) =>
        let g : pybindGen :=
          match sym with
          | some s =>
            let mnm := s.goname ++ "_" ++ fsym.GoName
            let g := { g with gofile := g.gofile.Printf "\n//export %s\n" [mnm] }
            let g := { g with gofile := g.gofile.Printf "func %s(" [mnm] }
            let g := { g with pybuild := g.pybuild.Printf "mod.add_function('%s', " [mnm] }
            { g with pywrap := g.pywrap.Printf "def %s(" [fsym.GoName] }
          | none =>
            let g := { g with gofile := g.gofile.Printf "\n//export %s\n" [fsym.GoName] }
            let g := { g with gofile := g.gofile.Printf "func %s(" [fsym.GoName] }
            let g :=
              { g with pybuild := g.pybuild.Printf "mod.add_function('%s', " [fsym.GoName] }
            { g with pywrap := g.pywrap.Printf "def %s(" [fsym.GoName] }
        let finish (g : pybindGen) (goRet : String) : Except GenPanic (Bool × pybindGen) :=
          if goArgs.length > 0 then
            let gstr := ", ".intercalate goArgs
            let g := { g with gofile := g.gofile.Printf "%v) %v" [gstr, goRet] }
            let pstr := ", ".intercalate pyArgs
            let g := { g with pybuild := g.pybuild.Printf ", [%v])\n" [pstr] }
            let wstr := ", ".intercalate wpArgs
            let g := { g with pywrap := g.pywrap.Printf "%v)" [wstr] }
            .ok (true, g)
          else
            let g := { g with gofile := g.gofile.Printf ") %v" [goRet] }
            let g := { g with pybuild := g.pybuild.Printf ", [])\n" [] }
            let g := { g with pywrap := g.pywrap.Printf ")" [] }
            .ok (true, g)
        match res with
        | ret :: _ =>
          match g.pkg.syms.symtype ret.GoType with
          | none => .error (GenPanic.symbolNotFound ret.Name)
          | some sret =>
            let g := { g with pybuild := g.pybuild.Printf "retval('%s')" [sret.cpyname] }
            finish g sret.cgoname
        | [] =>
          let g := { g with pybuild := g.pybuild.Printf "None" [] }
          finish g ""

/-! ## `genFuncBody` -/

/-- The shim name `mnm` computed by `genFuncBody` (gen_func.go, lines 200-203). -/
def genFuncBody.mnm (sym : Option symbol) (fsym : Func) : String :=
  match sym with
  | some s => s.goname ++ "_" ++ fsym.GoName
  | none => fsym.GoName

/-- The receiver type expression `symNm` computed by `genFuncBody` (gen_func.go, lines
145-152). -/
def genFuncBody.symNm (sym : Option symbol) : String :=
  match sym with
  | some s => if !s.isInterface then "*" ++ s.gofmt else s.gofmt
  | none => ""

/-- The format string of the `Printf` call of `genFuncBody` that emits the receiver
resolution (gen_func.go, lines 176-178; a raw string literal spanning two lines). -/
def genFuncBody.handleTryFormat : String :=
  "vifc, err := gopyh.VarHand.VarFmHandleTry((gopyh.CGoHandle)(_handle), \"%s\")\nif err != nil \x7b\n"

/-- The argument loop of `genFuncBody` (gen_func.go, lines 222-235), run on the remaining
parameters with `callArgs` and `wrapArgs` as built so far. -/
def genFuncBody.argsLoop :
    List Var → List String × List String → List String × List String
  | [], acc => acc
  | arg :: rest, (callArgs, wrapArgs) =>
    let na :=
      if arg.sym.py2go != "" then
        arg.sym.py2go ++ "(" ++ arg.Name ++ ")" ++ arg.sym.py2goParenEx
      else arg.Name
    let callArgs := callArgs ++ [na]
    let wrapArgs :=
      if arg.sym.hasHandle then wrapArgs ++ [arg.Name ++ ".handle"]
      else wrapArgs ++ [arg.Name]
    genFuncBody.argsLoop rest (callArgs, wrapArgs)

/-- The flag `rvIsErr` of `genFuncBody` (gen_func.go, lines 161-167): the only result is
of error type. -/
def genFuncBody.rvIsErr (res : List Var) : Bool :=
  match res with
  | [ret] => isErrorType ret.GoType
  | _ => false

/-- The receiver-resolution block of `genFuncBody` (gen_func.go, lines 174-197). -/
def genFuncBody.resolve (g : pybindGen) (sym : Option symbol) (res : List Var) :
    pybindGen :=
  let isMethod := sym.isSome
  let symNm := genFuncBody.symNm sym
  let rvIsErr := genFuncBody.rvIsErr res
  if isMethod then
    let g := { g with gofile := g.gofile.Printf genFuncBody.handleTryFormat [symNm] }
    let g := { g with gofile := g.gofile.Indent }
    let g : pybindGen :=
      match res with
      | ret :: _ =>
        let g :=
          if ret.sym.zval == "" then
            { g with stdout := g.stdout ++ [StdoutMsg.emptyZval ret.sym] }
          else g
        if ret.sym.go2py != "" then
          { g with gofile := g.gofile.Printf "return %s(%s)\n" [ret.sym.go2py, ret.sym.zval] }
        else
          { g with gofile := g.gofile.Printf "return %s\n" [ret.sym.zval] }
      | [] => { g with gofile := g.gofile.Printf "return\n" [] }
    let g := { g with gofile := g.gofile.Outdent }
    { g with gofile := g.gofile.Printf "\x7d\n" [] }
  else if rvIsErr then
    { g with gofile := g.gofile.Printf "var err error\n" [] }
  else g

/-- The flag `rvHasHandle` of `genFuncBody` (gen_func.go, lines 204-208). -/
def genFuncBody.rvHasHandle (res : List Var) : Bool :=
  match res with
  | ret :: _ => !genFuncBody.rvIsErr res && ret.sym.hasHandle
  | [] => false

/-- The opening of the wrapper call written by `genFuncBody` (gen_func.go, lines
199-215). -/
def genFuncBody.wrapOpen (g : pybindGen) (sym : Option symbol) (fsym : Func)
    (res : List Var) : pybindGen :=
  let pkgname := fsym.PackageName
  let mnm := genFuncBody.mnm sym fsym
  let rvIsErr := genFuncBody.rvIsErr res
  match res with
  | ret :: _ =>
    if !rvIsErr && ret.sym.hasHandle then
      let wargs := [ret.sym.pyname, pkgname, mnm]
      { g with pywrap := g.pywrap.Printf "return %s(handle=_%s.%s(" wargs }
    else
      { g with pywrap := g.pywrap.Printf "return _%s.%s(" [pkgname, mnm] }
  | [] => { g with pywrap := g.pywrap.Printf "_%s.%s(" [pkgname, mnm] }

/-- The flag `hasRetCvt` of `genFuncBody` (gen_func.go, lines 237-256). -/
def genFuncBody.hasRetCvt (res : List Var) : Bool :=
  match res with
  | ret :: _ =>
    if genFuncBody.rvIsErr res then false
    else if res.length == 2 then false
    else if ret.sym.hasHandle && !ret.sym.isPtrOrIface then false
    else ret.sym.go2py != ""
  | [] => false

/-- The flag `hasAddrOfTmp` of `genFuncBody` (gen_func.go, lines 237-256). -/
def genFuncBody.hasAddrOfTmp (res : List Var) : Bool :=
  match res with
  | ret :: _ =>
    if genFuncBody.rvIsErr res then false
    else if res.length == 2 then false
    else ret.sym.hasHandle && !ret.sym.isPtrOrIface
  | [] => false

/-- What `genFuncBody` writes to the shim in front of the underlying call (gen_func.go,
lines 239-256). -/
def genFuncBody.retOpen (g : pybindGen) (res : List Var) : pybindGen :=
  let nres := res.length
  let rvIsErr := genFuncBody.rvIsErr res
  match res with
  | ret :: _ =>
    if rvIsErr then
      { g with gofile := g.gofile.Printf "err = " [] }
    else if nres == 2 then
      { g with gofile := g.gofile.Printf "cret, err := " [] }
    else if ret.sym.hasHandle && !ret.sym.isPtrOrIface then
      { g with gofile := g.gofile.Printf "cret := " [] }
    else if ret.sym.go2py != "" then
      { g with gofile := g.gofile.Printf "return %s(" [ret.sym.go2py] }
    else
      { g with gofile := g.gofile.Printf "return " [] }
  | [] => g

/-- The statement emitted by `genFuncBody` to set the host exception (gen_func.go, line
274). -/
def genFuncBody.setErrFormat : String :=
  "C.PyErr_SetString(C.PyExc_RuntimeError, C.CString(err.Error()))\n"

/-- What `genFuncBody` writes to the shim after the underlying call (gen_func.go, lines
270-297). -/
def genFuncBody.errCheck (g : pybindGen) (res : List Var) : pybindGen :=
  let nres := res.length
  let rvIsErr := genFuncBody.rvIsErr res
  let hasAddrOfTmp := genFuncBody.hasAddrOfTmp res
  if rvIsErr || nres == 2 then
    let g := { g with gofile := g.gofile.Printf "\n" [] }
    let g := { g with gofile := g.gofile.Printf "if err != nil \x7b\n" [] }
    let g := { g with gofile := g.gofile.Indent }
    let g := { g with gofile := g.gofile.Printf genFuncBody.setErrFormat [] }
    let g :=
      if rvIsErr then
        { g with gofile := g.gofile.Printf "return C.CString(err.Error())" [] }
      else g
    let g := { g with gofile := g.gofile.Outdent }
    let g := { g with gofile := g.gofile.Printf "\x7d\n" [] }
    if rvIsErr then
      { g with gofile := g.gofile.Printf "return C.CString(\"\")" [] }
    else
      match res with
      | ret :: _ =>
        if ret.sym.go2py != "" then
          if ret.sym.hasHandle && !ret.sym.isPtrOrIface then
            { g with gofile := g.gofile.Printf "return %s(&cret)" [ret.sym.go2py] }
          else
            { g with gofile := g.gofile.Printf "return %s(cret)" [ret.sym.go2py] }
        else
          { g with gofile := g.gofile.Printf "return cret" [] }
      | [] => g
  else if hasAddrOfTmp then
    match res with
    | ret :: _ => { g with gofile := g.gofile.Printf "\nreturn %s(&cret)" [ret.sym.go2py] }
    | [] => g
  else g

/-- The function `genFuncBody` (gen_func.go, lines 142-305), with its blocks
`genFuncBody.resolve`, `genFuncBody.wrapOpen`, `genFuncBody.retOpen` and
`genFuncBody.errCheck` in the order of the source.  Calling it on a `Func` whose signature
pointer is `nil` dereferences `nil`. -/
def genFuncBody (g : pybindGen) (sym : Option symbol) (fsym : Func) :
    Except GenPanic pybindGen :=
  let isMethod := sym.isSome
  let symNm := genFuncBody.symNm sym
  match fsym.Signature with
  | none => .error GenPanic.nilDereference
  | some sig =>
    let res := sig.Results
    let args := sig.Params
    let g := { g with pywrap := g.pywrap.Printf ":\n" [] }
    let g := { g with pywrap := g.pywrap.Indent }
    let g := { g with gofile := g.gofile.Printf " \x7b\n" [] }
    let g := { g with gofile := g.gofile.Indent }
    let g := genFuncBody.resolve g sym res
    let g := genFuncBody.wrapOpen g sym fsym res
    let wrapArgs0 : List String := if isMethod then ["self.handle"] else []
    let lists := genFuncBody.argsLoop args ([], wrapArgs0)
    let callArgs := lists.1
    let wrapArgs := lists.2
    let g := genFuncBody.retOpen g res
    let g := { g with pywrap := g.pywrap.Printf "%s)" [", ".intercalate wrapArgs] }
    let g :=
      if genFuncBody.rvHasHandle res then { g with pywrap := g.pywrap.Printf ")" [] }
      else g
    let g : pybindGen :=
      if isMethod then
        let cargs := [symNm, fsym.GoName, ", ".intercalate callArgs]
        { g with gofile := g.gofile.Printf "vifc.(%s).%s(%s)" cargs }
      else
        { g with gofile := g.gofile.Printf "%s(%s)" [fsym.GoFmt, ", ".intercalate callArgs] }
    let g :=
      if genFuncBody.hasRetCvt res then { g with gofile := g.gofile.Printf ")" [] }
      else g
    let g := genFuncBody.errCheck g res
    let g := { g with gofile := g.gofile.Printf "\n" [] }
    let g := { g with gofile := g.gofile.Outdent }
    let g := { g with gofile := g.gofile.Printf "\x7d\n" [] }
    let g := { g with pywrap := g.pywrap.Printf "\n" [] }
    let g := { g with pywrap := g.pywrap.Outdent }
    let g := { g with pywrap := g.pywrap.Printf "\n" [] }
    .ok g

/-! ## `genFunc`, `genMethod`, `genIfcMethod` -/

/-- The function `genFunc` (gen_func.go, lines 124-128). -/
def genFunc (g : pybindGen) (o : Func) : Except GenPanic pybindGen :=
  match genFuncSig g none o with
  | .error e => .error e
  | .ok (true, g) => genFuncBody g none o
  | .ok (false, g) => .ok g

/-- The function `genMethod` (gen_func.go, lines 130-134). -/
def genMethod (g : pybindGen) (s : Struct) (o : Func) : Except GenPanic pybindGen :=
  match genFuncSig g s.sym o with
  | .error e => .error e
  | .ok (true, g) => genFuncBody g s.sym o
  | .ok (false, g) => .ok g

/-- The function `genIfcMethod` (gen_func.go, lines 136-140). -/
def genIfcMethod (g : pybindGen) (ifc : Interface) (o : Func) : Except GenPanic pybindGen :=
  match genFuncSig g ifc.sym o with
  | .error e => .error e
  | .ok (true, g) => genFuncBody g ifc.sym o
  | .ok (false, g) => .ok g

/-! ## A sample package -/

def symInt : symbol :=
  { goname := "int", cgoname := "C.long", cpyname := "int64_t", pyname := "int",
    zval := "0", go2py := "C.long", py2go := "int", py2goParenEx := "", gofmt := "int",
    isSignature := false, isInterface := false, hasHandle := false, isPtrOrIface := false,
    isType := true }

def symError : symbol :=
  { goname := "error", cgoname := "*C.char", cpyname := "char*", pyname := "str",
    zval := "nil", go2py := "C.CString", py2go := "errors.New", py2goParenEx := "",
    gofmt := "error",
    isSignature := false, isInterface := true, hasHandle := false, isPtrOrIface := true,
    isType := true }

def symFoo : symbol :=
  { goname := "Foo", cgoname := "CGoHandle", cpyname := "int64_t", pyname := "Foo",
    zval := "nil", go2py := "handleFmPtr_Foo", py2go := "*ptrFmHandle_Foo",
    py2goParenEx := "", gofmt := "pkg.Foo",
    isSignature := false, isInterface := false, hasHandle := true, isPtrOrIface := false,
    isType := true }

def symCallback : symbol :=
  { goname := "func(int)", cgoname := "", cpyname := "", pyname := "",
    zval := "nil", go2py := "", py2go := "", py2goParenEx := "", gofmt := "func(int)",
    isSignature := true, isInterface := false, hasHandle := false, isPtrOrIface := false,
    isType := true }

def pkg0 : Package :=
  { Name := "pkg",
    syms := { syms := [("int", symInt), ("error", symError), ("pkg.Foo", symFoo),
                       ("func(int)", symCallback)] },
    consts := [], vars := [], ifaces := [], structs := [], funcs := [] }

def g0 : pybindGen :=
  { gofile := [], pybuild := [], pywrap := [], makefile := [], pkg := pkg0, err := [],
    stdout := [] }

def varA : Var := { Name := "a", GoType := "int", sym := symInt }

def varB : Var := { Name := "b", GoType := "int", sym := symInt }

def retInt : Var := { Name := "", GoType := "int", sym := symInt }

def retErr : Var := { Name := "", GoType := "error", sym := symError }

/-- The free function `Divide(a, b int) (int, error)`. -/
def fDivide : Func :=
  { sig := some { Params := [varA, varB], Results := [retInt, retErr] }, err := true,
    GoName := "Divide", GoFmt := "pkg.Divide", PackageName := "pkg" }

/-- The method `Get() int`. -/
def fGet : Func :=
  { sig := some { Params := [], Results := [retInt] }, err := false,
    GoName := "Get", GoFmt := "pkg.Get", PackageName := "pkg" }

/-- The free function `Apply(a int, cb func(int))`, with a function-typed parameter. -/
def fApply : Func :=
  { sig := some { Params := [varA, { Name := "cb", GoType := "func(int)", sym := symCallback }],
                  Results := [] },
    err := false, GoName := "Apply", GoFmt := "pkg.Apply", PackageName := "pkg" }

/-- The free function `Three() (int, int, int)`. -/
def fThree : Func :=
  { sig := some { Params := [], Results := [retInt, retInt, retInt] }, err := false,
    GoName := "Three", GoFmt := "pkg.Three", PackageName := "pkg" }

/-- A `symbol` for a type of another package, absent from the table of `pkg0`. -/
def symOther : symbol :=
  { goname := "T", cgoname := "CGoHandle", cpyname := "int64_t", pyname := "T",
    zval := "nil", go2py := "", py2go := "", py2goParenEx := "", gofmt := "other.T",
    isSignature := false, isInterface := false, hasHandle := true, isPtrOrIface := false,
    isType := true }

/-- The free function `Take(t other.T)`, whose parameter type has no symbol. -/
def fTake : Func :=
  { sig := some { Params := [{ Name := "t", GoType := "other.T", sym := symOther }],
                  Results := [] },
    err := false, GoName := "Take", GoFmt := "pkg.Take", PackageName := "pkg" }

/-- The free function `Make() (r other.T)`, whose result type has no symbol. -/
def fMake : Func :=
  { sig := some { Params := [],
                  Results := [{ Name := "r", GoType := "other.T", sym := symOther }] },
    err := false, GoName := "Make", GoFmt := "pkg.Make", PackageName := "pkg" }

/-! ## What an accepted `Func` makes `genFuncSig` write -/

/-- The three lists of `genFuncSig` before its parameter loop (gen_func.go, lines
36-43). -/
def genFuncSig.initLists (sym : Option symbol) :
    List String × List String × List String :=
  (if sym.isSome then ["_handle CGoHandle"] else [],
   if sym.isSome then ["param('" ++ PyHandle ++ "', '_handle')"] else [],
   if sym.isSome then ["self"] else [])

/-- The return tag written to the declaration stream and the shim return type `goRet`
(gen_func.go, lines 86-102); `none` when line 92 panics. -/
def genFuncSig.retOf (syms : symtab) (res : List Var) : Option (PrintOp × String) :=
  match res with
  | ret :: _ =>
    match syms.symtype ret.GoType with
    | none => none
    | some sret => some (PrintOp.printf "retval('%s')" [sret.cpyname], sret.cgoname)
  | [] => some (PrintOp.printf "None" [], "")

/-- The closing of the shim header (gen_func.go, lines 104-106 and 115). -/
def genFuncSig.closeShim (goArgs : List String) (goRet : String) : PrintOp :=
  if goArgs.length > 0 then PrintOp.printf "%v) %v" [", ".intercalate goArgs, goRet]
  else PrintOp.printf ") %v" [goRet]

/-- The closing of the declaration (gen_func.go, lines 108-109 and 117). -/
def genFuncSig.closeDecl (goArgs pyArgs : List String) : PrintOp :=
  if goArgs.length > 0 then PrintOp.printf ", [%v])\n" [", ".intercalate pyArgs]
  else PrintOp.printf ", [])\n" []

/-- The closing of the wrapper `def` header (gen_func.go, lines 111-112 and 119). -/
def genFuncSig.closeWrap (goArgs wpArgs : List String) : PrintOp :=
  if goArgs.length > 0 then PrintOp.printf "%v)" [", ".intercalate wpArgs]
  else PrintOp.printf ")" []

/-! ## What `genFuncBody` writes -/

/-- The statement of the early-return block of the receiver resolution (gen_func.go, lines
180-192). -/
def genFuncBody.earlyReturn (res : List Var) : PrintOp :=
  match res with
  | ret :: _ =>
    if ret.sym.go2py != "" then PrintOp.printf "return %s(%s)\n" [ret.sym.go2py, ret.sym.zval]
    else PrintOp.printf "return %s\n" [ret.sym.zval]
  | [] => PrintOp.printf "return\n" []

/-- The calls made on the shim stream by `genFuncBody.resolve`. -/
def genFuncBody.resolveOps (sym : Option symbol) (res : List Var) : List PrintOp :=
  match sym with
  | some _ =>
    [PrintOp.printf genFuncBody.handleTryFormat [genFuncBody.symNm sym], PrintOp.indent,
     genFuncBody.earlyReturn res, PrintOp.outdent, PrintOp.printf "\x7d\n" []]
  | none => if genFuncBody.rvIsErr res then [PrintOp.printf "var err error\n" []] else []

/-- The lines printed on standard output by `genFuncBody.resolve`. -/
def genFuncBody.resolveDiag (sym : Option symbol) (res : List Var) : List StdoutMsg :=
  match sym, res with
  | some _, ret :: _ => if ret.sym.zval == "" then [StdoutMsg.emptyZval ret.sym] else []
  | _, _ => []

/-- The call made on the wrapper stream by `genFuncBody.wrapOpen`. -/
def genFuncBody.wrapOpenOp (sym : Option symbol) (fsym : Func) (res : List Var) : PrintOp :=
  match res with
  | ret :: _ =>
    if !genFuncBody.rvIsErr res && ret.sym.hasHandle then
      PrintOp.printf "return %s(handle=_%s.%s("
        [ret.sym.pyname, fsym.PackageName, genFuncBody.mnm sym fsym]
    else PrintOp.printf "return _%s.%s(" [fsym.PackageName, genFuncBody.mnm sym fsym]
  | [] => PrintOp.printf "_%s.%s(" [fsym.PackageName, genFuncBody.mnm sym fsym]

/-- The calls made on the shim stream by `genFuncBody.retOpen`. -/
def genFuncBody.retOpenOps (res : List Var) : List PrintOp :=
  match res with
  | ret :: _ =>
    if genFuncBody.rvIsErr res then [PrintOp.printf "err = " []]
    else if res.length == 2 then [PrintOp.printf "cret, err := " []]
    else if ret.sym.hasHandle && !ret.sym.isPtrOrIface then [PrintOp.printf "cret := " []]
    else if ret.sym.go2py != "" then [PrintOp.printf "return %s(" [ret.sym.go2py]]
    else [PrintOp.printf "return " []]
  | [] => []

/-- The return statement that follows the exception block of a two-result `Func`
(gen_func.go, lines 283-292). -/
def genFuncBody.returnCret (res : List Var) : List PrintOp :=
  match res with
  | ret :: _ =>
    if ret.sym.go2py != "" then
      if ret.sym.hasHandle && !ret.sym.isPtrOrIface then
        [PrintOp.printf "return %s(&cret)" [ret.sym.go2py]]
      else [PrintOp.printf "return %s(cret)" [ret.sym.go2py]]
    else [PrintOp.printf "return cret" []]
  | [] => []

/-- The calls made on the shim stream by `genFuncBody.errCheck`. -/
def genFuncBody.errCheckOps (res : List Var) : List PrintOp :=
  if genFuncBody.rvIsErr res then
    [PrintOp.printf "\n" [], PrintOp.printf "if err != nil \x7b\n" [], PrintOp.indent,
     PrintOp.printf genFuncBody.setErrFormat [],
     PrintOp.printf "return C.CString(err.Error())" [], PrintOp.outdent,
     PrintOp.printf "\x7d\n" [], PrintOp.printf "return C.CString(\"\")" []]
  else if res.length == 2 then
    [PrintOp.printf "\n" [], PrintOp.printf "if err != nil \x7b\n" [], PrintOp.indent,
     PrintOp.printf genFuncBody.setErrFormat [], PrintOp.outdent,
     PrintOp.printf "\x7d\n" []] ++ genFuncBody.returnCret res
  else if genFuncBody.hasAddrOfTmp res then
    match res with
    | ret :: _ => [PrintOp.printf "\nreturn %s(&cret)" [ret.sym.go2py]]
    | [] => []
  else []

/-- The underlying call written to the shim by `genFuncBody` (gen_func.go, lines
262-266). -/
def genFuncBody.callOp (sym : Option symbol) (fsym : Func) (callArgs : List String) :
    PrintOp :=
  if sym.isSome then
    PrintOp.printf "vifc.(%s).%s(%s)"
      [genFuncBody.symNm sym, fsym.GoName, ", ".intercalate callArgs]
  else PrintOp.printf "%s(%s)" [fsym.GoFmt, ", ".intercalate callArgs]

/-- The lists `callArgs` and `wrapArgs` of `genFuncBody` after its argument loop. -/
def genFuncBody.lists (sym : Option symbol) (sig : Signature) : List String × List String :=
  genFuncBody.argsLoop sig.Params ([], if sym.isSome then ["self.handle"] else [])

/-- Everything `genFuncBody` appends to the shim stream. -/
def genFuncBody.shimOps (sym : Option symbol) (fsym : Func) (sig : Signature) :
    List PrintOp :=
  [PrintOp.printf " \x7b\n" [], PrintOp.indent] ++ genFuncBody.resolveOps sym sig.Results ++
    genFuncBody.retOpenOps sig.Results ++
    [genFuncBody.callOp sym fsym (genFuncBody.lists sym sig).1] ++
    (if genFuncBody.hasRetCvt sig.Results then [PrintOp.printf ")" []] else []) ++
    genFuncBody.errCheckOps sig.Results ++
    [PrintOp.printf "\n" [], PrintOp.outdent, PrintOp.printf "\x7d\n" []]

/-- Everything `genFuncBody` appends to the wrapper stream. -/
def genFuncBody.wrapOps (sym : Option symbol) (fsym : Func) (sig : Signature) :
    List PrintOp :=
  [PrintOp.printf ":\n" [], PrintOp.indent, genFuncBody.wrapOpenOp sym fsym sig.Results,
   PrintOp.printf "%s)" [", ".intercalate (genFuncBody.lists sym sig).2]] ++
    (if genFuncBody.rvHasHandle sig.Results then [PrintOp.printf ")" []] else []) ++
    [PrintOp.printf "\n" [], PrintOp.outdent, PrintOp.printf "\n" []]

/-! ## Naming -/

/-- The struct `Foo`, with its methods. -/
def sFoo : Struct := { sym := some symFoo, meths := [], ctors := [] }

/-- The method `Bar()`, declared on `Foo`. -/
def fBar : Func :=
  { sig := some { Params := [], Results := [] }, err := false,
    GoName := "Bar", GoFmt := "pkg.Bar", PackageName := "pkg" }

/-- The free function `Foo_Bar()`. -/
def fFooBar : Func :=
  { sig := some { Params := [], Results := [] }, err := false,
    GoName := "Foo_Bar", GoFmt := "pkg.Foo_Bar", PackageName := "pkg" }

/-- The generator after `genFuncSig`, when it does not panic. -/
def afterSig (g : pybindGen) (sym : Option symbol) (fsym : Func) : pybindGen :=
  match genFuncSig g sym fsym with
  | .ok (_, g1) => g1
  | .error _ => g

/-! ## Argument lists -/

/-- The entry appended to `goArgs` for one parameter (gen_func.go, line 60). -/
def genFuncSig.goArgOf (syms : symtab) (arg : Var) : String :=
  match syms.symtype arg.GoType with
  | some sarg => arg.Name ++ " " ++ sarg.cgoname
  | none => ""

/-- The entry appended to `pyArgs` for one parameter (gen_func.go, line 61). -/
def genFuncSig.pyArgOf (syms : symtab) (arg : Var) : String :=
  match syms.symtype arg.GoType with
  | some sarg => "param('" ++ sarg.cpyname ++ "', '" ++ arg.Name ++ "')"
  | none => ""

/-- The entry appended to `callArgs` for one parameter (gen_func.go, lines 223-229). -/
def genFuncBody.callArgOf (arg : Var) : String :=
  if arg.sym.py2go != "" then arg.sym.py2go ++ "(" ++ arg.Name ++ ")" ++ arg.sym.py2goParenEx
  else arg.Name

/-- The entry appended to `wrapArgs` for one parameter (gen_func.go, lines 230-234). -/
def genFuncBody.wrapArgOf (arg : Var) : String :=
  if arg.sym.hasHandle then arg.Name ++ ".handle" else arg.Name

/-! ## The failure path of the shim -/

/-- The free function `Check() error`, whose only result is the failure indicator. -/
def fCheck : Func :=
  { sig := some { Params := [], Results := [retErr] }, err := true,
    GoName := "Check", GoFmt := "pkg.Check", PackageName := "pkg" }

/-- What `genFunc` appends to the shim stream of `g0`, when it returns. -/
def shimOf (o : Func) : Except GenPanic (List PrintOp) :=
  (genFunc g0 o).map (fun g => g.gofile)

/-- What `genFunc` appends to the declaration stream of `g0`, when it returns. -/
def declOf (o : Func) : Except GenPanic (List PrintOp) :=
  (genFunc g0 o).map (fun g => g.pybuild)

/-! ## Skips and diagnostics -/

/-- A `symbol` that reaches emission with an empty zero-value literal. -/
def symBlank : symbol :=
  { goname := "Blank", cgoname := "C.long", cpyname := "int64_t", pyname := "int",
    zval := "", go2py := "", py2go := "", py2goParenEx := "", gofmt := "pkg.Blank",
    isSignature := false, isInterface := false, hasHandle := false, isPtrOrIface := false,
    isType := true }

/-- The generator `g0` with `symBlank` added to its symbol table. -/
def gBlank : pybindGen :=
  { g0 with pkg := { pkg0 with syms := { syms := ("pkg.Blank", symBlank) :: pkg0.syms.syms } } }

/-- The result of the method `Blank`, of type `pkg.Blank`. -/
def retBlank : Var := { Name := "", GoType := "pkg.Blank", sym := symBlank }

/-- The method `Blank() pkg.Blank`, declared on `Foo`. -/
def fBlank : Func :=
  { sig := some { Params := [], Results := [retBlank] },
    err := false, GoName := "Blank", GoFmt := "pkg.Blank", PackageName := "pkg" }

/-! ## Wrapper call and shim call -/

/-- A function `NewFoo() pkg.Foo`, whose result is a handle-bearing value. -/
def fNewFoo : Func :=
  { sig := some { Params := [], Results := [{ Name := "", GoType := "pkg.Foo", sym := symFoo }] },
    err := false, GoName := "NewFoo", GoFmt := "pkg.NewFoo", PackageName := "pkg" }

/-- The parameter `f pkg.Foo`. -/
def varF : Var := { Name := "f", GoType := "pkg.Foo", sym := symFoo }

/-- The method `Merge(f pkg.Foo, a int) int`, declared on `Foo`. -/
def fMerge : Func :=
  { sig := some { Params := [varF, varA], Results := [retInt] },
    err := false, GoName := "Merge", GoFmt := "pkg.Merge", PackageName := "pkg" }

/-! ## The helpers of the shim preamble -/

/-- The C type `C.char` of the shim, as an integer. -/
abbrev CChar := Int

/-- The helper `boolGoToPy` emitted in the shim preamble (gen.go, `pybGoPreamble`, lines
52-58). -/
def boolGoToPy (b : Bool) : CChar :=
  if b then 1 else 0

/-- The helper `boolPyToGo` emitted in the shim preamble (gen.go, `pybGoPreamble`, lines
60-66). -/
def boolPyToGo (b : CChar) : Bool :=
  if b != 0 then true else false

/-! ## The handle registry -/

/-- Modelled from the spec: a native value held by the handle registry, "stored with its
erased static type": the kind tag of its dynamic type and the value itself. -/
structure NativeValue where
  kind : String
  payload : Nat
  deriving DecidableEq, Repr

/-- Modelled from the spec: the handle registry `gopyh.VarHand` that the emitted shims
call, whose code is outside the files under study (spec section 4.2): "a single
process-wide table mapping a monotonically increasing 64-bit integer to an opaque native
value".  `next` is the next handle to issue. -/
structure VarHand where
  next : Nat
  table : List (Nat × NativeValue)
  deriving DecidableEq, Repr

/-- Modelled from the spec: `allocate(value) -> handle` "stores the value, returns a fresh
handle"; the counter is a 64-bit integer. -/
def VarHand.allocate (r : VarHand) (v : NativeValue) : Nat × VarHand :=
  (r.next, { next := (r.next + 1) % 2 ^ 64, table := (r.next, v) :: r.table })

/-- Modelled from the spec: the outcome of `resolve`: the value, or a NotFound or
TypeMismatch failure. -/
inductive Resolved where
  | found (v : NativeValue)
  | notFound
  | typeMismatch
  deriving DecidableEq, Repr

/-- Modelled from the spec: `resolve(handle, expectedKindTag)` "looks up the handle; if
absent, or if the stored value's dynamic kind does not match the expected kind, returns a
NotFound/TypeMismatch failure". -/
def VarHand.resolve (r : VarHand) (handle : Nat) (expectedKindTag : String) : Resolved :=
  match r.table.lookup handle with
  | none => Resolved.notFound
  | some v => if v.kind = expectedKindTag then Resolved.found v else Resolved.typeMismatch

/-! ## Nesting of the emitted text -/

/-- Modelled from the spec: the effect of one call on the indentation level a stream
carries ("its own indentation/nesting state"): `Indent` adds one level, `Outdent` removes
one when there is one, `Printf` leaves the level alone. -/
def PrintOp.step (n : Nat) : PrintOp → Nat
  | PrintOp.indent => n + 1
  | PrintOp.outdent => n - 1
  | PrintOp.printf _ _ => n

/-- Modelled from the spec: the indentation level of a stream after the calls logged on
it. -/
def printer.level (p : printer) : Nat :=
  p.foldl PrintOp.step 0

/-- The text `fmt.Sprintf(format, args...)` for the verbs `%s` and `%v`, the only ones
`gen_func.go` uses: each verb is replaced by the next argument. -/
def Sprintf : List Char → List String → List Char
  | [], _ => []
  | '%' :: 's' :: rest, a :: args => a.data ++ Sprintf rest args
  | '%' :: 'v' :: rest, a :: args => a.data ++ Sprintf rest args
  | c :: rest, args => c :: Sprintf rest args

/-- The text written by one call: the formatted text of a `Printf`, nothing for `Indent`
and `Outdent` (indentation itself inserts only blank characters at line starts). -/
def PrintOp.text : PrintOp → List Char
  | PrintOp.printf format args => Sprintf format.data args
  | PrintOp.indent => []
  | PrintOp.outdent => []

/-- The text written by a sequence of calls. -/
def opsText (ops : List PrintOp) : List Char :=
  (ops.map PrintOp.text).flatten

/-- The format string of a call, without its arguments. -/
def PrintOp.formatChars : PrintOp → List Char
  | PrintOp.printf format _ => format.data
  | PrintOp.indent => []
  | PrintOp.outdent => []

/-- The arguments of a call. -/
def PrintOp.args : PrintOp → List String
  | PrintOp.printf _ args => args
  | PrintOp.indent => []
  | PrintOp.outdent => []

/-- The nesting depth after reading `text` from depth `d`, counting `o` as opening and `c`
as closing; `none` when a closing character has nothing to close. -/
def nesting (o c : Char) : Nat → List Char → Option Nat
  | d, [] => some d
  | d, x :: rest =>
    if x = o then nesting o c (d + 1) rest
    else if x = c then
      match d with
      | 0 => none
      | d + 1 => nesting o c d rest
    else nesting o c d rest

/-- A text is balanced when every closing character closes an earlier opening one and
nothing stays open. -/
def Balanced (o c : Char) (text : List Char) : Prop :=
  nesting o c 0 text = some 0

/-- A string is neutral when, read from any depth, it comes back to that depth without
closing anything opened outside of it: a string without `o` and `c`, or a balanced one. -/
def Neutral (o c : Char) (s : String) : Prop :=
  ∀ d, nesting o c d s.data = some d

/-- The opening brace. -/
def openBrace : Char := Char.ofNat 123

/-- The closing brace. -/
def closeBrace : Char := Char.ofNat 125

/-- The opening parenthesis. -/
def openParen : Char := Char.ofNat 40

/-- The closing parenthesis. -/
def closeParen : Char := Char.ofNat 41

/-- The nesting of the format strings of a sequence of calls. -/
def opsNesting (o c : Char) (d : Nat) (ops : List PrintOp) : Option Nat :=
  nesting o c d (ops.map PrintOp.formatChars).flatten

/-- The generator after `genFuncSig` and `genFuncBody`, when neither panics. -/
def afterBody (g : pybindGen) (sym : Option symbol) (fsym : Func) : pybindGen :=
  match genFuncBody (afterSig g sym fsym) sym fsym with
  | .ok g2 => g2
  | .error _ => g

/-! ## `genAll` -/

/-- What one generator appends to each of the four streams. -/
structure Emission where
  gofile : List PrintOp
  pybuild : List PrintOp
  pywrap : List PrintOp
  makefile : List PrintOp
  deriving DecidableEq, Repr

/-- Modelled from the spec: the generators that `genAll` calls and that are declared
outside the files under study: `genType`, `genConstValue`, `genVarGetter`, `genVarSetter`,
`genInterface` and `genStruct`.  The model is "held immutable for the remainder of
generation" and the streams are write-only sinks, so each generator is given by what it
appends to the four streams for a package and a symbol, or by its panic. -/
structure Generators where
  genType : Package → symbol → Except GenPanic Emission
  genConstValue : Package → Const → Except GenPanic Emission
  genVarGetter : Package → Var → Except GenPanic Emission
  genVarSetter : Package → Var → Except GenPanic Emission
  genInterface : Package → Interface → Except GenPanic Emission
  genStruct : Package → Struct → Except GenPanic Emission

/-- The generator after the calls of an `Emission` on its streams. -/
def pybindGen.emit (g : pybindGen) (e : Emission) : pybindGen :=
  { g with gofile := g.gofile ++ e.gofile, pybuild := g.pybuild ++ e.pybuild,
           pywrap := g.pywrap ++ e.pywrap, makefile := g.makefile ++ e.makefile }

/-- A call of one of the generators declared outside the files under study. -/
def pybindGen.run (g : pybindGen) (r : Except GenPanic Emission) : Except GenPanic pybindGen :=
  match r with
  | .error e => .error e
  | .ok em => .ok (g.emit em)

/-- A Go `for _, x := range xs` loop whose body is `f`; a panic in the body ends it. -/
def forEach {α : Type} (f : pybindGen → α → Except GenPanic pybindGen) :
    pybindGen → List α → Except GenPanic pybindGen
  | g, [] => .ok g
  | g, x :: xs =>
    match f g x with
    | .error e => .error e
    | .ok g1 => forEach f g1 xs

/-- The function `genConst` (gen.go, lines 260-262). -/
def genConst (G : Generators) (g : pybindGen) (c : Const) : Except GenPanic pybindGen :=
  g.run (G.genConstValue g.pkg c)

/-- The function `genVar` (gen.go, lines 264-267). -/
def genVar (G : Generators) (g : pybindGen) (v : Var) : Except GenPanic pybindGen :=
  match g.run (G.genVarGetter g.pkg v) with
  | .error e => .error e
  | .ok g1 => g1.run (G.genVarSetter g1.pkg v)

/-- The body of the first loop of `genAll` (gen.go, lines 212-218). -/
def genAll.typeStep (G : Generators) (g : pybindGen) (n : String) :
    Except GenPanic pybindGen :=
  match g.pkg.syms.sym n with
  | none => .error GenPanic.nilDereference
  | some sym => if !sym.isType then .ok g else g.run (G.genType g.pkg sym)

/-- The function `genAll` (gen.go, lines 207-258). -/
def genAll (G : Generators) (g : pybindGen) : Except GenPanic pybindGen := do
  let g := { g with gofile := g.gofile.Printf "\n// ---- Types ---\n" [] }
  let g := { g with pywrap := g.pywrap.Printf "\n# ---- Types ---\n" [] }
  let names := g.pkg.syms.names
  let g ← forEach (genAll.typeStep G) g names
  let g := { g with pywrap := g.pywrap.Printf "\n\n#---- Constants from Go: Python can only ask that you please don't change these! ---\n" [] }
  let g ← forEach (genConst G) g g.pkg.consts
  let g := { g with gofile := g.gofile.Printf "\n\n// ---- Global Variables: can only use functions to access ---\n" [] }
  let g := { g with pywrap := g.pywrap.Printf "\n\n# ---- Global Variables: can only use functions to access ---\n" [] }
  let g ← forEach (genVar G) g g.pkg.vars
  let g := { g with gofile := g.gofile.Printf "\n\n// ---- Interfaces ---\n" [] }
  let g := { g with pywrap := g.pywrap.Printf "\n\n# ---- Interfaces ---\n" [] }
  let g ← forEach (fun g ifc => g.run (G.genInterface g.pkg ifc)) g g.pkg.ifaces
  let g := { g with gofile := g.gofile.Printf "\n\n// ---- Structs ---\n" [] }
  let g := { g with pywrap := g.pywrap.Printf "\n\n# ---- Structs ---\n" [] }
  let g ← forEach (fun g s => g.run (G.genStruct g.pkg s)) g g.pkg.structs
  let g := { g with gofile := g.gofile.Printf "\n\n// ---- Constructors ---\n" [] }
  let g := { g with pywrap := g.pywrap.Printf "\n\n# ---- Constructors ---\n" [] }
  let g ← forEach (fun g s => forEach genFunc g s.ctors) g g.pkg.structs
  let g := { g with gofile := g.gofile.Printf "\n\n// ---- Functions ---\n" [] }
  let g := { g with pywrap := g.pywrap.Printf "\n\n# ---- Functions ---\n" [] }
  let g ← forEach genFunc g g.pkg.funcs
  return g

/-- The seven section headers `genAll` writes to the wrapper stream, in the order of the
source. -/
def genAll.wrapHeaders : List PrintOp :=
  [PrintOp.printf "\n# ---- Types ---\n" [],
   PrintOp.printf "\n\n#---- Constants from Go: Python can only ask that you please don't change these! ---\n" [],
   PrintOp.printf "\n\n# ---- Global Variables: can only use functions to access ---\n" [],
   PrintOp.printf "\n\n# ---- Interfaces ---\n" [],
   PrintOp.printf "\n\n# ---- Structs ---\n" [],
   PrintOp.printf "\n\n# ---- Constructors ---\n" [],
   PrintOp.printf "\n\n# ---- Functions ---\n" []]

/-- None of the section headers occurs in a sequence of calls. -/
def HeaderFree (out : List PrintOp) : Prop :=
  ∀ H ∈ genAll.wrapHeaders, H ∉ out

/-- The generators declared outside the files under study write no section header of
their own to the wrapper stream. -/
def Generators.HeaderFree (G : Generators) (pkg : Package) : Prop :=
  (∀ x em, G.genType pkg x = .ok em → Gopy.HeaderFree em.pywrap) ∧
  (∀ x em, G.genConstValue pkg x = .ok em → Gopy.HeaderFree em.pywrap) ∧
  (∀ x em, G.genVarGetter pkg x = .ok em → Gopy.HeaderFree em.pywrap) ∧
  (∀ x em, G.genVarSetter pkg x = .ok em → Gopy.HeaderFree em.pywrap) ∧
  (∀ x em, G.genInterface pkg x = .ok em → Gopy.HeaderFree em.pywrap) ∧
  (∀ x em, G.genStruct pkg x = .ok em → Gopy.HeaderFree em.pywrap)

/-- What the first loop of `genAll` appends to the wrapper stream for the name `n`:
nothing when the symbol is not a type, else what `genType` appends for the symbol. -/
def genAll.TypeOut (G : Generators) (pkg : Package) (n : String) (out : List PrintOp) :
    Prop :=
  ∃ sym, pkg.syms.sym n = some sym ∧
    ((sym.isType = false ∧ out = []) ∨
      (sym.isType = true ∧ ∃ em, G.genType pkg sym = .ok em ∧ out = em.pywrap))

/-- What `genConst` appends to the wrapper stream for the constant `c`. -/
def genAll.ConstOut (G : Generators) (pkg : Package) (c : Const) (out : List PrintOp) :
    Prop :=
  ∃ em, G.genConstValue pkg c = .ok em ∧ out = em.pywrap

/-- What `genVar` appends to the wrapper stream for the variable `v`: the getter, then
the setter. -/
def genAll.VarOut (G : Generators) (pkg : Package) (v : Var) (out : List PrintOp) : Prop :=
  ∃ e1 e2, G.genVarGetter pkg v = .ok e1 ∧ G.genVarSetter pkg v = .ok e2 ∧
    out = e1.pywrap ++ e2.pywrap

/-- What `genInterface` appends to the wrapper stream for the interface `ifc`. -/
def genAll.IfaceOut (G : Generators) (pkg : Package) (ifc : Interface)
    (out : List PrintOp) : Prop :=
  ∃ em, G.genInterface pkg ifc = .ok em ∧ out = em.pywrap

/-- What `genStruct` appends to the wrapper stream for the struct `s`. -/
def genAll.StructOut (G : Generators) (pkg : Package) (s : Struct) (out : List PrintOp) :
    Prop :=
  ∃ em, G.genStruct pkg s = .ok em ∧ out = em.pywrap

/-- What `genFunc` appends to the wrapper stream for the function `o`, called on a
generator of the package. -/
def genAll.FuncOut (pkg : Package) (o : Func) (out : List PrintOp) : Prop :=
  ∃ ga gb, ga.pkg = pkg ∧ genFunc ga o = .ok gb ∧ gb.pywrap = ga.pywrap ++ out

/-- Sample generators for the code outside the files under study: they write one line per
symbol to the wrapper stream. -/
def G0 : Generators :=
  { genType := fun _ sym =>
      .ok { gofile := [], pybuild := [], pywrap := [PrintOp.printf "# type %s\n" [sym.goname]],
            makefile := [] },
    genConstValue := fun _ c =>
      .ok { gofile := [], pybuild := [], pywrap := [PrintOp.printf "# const %s\n" [c.Name]],
            makefile := [] },
    genVarGetter := fun _ v =>
      .ok { gofile := [], pybuild := [], pywrap := [PrintOp.printf "def %s():\n" [v.Name]],
            makefile := [] },
    genVarSetter := fun _ v =>
      .ok { gofile := [], pybuild := [], pywrap := [PrintOp.printf "def Set_%s(value):\n" [v.Name]],
            makefile := [] },
    genInterface := fun _ _ =>
      .ok { gofile := [], pybuild := [], pywrap := [PrintOp.printf "class %s(GoClass):\n" ["I"]],
            makefile := [] },
    genStruct := fun _ _ =>
      .ok { gofile := [], pybuild := [], pywrap := [PrintOp.printf "class %s(GoClass):\n" ["Foo"]],
            makefile := [] } }

/-- A package with one constant, one variable, the struct `Foo` with the constructor
`NewFoo`, and the free functions `Divide` and `Three`. -/
def pkgAll : Package :=
  { pkg0 with
    consts := [{ Name := "Max", sym := symInt }],
    vars := [varA],
    structs := [{ sym := some symFoo, meths := [fGet], ctors := [fNewFoo] }],
    funcs := [fDivide, fThree] }

/-- A generator for `pkgAll` with empty streams. -/
def gAll : pybindGen := { g0 with pkg := pkgAll }

/-- The generator after `genAll`, when it does not panic. -/
def afterAll (G : Generators) (g : pybindGen) : pybindGen :=
  match genAll G g with
  | .ok g1 => g1
  | .error _ => g

/-! ## Strings taken from the input -/

/-- Every string substituted by a sequence of calls is neutral. -/
def ArgsNeutral (o c : Char) (ops : List PrintOp) : Prop :=
  ∀ op ∈ ops, ∀ a ∈ op.args, Neutral o c a

/-- What the shim stream substitutes from its input, for a receiver `sym`, a `Func` and its
signature: the names of the receiver, of the function and of the parameters, the `py2go`
and `py2goParenEx` of the parameters, the `go2py` and `zval` of the first result, and the
`cgoname` of the symbols the table holds for the parameter types and the first result
type.  The predicate says that each of these strings is neutral. -/
def ShimInputsNeutral (o c : Char) (g : pybindGen) (sym : Option symbol) (fsym : Func)
    (sig : Signature) : Prop :=
  (∀ s, sym = some s → Neutral o c s.goname ∧ Neutral o c s.gofmt) ∧
  Neutral o c fsym.GoName ∧ Neutral o c fsym.GoFmt ∧
  (∀ p ∈ sig.Params, Neutral o c p.Name ∧ Neutral o c p.sym.py2go ∧
    Neutral o c p.sym.py2goParenEx ∧
    ∀ sarg, g.pkg.syms.symtype p.GoType = some sarg → Neutral o c sarg.cgoname) ∧
  (∀ r, sig.Results.head? = some r → Neutral o c r.sym.go2py ∧ Neutral o c r.sym.zval ∧
    ∀ sret, g.pkg.syms.symtype r.GoType = some sret → Neutral o c sret.cgoname)

/-- What the wrapper stream substitutes from its input: the `goname` of the receiver, the
name and the package name of the function, the names of the parameters and the `pyname`
of the first result.  The predicate says that each of these strings is neutral. -/
def WrapInputsNeutral (o c : Char) (sym : Option symbol) (fsym : Func) (sig : Signature) :
    Prop :=
  (∀ s, sym = some s → Neutral o c s.goname) ∧
  Neutral o c fsym.GoName ∧ Neutral o c fsym.PackageName ∧
  (∀ p ∈ sig.Params, Neutral o c p.Name) ∧
  (∀ r, sig.Results.head? = some r → Neutral o c r.sym.pyname)

/-- A `symbol` whose zero-value literal is an opening brace. -/
def symOdd : symbol :=
  { goname := "Odd", cgoname := "C.long", cpyname := "int64_t", pyname := "int",
    zval := "\x7b", go2py := "", py2go := "", py2goParenEx := "", gofmt := "pkg.Odd",
    isSignature := false, isInterface := false, hasHandle := false, isPtrOrIface := false,
    isType := true }

/-- The generator `g0` with `symOdd` added to its symbol table. -/
def gOdd : pybindGen :=
  { g0 with pkg := { pkg0 with syms := { syms := ("pkg.Odd", symOdd) :: pkg0.syms.syms } } }

/-- The result of the method `Odd`, of type `pkg.Odd`. -/
def retOdd : Var := { Name := "", GoType := "pkg.Odd", sym := symOdd }

/-- The method `Odd() pkg.Odd`, declared on `Foo`. -/
def fOdd : Func :=
  { sig := some { Params := [], Results := [retOdd] },
    err := false, GoName := "Odd", GoFmt := "pkg.Odd", PackageName := "pkg" }

/-- The signature of the method `Merge`. -/
def sigMerge : Signature := { Params := [varF, varA], Results := [retInt] }

/-! # Theorems -/

/-! ## The parameter loop of `genFuncSig` -/

/-- The loop of `genFuncSig` takes its `return false` exactly when some parameter is
unresolved or resolves to a symbol of function kind. -/
theorem genFuncSig.argsLoop_eq_none_iff (syms : symtab) (args : List Var)
    (acc : List String × List String × List String) :
    genFuncSig.argsLoop syms args acc = none ↔
      ∃ arg ∈ args, ∀ sarg, syms.symtype arg.GoType = some sarg → sarg.isSignature = true := by
  induction args generalizing acc with
  | nil => simp [genFuncSig.argsLoop]
  | cons a rest ih =>
    obtain ⟨x, y, z⟩ := acc
    cases hl : syms.symtype a.GoType with
    | none => simp [genFuncSig.argsLoop, hl]
    | some sarg =>
      cases hs : sarg.isSignature with
      | true => simp [genFuncSig.argsLoop, hl, hs]
      | false => simp [genFuncSig.argsLoop, hl, hs, ih]

/-- When the parameter loop takes its `return false`, `genFuncSig` returns false and
leaves the generator as it was. -/
theorem genFuncSig_of_argsLoop_none (g : pybindGen) (sym : Option symbol) (fsym : Func)
    (sig : Signature) (hsig : fsym.sig = some sig)
    (h : ∀ acc, genFuncSig.argsLoop g.pkg.syms sig.Params acc = none) :
    genFuncSig g sym fsym = .ok (false, g) := by
  unfold genFuncSig
  simp only [hsig, h]
  split <;> [rfl; (split <;> rfl)]

/-- When `genFuncSig` returns false without writing, the three entry points return the
generator unchanged. -/
theorem gen_unchanged_of_sig_false (g : pybindGen) (fsym : Func)
    (h : ∀ sym, genFuncSig g sym fsym = .ok (false, g)) :
    genFunc g fsym = .ok g ∧ (∀ s : Struct, genMethod g s fsym = .ok g) ∧
      (∀ ifc : Interface, genIfcMethod g ifc fsym = .ok g) := by
  refine ⟨?_, ?_, ?_⟩
  · simp [genFunc, h]
  · intro s; simp [genMethod, h]
  · intro ifc; simp [genIfcMethod, h]

/-! ## Skip laws -/

/-- C1. Result-count skip law: when the result list of a `Func` has more than two entries,
or exactly two while `fsym.err` is false, `genFuncSig` returns false and `genFunc`,
`genMethod` and `genIfcMethod` return the generator, hence all four output streams,
exactly as it was, for a free function and for any receiver. -/
theorem result_count_skip (g : pybindGen) (fsym : Func) (sig : Signature)
    (hsig : fsym.sig = some sig)
    (h : sig.Results.length > 2 ∨ (sig.Results.length = 2 ∧ fsym.err = false)) :
    (∀ sym, genFuncSig g sym fsym = .ok (false, g)) ∧
      genFunc g fsym = .ok g ∧ (∀ s : Struct, genMethod g s fsym = .ok g) ∧
      (∀ ifc : Interface, genIfcMethod g ifc fsym = .ok g) := by
  have hs : ∀ sym, genFuncSig g sym fsym = .ok (false, g) := by
    intro sym
    unfold genFuncSig
    rcases h with h | ⟨h2, he⟩
    · simp [hsig, h]
    · simp [hsig, h2, he]
  exact ⟨hs, gen_unchanged_of_sig_false g fsym hs⟩

/-- C1, at `Three() (int, int, int)`. -/
theorem result_count_skip_witness :
    (∀ sym, genFuncSig g0 sym fThree = .ok (false, g0)) ∧
      genFunc g0 fThree = .ok g0 ∧ (∀ s : Struct, genMethod g0 s fThree = .ok g0) ∧
      (∀ ifc : Interface, genIfcMethod g0 ifc fThree = .ok g0) :=
  result_count_skip g0 fThree { Params := [], Results := [retInt, retInt, retInt] } rfl
    (Or.inl (by decide))

/-- C2. Function-parameter skip law: when some parameter of a `Func` with a non-nil
signature resolves, at any position, to a symbol of function (signature) kind,
`genFuncSig` returns false for any receiver and nothing is written: `genFunc`, `genMethod`
and `genIfcMethod` return the generator exactly as it was. -/
theorem func_param_skip (g : pybindGen) (fsym : Func) (sig : Signature)
    (hsig : fsym.sig = some sig)
    (h : ∃ arg ∈ sig.Params, ∃ sarg,
      g.pkg.syms.symtype arg.GoType = some sarg ∧ sarg.isSignature = true) :
    (∀ sym, genFuncSig g sym fsym = .ok (false, g)) ∧
      genFunc g fsym = .ok g ∧ (∀ s : Struct, genMethod g s fsym = .ok g) ∧
      (∀ ifc : Interface, genIfcMethod g ifc fsym = .ok g) := by
  have hs : ∀ sym, genFuncSig g sym fsym = .ok (false, g) := by
    intro sym
    apply genFuncSig_of_argsLoop_none g sym fsym sig hsig
    intro acc
    rw [genFuncSig.argsLoop_eq_none_iff]
    obtain ⟨arg, hmem, sarg, hl, hk⟩ := h
    refine ⟨arg, hmem, ?_⟩
    intro s hs
    rw [hl] at hs
    cases hs
    exact hk
  exact ⟨hs, gen_unchanged_of_sig_false g fsym hs⟩

/-- C2, at `Apply(a int, cb func(int))`, whose second parameter is of function kind. -/
theorem func_param_skip_witness :
    (∀ sym, genFuncSig g0 sym fApply = .ok (false, g0)) ∧
      genFunc g0 fApply = .ok g0 ∧ (∀ s : Struct, genMethod g0 s fApply = .ok g0) ∧
      (∀ ifc : Interface, genIfcMethod g0 ifc fApply = .ok g0) :=
  func_param_skip g0 fApply
    { Params := [varA, { Name := "cb", GoType := "func(int)", sym := symCallback }],
      Results := [] } rfl
    ⟨{ Name := "cb", GoType := "func(int)", sym := symCallback }, by decide, symCallback,
      by decide, rfl⟩

/-- C3, as stated, fails for a result type: `Make() (r other.T)` references a type with no
symbol in the table, and `genFuncSig` does not return false but panics, as does
`genFunc`. -/
theorem unresolved_result_panics :
    g0.pkg.syms.symtype "other.T" = none ∧
      genFuncSig g0 none fMake = .error (GenPanic.symbolNotFound "r") ∧
      genFunc g0 fMake = .error (GenPanic.symbolNotFound "r") :=
  ⟨by decide, rfl, rfl⟩

/-- C3, amended. Unresolved-parameter skip law: when some parameter type of a `Func` has
no symbol in the symbol table, `genFuncSig` returns false for any receiver without a
panic, and nothing is written: `genFunc`, `genMethod` and `genIfcMethod` return the
generator exactly as it was. -/
theorem unresolved_param_skip (g : pybindGen) (fsym : Func) (sig : Signature)
    (hsig : fsym.sig = some sig)
    (h : ∃ arg ∈ sig.Params, g.pkg.syms.symtype arg.GoType = none) :
    (∀ sym, genFuncSig g sym fsym = .ok (false, g)) ∧
      genFunc g fsym = .ok g ∧ (∀ s : Struct, genMethod g s fsym = .ok g) ∧
      (∀ ifc : Interface, genIfcMethod g ifc fsym = .ok g) := by
  have hs : ∀ sym, genFuncSig g sym fsym = .ok (false, g) := by
    intro sym
    apply genFuncSig_of_argsLoop_none g sym fsym sig hsig
    intro acc
    rw [genFuncSig.argsLoop_eq_none_iff]
    obtain ⟨arg, hmem, hl⟩ := h
    refine ⟨arg, hmem, ?_⟩
    intro s hs
    rw [hl] at hs
    cases hs
  exact ⟨hs, gen_unchanged_of_sig_false g fsym hs⟩

/-- C3, amended, at `Take(t other.T)`. -/
theorem unresolved_param_skip_witness :
    (∀ sym, genFuncSig g0 sym fTake = .ok (false, g0)) ∧
      genFunc g0 fTake = .ok g0 ∧ (∀ s : Struct, genMethod g0 s fTake = .ok g0) ∧
      (∀ ifc : Interface, genIfcMethod g0 ifc fTake = .ok g0) :=
  unresolved_param_skip g0 fTake
    { Params := [{ Name := "t", GoType := "other.T", sym := symOther }], Results := [] } rfl
    ⟨{ Name := "t", GoType := "other.T", sym := symOther }, by decide, by decide⟩

/-! ## What an accepted `Func` makes `genFuncSig` write -/

/-- An accepted `Func`: everything `genFuncSig` has checked and written when it returns
true. -/
theorem genFuncSig_accepted (g g1 : pybindGen) (sym : Option symbol) (fsym : Func)
    (h : genFuncSig g sym fsym = .ok (true, g1)) :
    ∃ sig goArgs pyArgs wpArgs retOp goRet,
      fsym.sig = some sig ∧ sig.Results.length ≤ 2 ∧
      (sig.Results.length = 2 → fsym.err = true) ∧
      genFuncSig.argsLoop g.pkg.syms sig.Params (genFuncSig.initLists sym)
        = some (goArgs, pyArgs, wpArgs) ∧
      genFuncSig.retOf g.pkg.syms sig.Results = some (retOp, goRet) ∧
      g1 = { g with
        gofile := g.gofile ++
          [PrintOp.printf "\n//export %s\n" [genFuncBody.mnm sym fsym],
           PrintOp.printf "func %s(" [genFuncBody.mnm sym fsym],
           genFuncSig.closeShim goArgs goRet],
        pybuild := g.pybuild ++
          [PrintOp.printf "mod.add_function('%s', " [genFuncBody.mnm sym fsym],
           retOp, genFuncSig.closeDecl goArgs pyArgs],
        pywrap := g.pywrap ++
          [PrintOp.printf "def %s(" [fsym.GoName], genFuncSig.closeWrap goArgs wpArgs] } := by
  unfold genFuncSig at h
  cases hsig : fsym.sig with
  | none => simp [hsig] at h
  | some sig =>
    obtain ⟨params, res⟩ := sig
    simp only [hsig] at h
    split at h
    · simp at h
    · split at h
      · simp at h
      · rename_i hn h2
        have herr : res.length = 2 → fsym.err = true := by
          intro hl
          simpa [hl] using h2
        cases sym with
        | none =>
          simp only [Option.isSome_none, Bool.false_eq_true, if_false] at h
          split at h
          · simp at h
          · rename_i goArgs pyArgs wpArgs hloop
            refine ⟨⟨params, res⟩, goArgs, pyArgs, wpArgs, ?_⟩
            cases res with
            | nil =>
              refine ⟨PrintOp.printf "None" [], "", rfl, by simp, herr, ?_, rfl, ?_⟩
              · simpa [genFuncSig.initLists] using hloop
              · simp only [] at h
                split at h <;> rename_i hlen <;>
                  simp only [Except.ok.injEq, Prod.mk.injEq, true_and] at h <;>
                  subst h <;>
                  simp [genFuncBody.mnm, genFuncSig.closeShim, genFuncSig.closeDecl,
                    genFuncSig.closeWrap, hlen, printer.Printf]
            | cons ret rest =>
              simp only [] at h
              cases hl : g.pkg.syms.symtype ret.GoType with
              | none => simp [hl] at h
              | some sret =>
                simp only [hl] at h
                refine ⟨PrintOp.printf "retval('%s')" [sret.cpyname], sret.cgoname, rfl,
                  by simpa using hn, herr, ?_, by simp [genFuncSig.retOf, hl], ?_⟩
                · simpa [genFuncSig.initLists] using hloop
                · split at h <;> rename_i hlen <;>
                  simp only [Except.ok.injEq, Prod.mk.injEq, true_and] at h <;>
                  subst h <;>
                  simp [genFuncBody.mnm, genFuncSig.closeShim, genFuncSig.closeDecl,
                    genFuncSig.closeWrap, hlen, printer.Printf]
        | some s =>
          simp only [Option.isSome_some, if_true] at h
          split at h
          · simp at h
          · rename_i goArgs pyArgs wpArgs hloop
            refine ⟨⟨params, res⟩, goArgs, pyArgs, wpArgs, ?_⟩
            cases res with
            | nil =>
              refine ⟨PrintOp.printf "None" [], "", rfl, by simp, herr, ?_, rfl, ?_⟩
              · simpa [genFuncSig.initLists] using hloop
              · simp only [] at h
                split at h <;> rename_i hlen <;>
                  simp only [Except.ok.injEq, Prod.mk.injEq, true_and] at h <;>
                  subst h <;>
                  simp [genFuncBody.mnm, genFuncSig.closeShim, genFuncSig.closeDecl,
                    genFuncSig.closeWrap, hlen, printer.Printf]
            | cons ret rest =>
              simp only [] at h
              cases hl : g.pkg.syms.symtype ret.GoType with
              | none => simp [hl] at h
              | some sret =>
                simp only [hl] at h
                refine ⟨PrintOp.printf "retval('%s')" [sret.cpyname], sret.cgoname, rfl,
                  by simpa using hn, herr, ?_, by simp [genFuncSig.retOf, hl], ?_⟩
                · simpa [genFuncSig.initLists] using hloop
                · split at h <;> rename_i hlen <;>
                  simp only [Except.ok.injEq, Prod.mk.injEq, true_and] at h <;>
                  subst h <;>
                  simp [genFuncBody.mnm, genFuncSig.closeShim, genFuncSig.closeDecl,
                    genFuncSig.closeWrap, hlen, printer.Printf]

/-! ## What `genFuncBody` writes -/

/-- The block `genFuncBody.resolve` appends `genFuncBody.resolveOps` to the shim stream and
`genFuncBody.resolveDiag` to the standard output. -/
theorem genFuncBody.resolve_eq (g : pybindGen) (sym : Option symbol) (res : List Var) :
    genFuncBody.resolve g sym res =
      { g with gofile := g.gofile ++ genFuncBody.resolveOps sym res,
               stdout := g.stdout ++ genFuncBody.resolveDiag sym res } := by
  unfold genFuncBody.resolve genFuncBody.resolveOps genFuncBody.resolveDiag
    genFuncBody.earlyReturn
  cases sym with
  | none => by_cases h : genFuncBody.rvIsErr res = true <;> cases res <;> simp [h, printer.Printf]
  | some s =>
    cases res with
    | nil => simp [printer.Printf, printer.Indent, printer.Outdent]
    | cons ret rest =>
      by_cases hz : ret.sym.zval = "" <;> by_cases hc : ret.sym.go2py = "" <;>
        simp [hz, hc, printer.Printf, printer.Indent, printer.Outdent]

/-- The block `genFuncBody.wrapOpen` appends `genFuncBody.wrapOpenOp` to the wrapper stream. -/
theorem genFuncBody.wrapOpen_eq (g : pybindGen) (sym : Option symbol) (fsym : Func)
    (res : List Var) :
    genFuncBody.wrapOpen g sym fsym res =
      { g with pywrap := g.pywrap ++ [genFuncBody.wrapOpenOp sym fsym res] } := by
  unfold genFuncBody.wrapOpen genFuncBody.wrapOpenOp
  cases res with
  | nil => simp [printer.Printf]
  | cons ret rest =>
    by_cases h : (!genFuncBody.rvIsErr (ret :: rest) && ret.sym.hasHandle) = true <;>
      simp [h, printer.Printf]

/-- The block `genFuncBody.retOpen` appends `genFuncBody.retOpenOps` to the shim stream. -/
theorem genFuncBody.retOpen_eq (g : pybindGen) (res : List Var) :
    genFuncBody.retOpen g res = { g with gofile := g.gofile ++ genFuncBody.retOpenOps res } := by
  unfold genFuncBody.retOpen genFuncBody.retOpenOps
  cases res with
  | nil => simp
  | cons ret rest =>
    simp only []
    split_ifs <;> simp [printer.Printf]

/-- The block `genFuncBody.errCheck` appends `genFuncBody.errCheckOps` to the shim stream. -/
theorem genFuncBody.errCheck_eq (g : pybindGen) (res : List Var) :
    genFuncBody.errCheck g res = { g with gofile := g.gofile ++ genFuncBody.errCheckOps res } := by
  unfold genFuncBody.errCheck genFuncBody.errCheckOps genFuncBody.returnCret
  by_cases h1 : genFuncBody.rvIsErr res = true
  · simp [h1, printer.Printf, printer.Indent, printer.Outdent]
  · by_cases h2 : (res.length == 2) = true
    · cases res with
      | nil => simp at h2
      | cons ret rest =>
        simp only [h1, h2, Bool.false_or, if_true, if_false, Bool.false_eq_true]
        split_ifs <;> simp [printer.Printf, printer.Indent, printer.Outdent]
    · cases res with
      | nil => simp [h1, genFuncBody.hasAddrOfTmp]
      | cons ret rest =>
        simp only [h1, h2, Bool.false_or, if_false, Bool.false_eq_true, Bool.or_self]
        split_ifs <;> simp [printer.Printf]

/-- The function `genFuncBody` returns on every `Func` with a signature, and appends
`genFuncBody.shimOps` to the shim stream and `genFuncBody.wrapOps` to the wrapper
stream. -/
theorem genFuncBody_eq (g : pybindGen) (sym : Option symbol) (fsym : Func) (sig : Signature)
    (hsig : fsym.sig = some sig) :
    genFuncBody g sym fsym = .ok
      { g with gofile := g.gofile ++ genFuncBody.shimOps sym fsym sig,
               pywrap := g.pywrap ++ genFuncBody.wrapOps sym fsym sig,
               stdout := g.stdout ++ genFuncBody.resolveDiag sym sig.Results } := by
  unfold genFuncBody
  simp only [Func.Signature, hsig, genFuncBody.resolve_eq, genFuncBody.wrapOpen_eq,
    genFuncBody.retOpen_eq, genFuncBody.errCheck_eq]
  unfold genFuncBody.shimOps genFuncBody.wrapOps genFuncBody.callOp genFuncBody.lists
  cases sym <;> by_cases h1 : genFuncBody.rvHasHandle sig.Results = true <;>
    by_cases h2 : genFuncBody.hasRetCvt sig.Results = true <;>
    simp [h1, h2, printer.Printf, printer.Indent, printer.Outdent]

/-! ## Naming -/

/-- A character that occurs in neither of two prefixes splits two equal strings at the
same place. -/
theorem split_at_first {α : Type} (c : α) (l₁ l₂ r₁ r₂ : List α)
    (h₁ : c ∉ l₁) (h₂ : c ∉ l₂) (h : l₁ ++ c :: r₁ = l₂ ++ c :: r₂) :
    l₁ = l₂ ∧ r₁ = r₂ := by
  induction l₁ generalizing l₂ with
  | nil =>
    cases l₂ with
    | nil => simpa using h
    | cons b t =>
      simp only [List.nil_append, List.cons_append, List.cons.injEq] at h
      exact absurd (by simp [h.1]) h₂
  | cons a t ih =>
    cases l₂ with
    | nil =>
      simp only [List.nil_append, List.cons_append, List.cons.injEq] at h
      exact absurd (by simp [h.1]) h₁
    | cons b t₂ =>
      simp only [List.cons_append, List.cons.injEq] at h
      have ha : c ∉ t := fun hc => h₁ (List.mem_cons_of_mem _ hc)
      have hb : c ∉ t₂ := fun hc => h₂ (List.mem_cons_of_mem _ hc)
      obtain ⟨e₁, e₂⟩ := ih t₂ ha hb h.2
      exact ⟨by rw [h.1, e₁], e₂⟩

/-- The shim name of a method and that of a free function without underscore differ. -/
theorem mnm_method_ne_func (s : symbol) (fa fb : Func) (hb : '_' ∉ fb.GoName.data) :
    genFuncBody.mnm (some s) fa ≠ genFuncBody.mnm none fb := by
  intro h
  apply hb
  have hd := congrArg String.data h
  simp only [genFuncBody.mnm, String.data_append] at hd
  rw [← hd]
  simp

/-- Two methods whose type names have no underscore and whose shim names agree have the
same type name and the same method name. -/
theorem mnm_method_inj (sa sb : symbol) (fa fb : Func) (ha : '_' ∉ sa.goname.data)
    (hb : '_' ∉ sb.goname.data)
    (h : genFuncBody.mnm (some sa) fa = genFuncBody.mnm (some sb) fb) :
    sa.goname = sb.goname ∧ fa.GoName = fb.GoName := by
  have hd := congrArg String.data h
  simp only [genFuncBody.mnm, String.data_append, List.append_assoc] at hd
  obtain ⟨e₁, e₂⟩ := split_at_first '_' _ _ _ _ ha hb hd
  exact ⟨String.ext e₁, String.ext e₂⟩

/-- For an accepted `Func` the body is emitted, and `genFuncBody.mnm` is the name written
at the four places that must agree. -/
theorem mnm_at_four_places (g g1 : pybindGen) (sym : Option symbol) (fsym : Func)
    (h : genFuncSig g sym fsym = .ok (true, g1)) :
    ∃ g2, genFuncBody g1 sym fsym = .ok g2 ∧
      (∃ rest, g2.gofile = g.gofile ++
        PrintOp.printf "\n//export %s\n" [genFuncBody.mnm sym fsym] ::
          PrintOp.printf "func %s(" [genFuncBody.mnm sym fsym] :: rest) ∧
      (∃ rest, g2.pybuild = g.pybuild ++
        PrintOp.printf "mod.add_function('%s', " [genFuncBody.mnm sym fsym] :: rest) ∧
      (∃ hdr format pre rest, g2.pywrap = g.pywrap ++
        PrintOp.printf "def %s(" [fsym.GoName] :: hdr :: PrintOp.printf ":\n" [] ::
          PrintOp.indent ::
          PrintOp.printf format (pre ++ [fsym.PackageName, genFuncBody.mnm sym fsym]) ::
          rest ∧
        ((format = "return %s(handle=_%s.%s(" ∧ pre.length = 1) ∨
          (format = "return _%s.%s(" ∧ pre = []) ∨ (format = "_%s.%s(" ∧ pre = []))) := by
  obtain ⟨sig, goArgs, pyArgs, wpArgs, retOp, goRet, hsig, -, -, -, -, hg1⟩ :=
    genFuncSig_accepted g g1 sym fsym h
  refine ⟨_, genFuncBody_eq g1 sym fsym sig hsig, ?_, ?_, ?_⟩
  · subst hg1
    exact ⟨genFuncSig.closeShim goArgs goRet :: genFuncBody.shimOps sym fsym sig, by simp⟩
  · subst hg1
    exact ⟨[retOp, genFuncSig.closeDecl goArgs pyArgs], by simp⟩
  · subst hg1
    simp only [genFuncBody.wrapOps, genFuncBody.wrapOpenOp]
    refine ⟨genFuncSig.closeWrap goArgs wpArgs, ?_⟩
    cases hres : sig.Results with
    | nil =>
      exact ⟨"_%s.%s(", [], _, by simp; rfl, Or.inr (Or.inr ⟨rfl, rfl⟩)⟩
    | cons ret rest =>
      by_cases hh : (!genFuncBody.rvIsErr (ret :: rest) && ret.sym.hasHandle) = true
      · exact ⟨"return %s(handle=_%s.%s(", [ret.sym.pyname], _, by simp [hh]; rfl,
          Or.inl ⟨rfl, rfl⟩⟩
      · exact ⟨"return _%s.%s(", [], _, by simp [hh]; rfl, Or.inr (Or.inl ⟨rfl, rfl⟩)⟩

/-- C4. Naming law: for an accepted `Func` the body is emitted, and one string, `T_M` for
a method `M` with receiver `goname` `T` and the `GoName` for a free function, is the
argument of the `//export` line and of the `func` header in the shim stream, of
`mod.add_function('...')` in the declaration stream, and the call target `_<pkg>.<name>(`
of the wrapper body. -/
theorem shim_name_agreement (g g1 : pybindGen) (sym : Option symbol) (fsym : Func)
    (h : genFuncSig g sym fsym = .ok (true, g1)) :
    ∃ g2, genFuncBody g1 sym fsym = .ok g2 ∧
      (∃ rest, g2.gofile = g.gofile ++
        PrintOp.printf "\n//export %s\n"
            [match sym with | some s => s.goname ++ "_" ++ fsym.GoName | none => fsym.GoName] ::
          PrintOp.printf "func %s("
            [match sym with | some s => s.goname ++ "_" ++ fsym.GoName | none => fsym.GoName] ::
          rest) ∧
      (∃ rest, g2.pybuild = g.pybuild ++
        PrintOp.printf "mod.add_function('%s', "
            [match sym with | some s => s.goname ++ "_" ++ fsym.GoName | none => fsym.GoName] ::
          rest) ∧
      (∃ hdr format pre rest, g2.pywrap = g.pywrap ++
        PrintOp.printf "def %s(" [fsym.GoName] :: hdr :: PrintOp.printf ":\n" [] ::
          PrintOp.indent ::
          PrintOp.printf format (pre ++ [fsym.PackageName,
            match sym with | some s => s.goname ++ "_" ++ fsym.GoName | none => fsym.GoName]) ::
          rest ∧
        ((format = "return %s(handle=_%s.%s(" ∧ pre.length = 1) ∨
          (format = "return _%s.%s(" ∧ pre = []) ∨ (format = "_%s.%s(" ∧ pre = []))) := by
  cases sym with
  | none => exact mnm_at_four_places g g1 none fsym h
  | some s => exact mnm_at_four_places g g1 (some s) fsym h

/-- C4, at the method `Get() int` of `Foo`: the name is `Foo_Get`. -/
theorem shim_name_agreement_witness :
    ∃ g2, genFuncBody (afterSig g0 (some symFoo) fGet) (some symFoo) fGet = .ok g2 ∧
      (∃ rest, g2.gofile = g0.gofile ++
        PrintOp.printf "\n//export %s\n" ["Foo" ++ "_" ++ "Get"] ::
          PrintOp.printf "func %s(" ["Foo" ++ "_" ++ "Get"] :: rest) ∧
      (∃ rest, g2.pybuild = g0.pybuild ++
        PrintOp.printf "mod.add_function('%s', " ["Foo" ++ "_" ++ "Get"] :: rest) ∧
      (∃ hdr format pre rest, g2.pywrap = g0.pywrap ++
        PrintOp.printf "def %s(" ["Get"] :: hdr :: PrintOp.printf ":\n" [] ::
          PrintOp.indent ::
          PrintOp.printf format (pre ++ ["pkg", "Foo" ++ "_" ++ "Get"]) :: rest ∧
        ((format = "return %s(handle=_%s.%s(" ∧ pre.length = 1) ∨
          (format = "return _%s.%s(" ∧ pre = []) ∨ (format = "_%s.%s(" ∧ pre = []))) :=
  shim_name_agreement g0 (afterSig g0 (some symFoo) fGet) (some symFoo) fGet rfl

/-- The first call `genFuncSig` makes on the shim stream for an accepted `Func` is the
`//export` line with `genFuncBody.mnm`. -/
theorem genFuncSig_export_line (g g1 : pybindGen) (sym : Option symbol) (fsym : Func)
    (h : genFuncSig g sym fsym = .ok (true, g1)) :
    (g1.gofile.drop g.gofile.length).head? =
      some (PrintOp.printf "\n//export %s\n" [genFuncBody.mnm sym fsym]) := by
  obtain ⟨sig, goArgs, pyArgs, wpArgs, retOp, goRet, -, -, -, -, -, hg1⟩ :=
    genFuncSig_accepted g g1 sym fsym h
  subst hg1
  simp

/-- C5, as stated, fails: the struct `Foo` with method `Bar` and the free function
`Foo_Bar` are distinct Go identifiers, both are accepted, and emitting the method and then
the function writes the line `//export Foo_Bar` to the shim stream twice. -/
theorem export_name_collision :
    fBar.GoName ≠ fFooBar.GoName ∧
      ((genMethod g0 sFoo fBar).bind (fun g => genFunc g fFooBar)).map
          (fun g => g.gofile.count (PrintOp.printf "\n//export %s\n" ["Foo_Bar"]))
        = .ok 2 :=
  ⟨by decide, rfl⟩

/-- C5, amended. Name uniqueness without underscores: take two functions or methods that
`genFuncSig` accepts, where the receiver type name of a method and the name of a free
function contain no underscore.  If they differ in receiver type name or in Go name, the
`//export` lines written for them differ. -/
theorem export_names_distinct (ga ga1 gb gb1 : pybindGen) (sa sb : Option symbol)
    (fa fb : Func)
    (ha : genFuncSig ga sa fa = .ok (true, ga1))
    (hb : genFuncSig gb sb fb = .ok (true, gb1))
    (hua : '_' ∉ (match sa with | some s => s.goname | none => fa.GoName).data)
    (hub : '_' ∉ (match sb with | some s => s.goname | none => fb.GoName).data)
    (hne : ¬ (sa.map (fun s => s.goname) = sb.map (fun s => s.goname) ∧
      fa.GoName = fb.GoName)) :
    (ga1.gofile.drop ga.gofile.length).head? ≠ (gb1.gofile.drop gb.gofile.length).head? := by
  rw [genFuncSig_export_line ga ga1 sa fa ha, genFuncSig_export_line gb gb1 sb fb hb]
  intro heq
  simp only [Option.some.injEq, PrintOp.printf.injEq, List.cons.injEq, and_true,
    true_and] at heq
  apply hne
  cases sa with
  | none =>
    cases sb with
    | none => exact ⟨rfl, heq⟩
    | some s => exact absurd heq.symm (mnm_method_ne_func s fb fa hua)
  | some s =>
    cases sb with
    | none => exact absurd heq (mnm_method_ne_func s fa fb hub)
    | some t =>
      obtain ⟨e₁, e₂⟩ := mnm_method_inj s t fa fb hua hub heq
      exact ⟨by simp [e₁], e₂⟩

/-- C5, amended, at the method `Get` of `Foo` and the free function `Divide`. -/
theorem export_names_distinct_witness :
    genFuncSig g0 (some symFoo) fGet = .ok (true, afterSig g0 (some symFoo) fGet) ∧
      genFuncSig g0 none fDivide = .ok (true, afterSig g0 none fDivide) ∧
      ((afterSig g0 (some symFoo) fGet).gofile.drop g0.gofile.length).head? ≠
        ((afterSig g0 none fDivide).gofile.drop g0.gofile.length).head? :=
  ⟨rfl, rfl, export_names_distinct g0 (afterSig g0 (some symFoo) fGet) g0
    (afterSig g0 none fDivide) (some symFoo) none fGet fDivide rfl rfl (by decide)
    (by decide) (by decide)⟩

/-! ## Argument lists -/

/-- When the loop of `genFuncSig` runs to its end, it has appended one entry per
parameter, in order, to each of its three lists. -/
theorem genFuncSig.argsLoop_eq_some (syms : symtab) (args : List Var)
    (a b c a₁ b₁ c₁ : List String)
    (h : genFuncSig.argsLoop syms args (a, b, c) = some (a₁, b₁, c₁)) :
    a₁ = a ++ args.map (genFuncSig.goArgOf syms) ∧
      b₁ = b ++ args.map (genFuncSig.pyArgOf syms) ∧
      c₁ = c ++ args.map (fun arg => arg.Name) := by
  induction args generalizing a b c with
  | nil =>
    simp only [genFuncSig.argsLoop, Option.some.injEq, Prod.mk.injEq] at h
    simp [h.1, h.2.1, h.2.2]
  | cons x rest ih =>
    cases hl : syms.symtype x.GoType with
    | none => simp [genFuncSig.argsLoop, hl] at h
    | some sarg =>
      cases hs : sarg.isSignature with
      | true => simp [genFuncSig.argsLoop, hl, hs] at h
      | false =>
        simp only [genFuncSig.argsLoop, hl, hs, Bool.false_eq_true, if_false] at h
        obtain ⟨e₁, e₂, e₃⟩ := ih _ _ _ h
        simp [e₁, e₂, e₃, genFuncSig.goArgOf, genFuncSig.pyArgOf, hl]

/-- The loop of `genFuncBody` appends one entry per parameter, in order, to `callArgs` and
to `wrapArgs`. -/
theorem genFuncBody.argsLoop_eq (args : List Var) (x y : List String) :
    genFuncBody.argsLoop args (x, y) =
      (x ++ args.map genFuncBody.callArgOf, y ++ args.map genFuncBody.wrapArgOf) := by
  induction args generalizing x y with
  | nil => simp [genFuncBody.argsLoop]
  | cons a rest ih =>
    simp only [genFuncBody.argsLoop, ih, genFuncBody.callArgOf, genFuncBody.wrapArgOf]
    by_cases hh : a.sym.hasHandle = true <;>
      simp [hh, genFuncBody.callArgOf, genFuncBody.wrapArgOf]

/-- C6. Argument-order consistency: for an accepted `Func` with `n` parameters the body is
emitted, and the four lists the code joins with `", "`: `goArgs` (shim parameters),
`pyArgs` (declaration `param(...)` entries), `wpArgs` (wrapper `def` parameters) and
`wrapArgs` (wrapper call arguments), written to their streams by the calls shown, each
have `n` entries for a free function and `n + 1` for a method; the `i`-th parameter
supplies entry `i` (after the receiver entry, if any) of all four, built from its name;
and for a method entry `0` is the receiver handle in each. -/
theorem argument_order (g g1 : pybindGen) (sym : Option symbol) (fsym : Func)
    (h : genFuncSig g sym fsym = .ok (true, g1)) :
    ∃ sig goArgs pyArgs wpArgs wrapArgs goRet g2,
      fsym.sig = some sig ∧ genFuncBody g1 sym fsym = .ok g2 ∧
      -- where the four lists are written
      (∃ pre post, g2.gofile = g.gofile ++ pre ++ genFuncSig.closeShim goArgs goRet :: post ∧
        pre.length = 2) ∧
      (∃ pre, g2.pybuild = g.pybuild ++ pre ++ [genFuncSig.closeDecl goArgs pyArgs] ∧
        pre.length = 2) ∧
      (∃ d o post, g2.pywrap = g.pywrap ++
        d :: genFuncSig.closeWrap goArgs wpArgs :: PrintOp.printf ":\n" [] ::
          PrintOp.indent :: o :: PrintOp.printf "%s)" [", ".intercalate wrapArgs] :: post) ∧
      -- their lengths
      goArgs.length = (if sym.isSome then 1 else 0) + sig.Params.length ∧
      pyArgs.length = (if sym.isSome then 1 else 0) + sig.Params.length ∧
      wpArgs.length = (if sym.isSome then 1 else 0) + sig.Params.length ∧
      wrapArgs.length = (if sym.isSome then 1 else 0) + sig.Params.length ∧
      -- the entries of the declared parameters
      (∀ i arg, sig.Params[i]? = some arg →
        ∃ sarg, g.pkg.syms.symtype arg.GoType = some sarg ∧
          goArgs[(if sym.isSome then 1 else 0) + i]? = some (arg.Name ++ " " ++ sarg.cgoname) ∧
          pyArgs[(if sym.isSome then 1 else 0) + i]? =
            some ("param('" ++ sarg.cpyname ++ "', '" ++ arg.Name ++ "')") ∧
          wpArgs[(if sym.isSome then 1 else 0) + i]? = some arg.Name ∧
          wrapArgs[(if sym.isSome then 1 else 0) + i]? =
            some (if arg.sym.hasHandle then arg.Name ++ ".handle" else arg.Name)) ∧
      -- the receiver entry
      (sym.isSome →
        goArgs[0]? = some "_handle CGoHandle" ∧
        pyArgs[0]? = some ("param('" ++ PyHandle ++ "', '_handle')") ∧
        wpArgs[0]? = some "self" ∧ wrapArgs[0]? = some "self.handle") := by
  obtain ⟨sig, goArgs, pyArgs, wpArgs, retOp, goRet, hsig, -, -, hloop, -, hg1⟩ :=
    genFuncSig_accepted g g1 sym fsym h
  have hnone := hloop
  obtain ⟨ea, eb, ec⟩ := genFuncSig.argsLoop_eq_some _ _ _ _ _ _ _ _ hloop
  have hres : ∀ arg ∈ sig.Params, ∃ sarg, g.pkg.syms.symtype arg.GoType = some sarg := by
    intro arg hmem
    by_contra hcon
    have : genFuncSig.argsLoop g.pkg.syms sig.Params (genFuncSig.initLists sym) = none := by
      rw [genFuncSig.argsLoop_eq_none_iff]
      refine ⟨arg, hmem, ?_⟩
      intro s hs
      exact absurd ⟨s, hs⟩ hcon
    rw [this] at hnone
    cases hnone
  refine ⟨sig, goArgs, pyArgs, wpArgs, (genFuncBody.lists sym sig).2, goRet, _, hsig,
    genFuncBody_eq g1 sym fsym sig hsig, ?_, ?_, ?_, ?_, ?_, ?_, ?_, ?_, ?_⟩
  · subst hg1
    exact ⟨[PrintOp.printf "\n//export %s\n" [genFuncBody.mnm sym fsym],
      PrintOp.printf "func %s(" [genFuncBody.mnm sym fsym]], genFuncBody.shimOps sym fsym sig,
      by simp, rfl⟩
  · subst hg1
    exact ⟨[PrintOp.printf "mod.add_function('%s', " [genFuncBody.mnm sym fsym], retOp],
      by simp, rfl⟩
  · subst hg1
    exact ⟨_, _, _, by simp [genFuncBody.wrapOps]; exact ⟨rfl, rfl, rfl⟩⟩
  · cases sym <;> simp [ea, genFuncSig.initLists, Nat.add_comm]
  · cases sym <;> simp [eb, genFuncSig.initLists, Nat.add_comm]
  · cases sym <;> simp [ec, genFuncSig.initLists, Nat.add_comm]
  · cases sym <;> simp [genFuncBody.lists, genFuncBody.argsLoop_eq, Nat.add_comm]
  · intro i arg hi
    obtain ⟨sarg, hl⟩ := hres arg (List.getElem?_mem hi)
    refine ⟨sarg, hl, ?_⟩
    cases sym <;>
      simp [ea, eb, ec, genFuncBody.lists, genFuncBody.argsLoop_eq, Nat.add_comm 1 i,
        List.getElem?_map, hi, genFuncSig.goArgOf, genFuncSig.pyArgOf, hl,
        genFuncBody.wrapArgOf, genFuncSig.initLists]
  · intro hs
    cases sym with
    | none => simp at hs
    | some s =>
      simp [ea, eb, ec, genFuncBody.lists, genFuncBody.argsLoop_eq, genFuncSig.initLists]

/-- C6, at the free function `Divide(a, b int) (int, error)`. -/
theorem argument_order_witness :
    genFuncSig g0 none fDivide = .ok (true, afterSig g0 none fDivide) ∧
    ∃ sig goArgs pyArgs wpArgs wrapArgs goRet g2,
      fDivide.sig = some sig ∧ genFuncBody (afterSig g0 none fDivide) none fDivide = .ok g2 ∧
      (∃ pre post, g2.gofile = g0.gofile ++ pre ++ genFuncSig.closeShim goArgs goRet :: post ∧
        pre.length = 2) ∧
      (∃ pre, g2.pybuild = g0.pybuild ++ pre ++ [genFuncSig.closeDecl goArgs pyArgs] ∧
        pre.length = 2) ∧
      (∃ d o post, g2.pywrap = g0.pywrap ++
        d :: genFuncSig.closeWrap goArgs wpArgs :: PrintOp.printf ":\n" [] ::
          PrintOp.indent :: o :: PrintOp.printf "%s)" [", ".intercalate wrapArgs] :: post) ∧
      goArgs.length = (if (none : Option symbol).isSome then 1 else 0) + sig.Params.length ∧
      pyArgs.length = (if (none : Option symbol).isSome then 1 else 0) + sig.Params.length ∧
      wpArgs.length = (if (none : Option symbol).isSome then 1 else 0) + sig.Params.length ∧
      wrapArgs.length = (if (none : Option symbol).isSome then 1 else 0) + sig.Params.length ∧
      (∀ i arg, sig.Params[i]? = some arg →
        ∃ sarg, g0.pkg.syms.symtype arg.GoType = some sarg ∧
          goArgs[(if (none : Option symbol).isSome then 1 else 0) + i]? =
            some (arg.Name ++ " " ++ sarg.cgoname) ∧
          pyArgs[(if (none : Option symbol).isSome then 1 else 0) + i]? =
            some ("param('" ++ sarg.cpyname ++ "', '" ++ arg.Name ++ "')") ∧
          wpArgs[(if (none : Option symbol).isSome then 1 else 0) + i]? = some arg.Name ∧
          wrapArgs[(if (none : Option symbol).isSome then 1 else 0) + i]? =
            some (if arg.sym.hasHandle then arg.Name ++ ".handle" else arg.Name)) ∧
      ((none : Option symbol).isSome →
        goArgs[0]? = some "_handle CGoHandle" ∧
        pyArgs[0]? = some ("param('" ++ PyHandle ++ "', '_handle')") ∧
        wpArgs[0]? = some "self" ∧ wrapArgs[0]? = some "self.handle") :=
  ⟨rfl, argument_order g0 (afterSig g0 none fDivide) none fDivide rfl⟩

/-! ## The exception path -/

/-- The result list of an accepted `Func` is empty, a single result, or two results. -/
theorem results_shape (res : List Var) (h : res.length ≤ 2) :
    res = [] ∨ (∃ r, res = [r]) ∨ (∃ r e, res = [r, e]) := by
  match res, h with
  | [], _ => exact Or.inl rfl
  | [r], _ => exact Or.inr (Or.inl ⟨r, rfl⟩)
  | [r, e], _ => exact Or.inr (Or.inr ⟨r, e, rfl⟩)
  | _ :: _ :: _ :: _, h => simp at h

/-- C7. Exception path iff failure indicator: for an accepted `Func` the body is emitted,
and what it appends to the shim stream contains the statement
`C.PyErr_SetString(C.PyExc_RuntimeError, C.CString(err.Error()))` exactly once, right
after the opening of an `if err != nil` block, if and only if the `Func` has two results
or its single result is of error type.  Otherwise the statement and the block are absent,
and the shim body ends with the underlying call alone, or with a `return` of that call
(converted when the result symbol declares a conversion, through the temporary `cret`
when the result is a handle-bearing value). -/
theorem exception_path_iff (g g1 : pybindGen) (sym : Option symbol) (fsym : Func)
    (h : genFuncSig g sym fsym = .ok (true, g1)) :
    ∃ sig g2 body, fsym.sig = some sig ∧ genFuncBody g1 sym fsym = .ok g2 ∧
      g2.gofile = g1.gofile ++ body ∧
      (body.count
          (PrintOp.printf "C.PyErr_SetString(C.PyExc_RuntimeError, C.CString(err.Error()))\n" [])
          = 1 ↔
        (sig.Results.length = 2 ∨ ∃ ret, sig.Results = [ret] ∧ isErrorType ret.GoType = true)) ∧
      ((sig.Results.length = 2 ∨ ∃ ret, sig.Results = [ret] ∧ isErrorType ret.GoType = true) →
        [PrintOp.printf "if err != nil \x7b\n" [], PrintOp.indent,
          PrintOp.printf "C.PyErr_SetString(C.PyExc_RuntimeError, C.CString(err.Error()))\n" []]
          <:+: body) ∧
      (¬ (sig.Results.length = 2 ∨ ∃ ret, sig.Results = [ret] ∧ isErrorType ret.GoType = true) →
        PrintOp.printf "C.PyErr_SetString(C.PyExc_RuntimeError, C.CString(err.Error()))\n" []
          ∉ body ∧
        PrintOp.printf "if err != nil \x7b\n" [] ∉ body ∧
        ∃ pre stmt, body = pre ++ stmt ++
            [PrintOp.printf "\n" [], PrintOp.outdent, PrintOp.printf "\x7d\n" []] ∧
          (stmt = [genFuncBody.callOp sym fsym (genFuncBody.lists sym sig).1] ∨
           stmt = [PrintOp.printf "return " [],
              genFuncBody.callOp sym fsym (genFuncBody.lists sym sig).1] ∨
           (∃ c, stmt = [PrintOp.printf "return %s(" [c],
              genFuncBody.callOp sym fsym (genFuncBody.lists sym sig).1,
              PrintOp.printf ")" []]) ∨
           (∃ c, stmt = [PrintOp.printf "cret := " [],
              genFuncBody.callOp sym fsym (genFuncBody.lists sym sig).1,
              PrintOp.printf "\nreturn %s(&cret)" [c]]))) := by
  obtain ⟨sig, goArgs, pyArgs, wpArgs, retOp, goRet, hsig, hlen, -, -, -, -⟩ :=
    genFuncSig_accepted g g1 sym fsym h
  refine ⟨sig, _, genFuncBody.shimOps sym fsym sig, hsig, genFuncBody_eq g1 sym fsym sig hsig,
    rfl, ?_⟩
  obtain ⟨params, res⟩ := sig
  simp only at hlen ⊢
  rcases results_shape res hlen with rfl | ⟨r, rfl⟩ | ⟨r, e, rfl⟩
  · have hE : ¬ (([] : List Var).length = 2 ∨
        ∃ ret, ([] : List Var) = [ret] ∧ isErrorType ret.GoType = true) := by simp
    have hb : genFuncBody.shimOps sym fsym { Params := params, Results := [] } =
        ([PrintOp.printf " \x7b\n" [], PrintOp.indent] ++ genFuncBody.resolveOps sym []) ++
          [genFuncBody.callOp sym fsym (genFuncBody.lists sym { Params := params, Results := [] }).1] ++
          [PrintOp.printf "\n" [], PrintOp.outdent, PrintOp.printf "\x7d\n" []] := by
      simp [genFuncBody.shimOps, genFuncBody.retOpenOps, genFuncBody.errCheckOps,
        genFuncBody.hasRetCvt, genFuncBody.hasAddrOfTmp, genFuncBody.rvIsErr]
    refine ⟨?_, fun hc => absurd hc hE, fun _ => ⟨?_, ?_, _, _, hb, Or.inl rfl⟩⟩
    · rw [hb]
      cases sym <;>
        simp [genFuncBody.resolveOps, genFuncBody.rvIsErr, genFuncBody.earlyReturn,
          genFuncBody.callOp, genFuncBody.handleTryFormat, List.count_cons]
    · rw [hb]
      cases sym <;>
        simp [genFuncBody.resolveOps, genFuncBody.rvIsErr, genFuncBody.earlyReturn,
          genFuncBody.callOp, genFuncBody.handleTryFormat]
    · rw [hb]
      cases sym <;>
        simp [genFuncBody.resolveOps, genFuncBody.rvIsErr, genFuncBody.earlyReturn,
          genFuncBody.callOp, genFuncBody.handleTryFormat]
  · by_cases he : isErrorType r.GoType = true
    · have hE : ([r].length = 2 ∨ ∃ ret, [r] = [ret] ∧ isErrorType ret.GoType = true) :=
        Or.inr ⟨r, rfl, he⟩
      have hb : genFuncBody.shimOps sym fsym { Params := params, Results := [r] } =
          ([PrintOp.printf " \x7b\n" [], PrintOp.indent] ++ genFuncBody.resolveOps sym [r] ++
            [PrintOp.printf "err = " [],
              genFuncBody.callOp sym fsym (genFuncBody.lists sym { Params := params, Results := [r] }).1,
              PrintOp.printf "\n" []]) ++
          [PrintOp.printf "if err != nil \x7b\n" [], PrintOp.indent,
            PrintOp.printf genFuncBody.setErrFormat []] ++
          [PrintOp.printf "return C.CString(err.Error())" [], PrintOp.outdent,
            PrintOp.printf "\x7d\n" [], PrintOp.printf "return C.CString(\"\")" [],
            PrintOp.printf "\n" [], PrintOp.outdent, PrintOp.printf "\x7d\n" []] := by
        simp [genFuncBody.shimOps, genFuncBody.retOpenOps, genFuncBody.errCheckOps,
          genFuncBody.hasRetCvt, genFuncBody.hasAddrOfTmp, genFuncBody.rvIsErr, he]
      refine ⟨⟨fun _ => hE, fun _ => ?_⟩, fun _ => ⟨_, _, hb.symm⟩, fun hc => absurd hE hc⟩
      · rw [hb]
        cases sym <;> simp [genFuncBody.resolveOps, genFuncBody.rvIsErr, genFuncBody.earlyReturn,
          genFuncBody.callOp, genFuncBody.handleTryFormat, genFuncBody.setErrFormat,
          genFuncBody.returnCret, List.count_cons, he] <;> split_ifs <;> simp_all
    · have hE : ¬ ([r].length = 2 ∨ ∃ ret, [r] = [ret] ∧ isErrorType ret.GoType = true) := by
        simp [he]
      by_cases hh : (r.sym.hasHandle && !r.sym.isPtrOrIface) = true
      · have hb : genFuncBody.shimOps sym fsym { Params := params, Results := [r] } =
            ([PrintOp.printf " \x7b\n" [], PrintOp.indent] ++ genFuncBody.resolveOps sym [r]) ++
              [PrintOp.printf "cret := " [], genFuncBody.callOp sym fsym (genFuncBody.lists sym { Params := params, Results := [r] }).1,
                PrintOp.printf "\nreturn %s(&cret)" [r.sym.go2py]] ++
              [PrintOp.printf "\n" [], PrintOp.outdent, PrintOp.printf "\x7d\n" []] := by
          simp [genFuncBody.shimOps, genFuncBody.retOpenOps, genFuncBody.errCheckOps,
            genFuncBody.hasRetCvt, genFuncBody.hasAddrOfTmp, genFuncBody.rvIsErr, he, hh]
        refine ⟨⟨fun hc => ?_, fun hc => absurd hc hE⟩, fun hc => absurd hc hE,
          fun _ => ⟨?_, ?_, _, _, hb, Or.inr (Or.inr (Or.inr ⟨_, rfl⟩))⟩⟩
        · exfalso
          rw [hb] at hc
          revert hc
          cases sym <;> simp [genFuncBody.resolveOps, genFuncBody.rvIsErr,
            genFuncBody.earlyReturn, genFuncBody.callOp, genFuncBody.handleTryFormat,
            List.count_cons, he] <;> split_ifs <;> simp_all
        · rw [hb]
          cases sym <;> simp [genFuncBody.resolveOps, genFuncBody.rvIsErr,
            genFuncBody.earlyReturn, genFuncBody.callOp, genFuncBody.handleTryFormat, he] <;>
            split_ifs <;> simp_all
        · rw [hb]
          cases sym <;> simp [genFuncBody.resolveOps, genFuncBody.rvIsErr,
            genFuncBody.earlyReturn, genFuncBody.callOp, genFuncBody.handleTryFormat, he] <;>
            split_ifs <;> simp_all
      · by_cases hc2 : r.sym.go2py = ""
        · have hb : genFuncBody.shimOps sym fsym { Params := params, Results := [r] } =
              ([PrintOp.printf " \x7b\n" [], PrintOp.indent] ++ genFuncBody.resolveOps sym [r]) ++
                [PrintOp.printf "return " [], genFuncBody.callOp sym fsym (genFuncBody.lists sym { Params := params, Results := [r] }).1] ++
                [PrintOp.printf "\n" [], PrintOp.outdent, PrintOp.printf "\x7d\n" []] := by
            simp [genFuncBody.shimOps, genFuncBody.retOpenOps, genFuncBody.errCheckOps,
              genFuncBody.hasRetCvt, genFuncBody.hasAddrOfTmp, genFuncBody.rvIsErr, he, hh, hc2]
          refine ⟨⟨fun hc => ?_, fun hc => absurd hc hE⟩, fun hc => absurd hc hE,
            fun _ => ⟨?_, ?_, _, _, hb, Or.inr (Or.inl rfl)⟩⟩
          · exfalso
            rw [hb] at hc
            revert hc
            cases sym <;> simp [genFuncBody.resolveOps, genFuncBody.rvIsErr,
              genFuncBody.earlyReturn, genFuncBody.callOp, genFuncBody.handleTryFormat,
              List.count_cons, he] <;> split_ifs <;> simp_all
          · rw [hb]
            cases sym <;> simp [genFuncBody.resolveOps, genFuncBody.rvIsErr,
              genFuncBody.earlyReturn, genFuncBody.callOp, genFuncBody.handleTryFormat, he] <;>
              split_ifs <;> simp_all
          · rw [hb]
            cases sym <;> simp [genFuncBody.resolveOps, genFuncBody.rvIsErr,
              genFuncBody.earlyReturn, genFuncBody.callOp, genFuncBody.handleTryFormat, he] <;>
              split_ifs <;> simp_all
        · have hb : genFuncBody.shimOps sym fsym { Params := params, Results := [r] } =
              ([PrintOp.printf " \x7b\n" [], PrintOp.indent] ++ genFuncBody.resolveOps sym [r]) ++
                [PrintOp.printf "return %s(" [r.sym.go2py], genFuncBody.callOp sym fsym (genFuncBody.lists sym { Params := params, Results := [r] }).1,
                  PrintOp.printf ")" []] ++
                [PrintOp.printf "\n" [], PrintOp.outdent, PrintOp.printf "\x7d\n" []] := by
            simp [genFuncBody.shimOps, genFuncBody.retOpenOps, genFuncBody.errCheckOps,
              genFuncBody.hasRetCvt, genFuncBody.hasAddrOfTmp, genFuncBody.rvIsErr, he, hh, hc2]
          refine ⟨⟨fun hc => ?_, fun hc => absurd hc hE⟩, fun hc => absurd hc hE,
            fun _ => ⟨?_, ?_, _, _, hb, Or.inr (Or.inr (Or.inl ⟨_, rfl⟩))⟩⟩
          · exfalso
            rw [hb] at hc
            revert hc
            cases sym <;> simp [genFuncBody.resolveOps, genFuncBody.rvIsErr,
              genFuncBody.earlyReturn, genFuncBody.callOp, genFuncBody.handleTryFormat,
              List.count_cons, he] <;> split_ifs <;> simp_all
          · rw [hb]
            cases sym <;> simp [genFuncBody.resolveOps, genFuncBody.rvIsErr,
              genFuncBody.earlyReturn, genFuncBody.callOp, genFuncBody.handleTryFormat, he] <;>
              split_ifs <;> simp_all
          · rw [hb]
            cases sym <;> simp [genFuncBody.resolveOps, genFuncBody.rvIsErr,
              genFuncBody.earlyReturn, genFuncBody.callOp, genFuncBody.handleTryFormat, he] <;>
              split_ifs <;> simp_all
  · have hE : ([r, e].length = 2 ∨ ∃ ret, [r, e] = [ret] ∧ isErrorType ret.GoType = true) :=
      Or.inl rfl
    have he : genFuncBody.rvIsErr [r, e] = false := rfl
    have hb : genFuncBody.shimOps sym fsym { Params := params, Results := [r, e] } =
        ([PrintOp.printf " \x7b\n" [], PrintOp.indent] ++ genFuncBody.resolveOps sym [r, e] ++
          [PrintOp.printf "cret, err := " [],
            genFuncBody.callOp sym fsym (genFuncBody.lists sym { Params := params, Results := [r, e] }).1,
            PrintOp.printf "\n" []]) ++
        [PrintOp.printf "if err != nil \x7b\n" [], PrintOp.indent,
          PrintOp.printf genFuncBody.setErrFormat []] ++
        ([PrintOp.outdent, PrintOp.printf "\x7d\n" []] ++ genFuncBody.returnCret [r, e] ++
          [PrintOp.printf "\n" [], PrintOp.outdent, PrintOp.printf "\x7d\n" []]) := by
      simp [genFuncBody.shimOps, genFuncBody.retOpenOps, genFuncBody.errCheckOps,
        genFuncBody.hasRetCvt, genFuncBody.hasAddrOfTmp, genFuncBody.rvIsErr]
    refine ⟨⟨fun _ => hE, fun _ => ?_⟩, fun _ => ⟨_, _, hb.symm⟩, fun hc => absurd hE hc⟩
    · rw [hb]
      cases sym <;> simp [genFuncBody.resolveOps, genFuncBody.earlyReturn,
          genFuncBody.callOp, genFuncBody.handleTryFormat, genFuncBody.setErrFormat,
          genFuncBody.returnCret, List.count_cons, he] <;> split_ifs <;> simp_all

/-- C7, at the method `Get() int` of `Foo`: no exception path. -/
theorem exception_path_iff_witness :
    genFuncSig g0 (some symFoo) fGet = .ok (true, afterSig g0 (some symFoo) fGet) ∧
    ∃ sig g2 body, fGet.sig = some sig ∧
      genFuncBody (afterSig g0 (some symFoo) fGet) (some symFoo) fGet = .ok g2 ∧
      g2.gofile = (afterSig g0 (some symFoo) fGet).gofile ++ body ∧
      (body.count
          (PrintOp.printf "C.PyErr_SetString(C.PyExc_RuntimeError, C.CString(err.Error()))\n" [])
          = 1 ↔
        (sig.Results.length = 2 ∨ ∃ ret, sig.Results = [ret] ∧ isErrorType ret.GoType = true)) ∧
      ((sig.Results.length = 2 ∨ ∃ ret, sig.Results = [ret] ∧ isErrorType ret.GoType = true) →
        [PrintOp.printf "if err != nil \x7b\n" [], PrintOp.indent,
          PrintOp.printf "C.PyErr_SetString(C.PyExc_RuntimeError, C.CString(err.Error()))\n" []]
          <:+: body) ∧
      (¬ (sig.Results.length = 2 ∨ ∃ ret, sig.Results = [ret] ∧ isErrorType ret.GoType = true) →
        PrintOp.printf "C.PyErr_SetString(C.PyExc_RuntimeError, C.CString(err.Error()))\n" []
          ∉ body ∧
        PrintOp.printf "if err != nil \x7b\n" [] ∉ body ∧
        ∃ pre stmt, body = pre ++ stmt ++
            [PrintOp.printf "\n" [], PrintOp.outdent, PrintOp.printf "\x7d\n" []] ∧
          (stmt = [genFuncBody.callOp (some symFoo) fGet (genFuncBody.lists (some symFoo) sig).1] ∨
           stmt = [PrintOp.printf "return " [],
              genFuncBody.callOp (some symFoo) fGet (genFuncBody.lists (some symFoo) sig).1] ∨
           (∃ c, stmt = [PrintOp.printf "return %s(" [c],
              genFuncBody.callOp (some symFoo) fGet (genFuncBody.lists (some symFoo) sig).1,
              PrintOp.printf ")" []]) ∨
           (∃ c, stmt = [PrintOp.printf "cret := " [],
              genFuncBody.callOp (some symFoo) fGet (genFuncBody.lists (some symFoo) sig).1,
              PrintOp.printf "\nreturn %s(&cret)" [c]]))) :=
  ⟨rfl, exception_path_iff g0 (afterSig g0 (some symFoo) fGet) (some symFoo) fGet rfl⟩

/-! ## The failure path of the shim -/

/-- C8, the code at `Divide(a, b int) (int, error)`: the `if err != nil` block of the
emitted shim holds the `C.PyErr_SetString` statement and nothing else, so that on the
failure path control leaves the block and reaches `return C.long(cret)`: the shim returns
the value produced by the failed call, not the zero value of the result symbol. -/
theorem divide_shim_returns_cret :
    shimOf fDivide = .ok
      [PrintOp.printf "\n//export %s\n" ["Divide"],
       PrintOp.printf "func %s(" ["Divide"],
       PrintOp.printf "%v) %v" ["a C.long, b C.long", "C.long"],
       PrintOp.printf " \x7b\n" [],
       PrintOp.indent,
       PrintOp.printf "cret, err := " [],
       PrintOp.printf "%s(%s)" ["pkg.Divide", "int(a), int(b)"],
       PrintOp.printf "\n" [],
       PrintOp.printf "if err != nil \x7b\n" [],
       PrintOp.indent,
       PrintOp.printf "C.PyErr_SetString(C.PyExc_RuntimeError, C.CString(err.Error()))\n" [],
       PrintOp.outdent,
       PrintOp.printf "\x7d\n" [],
       PrintOp.printf "return %s(cret)" ["C.long"],
       PrintOp.printf "\n" [],
       PrintOp.outdent,
       PrintOp.printf "\x7d\n" []] :=
  rfl

/-- C9, as stated, fails: for `Check() error`, accepted, the declaration carries the
return tag `retval('char*')` and not `None`, the shim header has the return type
`*C.char`, and on success the shim returns `C.CString("")`. -/
theorem error_only_crosses_as_string :
    declOf fCheck = .ok
      [PrintOp.printf "mod.add_function('%s', " ["Check"],
       PrintOp.printf "retval('%s')" ["char*"],
       PrintOp.printf ", [])\n" []] ∧
    shimOf fCheck = .ok
      [PrintOp.printf "\n//export %s\n" ["Check"],
       PrintOp.printf "func %s(" ["Check"],
       PrintOp.printf ") %v" ["*C.char"],
       PrintOp.printf " \x7b\n" [],
       PrintOp.indent,
       PrintOp.printf "var err error\n" [],
       PrintOp.printf "err = " [],
       PrintOp.printf "%s(%s)" ["pkg.Check", ""],
       PrintOp.printf "\n" [],
       PrintOp.printf "if err != nil \x7b\n" [],
       PrintOp.indent,
       PrintOp.printf "C.PyErr_SetString(C.PyExc_RuntimeError, C.CString(err.Error()))\n" [],
       PrintOp.printf "return C.CString(err.Error())" [],
       PrintOp.outdent,
       PrintOp.printf "\x7d\n" [],
       PrintOp.printf "return C.CString(\"\")" [],
       PrintOp.printf "\n" [],
       PrintOp.outdent,
       PrintOp.printf "\x7d\n" []] :=
  ⟨rfl, rfl⟩

/-- C9, amended. Error-only result crosses as a C string: for an accepted `Func` whose
only result is of error type, the body is emitted; the return tag of the declaration is
`retval('<cpyname>')` of the symbol of that result, the shim header ends with that
symbol's `cgoname` as return type, and the shim body ends with the exception block
returning `C.CString(err.Error())` followed, for the success path, by
`return C.CString("")`. -/
theorem error_only_result (g g1 : pybindGen) (sym : Option symbol) (fsym : Func)
    (sig : Signature) (ret : Var) (hsig : fsym.sig = some sig)
    (hres : sig.Results = [ret]) (herr : isErrorType ret.GoType = true)
    (h : genFuncSig g sym fsym = .ok (true, g1)) :
    ∃ sret g2 goArgs pyArgs pre,
      g.pkg.syms.symtype ret.GoType = some sret ∧ genFuncBody g1 sym fsym = .ok g2 ∧
      g2.pybuild = g.pybuild ++
        [PrintOp.printf "mod.add_function('%s', " [genFuncBody.mnm sym fsym],
         PrintOp.printf "retval('%s')" [sret.cpyname],
         genFuncSig.closeDecl goArgs pyArgs] ∧
      g2.gofile = g.gofile ++
        [PrintOp.printf "\n//export %s\n" [genFuncBody.mnm sym fsym],
         PrintOp.printf "func %s(" [genFuncBody.mnm sym fsym],
         genFuncSig.closeShim goArgs sret.cgoname] ++ pre ++
        [PrintOp.printf "err = " [],
         genFuncBody.callOp sym fsym (genFuncBody.lists sym sig).1,
         PrintOp.printf "\n" [],
         PrintOp.printf "if err != nil \x7b\n" [],
         PrintOp.indent,
         PrintOp.printf "C.PyErr_SetString(C.PyExc_RuntimeError, C.CString(err.Error()))\n" [],
         PrintOp.printf "return C.CString(err.Error())" [],
         PrintOp.outdent,
         PrintOp.printf "\x7d\n" [],
         PrintOp.printf "return C.CString(\"\")" [],
         PrintOp.printf "\n" [],
         PrintOp.outdent,
         PrintOp.printf "\x7d\n" []] := by
  obtain ⟨sig₁, goArgs, pyArgs, wpArgs, retOp, goRet, hsig₁, -, -, -, hret, hg1⟩ :=
    genFuncSig_accepted g g1 sym fsym h
  rw [hsig] at hsig₁
  cases hsig₁
  rw [hres] at hret
  cases hl : g.pkg.syms.symtype ret.GoType with
  | none => simp [genFuncSig.retOf, hl] at hret
  | some sret =>
    simp only [genFuncSig.retOf, hl, Option.some.injEq, Prod.mk.injEq] at hret
    obtain ⟨rfl, rfl⟩ := hret
    refine ⟨sret, _, goArgs, pyArgs,
      [PrintOp.printf " \x7b\n" [], PrintOp.indent] ++ genFuncBody.resolveOps sym sig.Results,
      rfl, genFuncBody_eq g1 sym fsym sig hsig, ?_, ?_⟩
    · subst hg1
      rfl
    · subst hg1
      simp [genFuncBody.shimOps, genFuncBody.retOpenOps, genFuncBody.errCheckOps,
        genFuncBody.hasRetCvt, genFuncBody.hasAddrOfTmp, genFuncBody.rvIsErr, hres, herr,
        genFuncBody.setErrFormat]

/-- C9, amended, at `Check() error`. -/
theorem error_only_result_witness :
    fCheck.sig = some { Params := [], Results := [retErr] } ∧
    isErrorType retErr.GoType = true ∧
    genFuncSig g0 none fCheck = .ok (true, afterSig g0 none fCheck) ∧
    ∃ sret g2 goArgs pyArgs pre,
      g0.pkg.syms.symtype retErr.GoType = some sret ∧
      genFuncBody (afterSig g0 none fCheck) none fCheck = .ok g2 ∧
      g2.pybuild = g0.pybuild ++
        [PrintOp.printf "mod.add_function('%s', " [genFuncBody.mnm none fCheck],
         PrintOp.printf "retval('%s')" [sret.cpyname],
         genFuncSig.closeDecl goArgs pyArgs] ∧
      g2.gofile = g0.gofile ++
        [PrintOp.printf "\n//export %s\n" [genFuncBody.mnm none fCheck],
         PrintOp.printf "func %s(" [genFuncBody.mnm none fCheck],
         genFuncSig.closeShim goArgs sret.cgoname] ++ pre ++
        [PrintOp.printf "err = " [],
         genFuncBody.callOp none fCheck
           (genFuncBody.lists none { Params := [], Results := [retErr] }).1,
         PrintOp.printf "\n" [],
         PrintOp.printf "if err != nil \x7b\n" [],
         PrintOp.indent,
         PrintOp.printf "C.PyErr_SetString(C.PyExc_RuntimeError, C.CString(err.Error()))\n" [],
         PrintOp.printf "return C.CString(err.Error())" [],
         PrintOp.outdent,
         PrintOp.printf "\x7d\n" [],
         PrintOp.printf "return C.CString(\"\")" [],
         PrintOp.printf "\n" [],
         PrintOp.outdent,
         PrintOp.printf "\x7d\n" []] :=
  ⟨rfl, rfl, rfl, error_only_result g0 (afterSig g0 none fCheck) none fCheck
    { Params := [], Results := [retErr] } retErr rfl rfl rfl rfl⟩

/-! ## Receiver resolution -/

/-- C10. Receiver resolution degrades to the zero value: for an accepted `Func` the body
is emitted.  For a method, what it appends to the shim stream starts with the opening
brace, the `VarFmHandleTry` resolution of `_handle` whose format ends with the opening of
an `if err != nil` block, and that block, whose only statement is the return of the `zval`
of the first result's symbol (wrapped in its `go2py` when one is declared), or a bare
`return` when there is no result; the block is closed before anything else is written,
sets no host exception, and the underlying call comes after it.  For a free function no
call on the shim stream is a `VarFmHandleTry` resolution. -/
theorem receiver_resolution (g g1 : pybindGen) (sym : Option symbol) (fsym : Func)
    (h : genFuncSig g sym fsym = .ok (true, g1)) :
    ∃ sig g2 body, fsym.sig = some sig ∧ genFuncBody g1 sym fsym = .ok g2 ∧
      g2.gofile = g1.gofile ++ body ∧
      match sym with
      | some s =>
        ∃ rest, body =
          [PrintOp.printf " \x7b\n" [], PrintOp.indent,
           PrintOp.printf genFuncBody.handleTryFormat
             [if !s.isInterface then "*" ++ s.gofmt else s.gofmt],
           PrintOp.indent,
           (match sig.Results with
            | ret :: _ =>
              if ret.sym.go2py != "" then
                PrintOp.printf "return %s(%s)\n" [ret.sym.go2py, ret.sym.zval]
              else PrintOp.printf "return %s\n" [ret.sym.zval]
            | [] => PrintOp.printf "return\n" []),
           PrintOp.outdent, PrintOp.printf "\x7d\n" []] ++ rest ∧
          genFuncBody.callOp (some s) fsym (genFuncBody.lists (some s) sig).1 ∈ rest
      | none => ∀ op ∈ body, ∀ a, op ≠ PrintOp.printf genFuncBody.handleTryFormat a := by
  obtain ⟨sig, goArgs, pyArgs, wpArgs, retOp, goRet, hsig, hlen, -, -, -, -⟩ :=
    genFuncSig_accepted g g1 sym fsym h
  refine ⟨sig, _, genFuncBody.shimOps sym fsym sig, hsig, genFuncBody_eq g1 sym fsym sig hsig,
    rfl, ?_⟩
  cases sym with
  | some s =>
    refine ⟨genFuncBody.retOpenOps sig.Results ++
      [genFuncBody.callOp (some s) fsym (genFuncBody.lists (some s) sig).1] ++
      (if genFuncBody.hasRetCvt sig.Results then [PrintOp.printf ")" []] else []) ++
      genFuncBody.errCheckOps sig.Results ++
      [PrintOp.printf "\n" [], PrintOp.outdent, PrintOp.printf "\x7d\n" []], ?_, by simp⟩
    simp only [genFuncBody.shimOps, genFuncBody.resolveOps, genFuncBody.earlyReturn,
      genFuncBody.symNm]
    cases sig.Results <;> simp
  | none =>
    intro op hop a heq
    subst heq
    revert hop
    simp only [genFuncBody.shimOps, genFuncBody.resolveOps, genFuncBody.retOpenOps,
      genFuncBody.errCheckOps, genFuncBody.returnCret, genFuncBody.callOp,
      genFuncBody.setErrFormat, genFuncBody.handleTryFormat]
    cases sig.Results <;> simp <;> split_ifs <;> simp

/-- C10, at the method `Get() int` of `Foo`: the early return is `return C.long(0)`. -/
theorem receiver_resolution_witness :
    genFuncSig g0 (some symFoo) fGet = .ok (true, afterSig g0 (some symFoo) fGet) ∧
    ∃ sig g2 body, fGet.sig = some sig ∧
      genFuncBody (afterSig g0 (some symFoo) fGet) (some symFoo) fGet = .ok g2 ∧
      g2.gofile = (afterSig g0 (some symFoo) fGet).gofile ++ body ∧
      ∃ rest, body =
        [PrintOp.printf " \x7b\n" [], PrintOp.indent,
         PrintOp.printf genFuncBody.handleTryFormat
           [if !symFoo.isInterface then "*" ++ symFoo.gofmt else symFoo.gofmt],
         PrintOp.indent,
         (match sig.Results with
          | ret :: _ =>
            if ret.sym.go2py != "" then
              PrintOp.printf "return %s(%s)\n" [ret.sym.go2py, ret.sym.zval]
            else PrintOp.printf "return %s\n" [ret.sym.zval]
          | [] => PrintOp.printf "return\n" []),
         PrintOp.outdent, PrintOp.printf "\x7d\n" []] ++ rest ∧
        genFuncBody.callOp (some symFoo) fGet (genFuncBody.lists (some symFoo) sig).1 ∈ rest :=
  ⟨rfl, receiver_resolution g0 (afterSig g0 (some symFoo) fGet) (some symFoo) fGet rfl⟩

/-! ## Skips and diagnostics -/

/-- When `genFuncSig` returns false it has written nothing: the generator is as it was. -/
theorem genFuncSig_rejected (g g1 : pybindGen) (sym : Option symbol) (fsym : Func)
    (h : genFuncSig g sym fsym = .ok (false, g1)) : g1 = g := by
  unfold genFuncSig at h
  cases hsig : fsym.sig with
  | none =>
    simp only [hsig, Except.ok.injEq, Prod.mk.injEq, true_and] at h
    exact h.symm
  | some sig =>
    obtain ⟨params, res⟩ := sig
    simp only [hsig] at h
    split at h
    · simp only [Except.ok.injEq, Prod.mk.injEq, true_and] at h
      exact h.symm
    · split at h
      · simp only [Except.ok.injEq, Prod.mk.injEq, true_and] at h
        exact h.symm
      · split at h
        · simp only [Except.ok.injEq, Prod.mk.injEq, true_and] at h
          exact h.symm
        · cases res with
          | nil =>
            simp only [] at h
            split at h <;> simp at h
          | cons ret rest =>
            simp only [] at h
            cases hl : g.pkg.syms.symtype ret.GoType with
            | none => cases sym <;> simp [hl] at h
            | some sret =>
              cases sym <;> simp only [hl] at h <;> split at h <;> simp at h

/-- C16, as stated, fails: `Three() (int, int, int)` is skipped for its result count, and
after `genFunc` the diagnostic list `err` of the generator is still empty. -/
theorem skip_records_nothing :
    genFuncSig g0 none fThree = .ok (false, g0) ∧
      (genFunc g0 fThree).map (fun g => g.err) = .ok [] :=
  ⟨rfl, rfl⟩

/-- C16, amended. Skips are silent: whenever `genFuncSig` returns false for a `Func`, no
diagnostic is recorded: the generator after the call is the generator before it, so its
diagnostic list `err` and the standard output are as they were, and there is no panic. -/
theorem skip_is_silent (g g1 : pybindGen) (sym : Option symbol) (fsym : Func)
    (h : genFuncSig g sym fsym = .ok (false, g1)) :
    g1 = g ∧ g1.err = g.err ∧ g1.stdout = g.stdout := by
  have e := genFuncSig_rejected g g1 sym fsym h
  subst e
  exact ⟨rfl, rfl, rfl⟩

/-- C16, amended, at `Apply(a int, cb func(int))`. -/
theorem skip_is_silent_witness :
    genFuncSig g0 none fApply = .ok (false, g0) ∧
      g0 = g0 ∧ g0.err = g0.err ∧ g0.stdout = g0.stdout :=
  ⟨rfl, skip_is_silent g0 g0 none fApply rfl⟩

/-- C11, as stated, fails: the result symbol of the method `Blank` of `Foo` has an empty
`zval`; `genMethod` does not abort: it prints the diagnostic and goes on to write the
early return `return ` with the empty literal and the rest of the shim body. -/
theorem empty_zval_not_fatal :
    symBlank.zval = "" ∧
    (genMethod gBlank sFoo fBlank).map (fun g => (g.stdout, g.gofile)) = .ok
      ([StdoutMsg.emptyZval symBlank],
       [PrintOp.printf "\n//export %s\n" ["Foo_Blank"],
        PrintOp.printf "func %s(" ["Foo_Blank"],
        PrintOp.printf "%v) %v" ["_handle CGoHandle", "C.long"],
        PrintOp.printf " \x7b\n" [],
        PrintOp.indent,
        PrintOp.printf genFuncBody.handleTryFormat ["*pkg.Foo"],
        PrintOp.indent,
        PrintOp.printf "return %s\n" [""],
        PrintOp.outdent,
        PrintOp.printf "\x7d\n" [],
        PrintOp.printf "return " [],
        PrintOp.printf "vifc.(%s).%s(%s)" ["*pkg.Foo", "Blank", ""],
        PrintOp.printf "\n" [],
        PrintOp.outdent,
        PrintOp.printf "\x7d\n" []]) :=
  ⟨rfl, rfl⟩

/-- C11, amended. A missing zero value is reported and generation continues: for a method
`Func` whose first result symbol has an empty `zval`, `genFuncBody` returns; it has added
one line naming that symbol to the standard output, and has written to the shim stream
the receiver resolution, the early return with the empty literal (wrapped in `go2py` when
one is declared) and, after the closed block, the rest of the body with the underlying
call. -/
theorem empty_zval_reported (g : pybindGen) (s : symbol) (fsym : Func) (sig : Signature)
    (ret : Var) (rest : List Var) (hsig : fsym.sig = some sig)
    (hres : sig.Results = ret :: rest) (hz : ret.sym.zval = "") :
    ∃ g2 tail, genFuncBody g (some s) fsym = .ok g2 ∧
      g2.stdout = g.stdout ++ [StdoutMsg.emptyZval ret.sym] ∧
      g2.gofile = g.gofile ++
        [PrintOp.printf " \x7b\n" [], PrintOp.indent,
         PrintOp.printf genFuncBody.handleTryFormat [genFuncBody.symNm (some s)],
         PrintOp.indent,
         (if ret.sym.go2py != "" then PrintOp.printf "return %s(%s)\n" [ret.sym.go2py, ""]
          else PrintOp.printf "return %s\n" [""]),
         PrintOp.outdent, PrintOp.printf "\x7d\n" []] ++ tail ∧
      genFuncBody.callOp (some s) fsym (genFuncBody.lists (some s) sig).1 ∈ tail := by
  refine ⟨_, genFuncBody.retOpenOps sig.Results ++
      [genFuncBody.callOp (some s) fsym (genFuncBody.lists (some s) sig).1] ++
      (if genFuncBody.hasRetCvt sig.Results then [PrintOp.printf ")" []] else []) ++
      genFuncBody.errCheckOps sig.Results ++
      [PrintOp.printf "\n" [], PrintOp.outdent, PrintOp.printf "\x7d\n" []],
    genFuncBody_eq g (some s) fsym sig hsig, ?_, ?_, by simp⟩
  · simp [genFuncBody.resolveDiag, hres, hz]
  · simp [genFuncBody.shimOps, genFuncBody.resolveOps, genFuncBody.earlyReturn, hres, hz]

/-- C11, amended, at the method `Blank` of `Foo`. -/
theorem empty_zval_reported_witness :
    fBlank.sig = some { Params := [], Results := [retBlank] } ∧
    retBlank.sym.zval = "" ∧
    ∃ g2 tail, genFuncBody gBlank (some symFoo) fBlank = .ok g2 ∧
      g2.stdout = gBlank.stdout ++ [StdoutMsg.emptyZval retBlank.sym] ∧
      g2.gofile = gBlank.gofile ++
        [PrintOp.printf " \x7b\n" [], PrintOp.indent,
         PrintOp.printf genFuncBody.handleTryFormat [genFuncBody.symNm (some symFoo)],
         PrintOp.indent,
         (if retBlank.sym.go2py != "" then
            PrintOp.printf "return %s(%s)\n" [retBlank.sym.go2py, ""]
          else PrintOp.printf "return %s\n" [""]),
         PrintOp.outdent, PrintOp.printf "\x7d\n" []] ++ tail ∧
      genFuncBody.callOp (some symFoo) fBlank
        (genFuncBody.lists (some symFoo) { Params := [], Results := [retBlank] }).1 ∈ tail :=
  ⟨rfl, rfl, empty_zval_reported gBlank symFoo fBlank { Params := [], Results := [retBlank] }
    retBlank [] rfl rfl rfl⟩

/-! ## Wrapper call and shim call -/

/-- C12. Handle-result wrapping: for an accepted `Func` the body is emitted, and what it
appends to the wrapper stream is, between `:` and the closing newlines, the statement
`return <pyname>(handle=_<pkg>.<shimname>(<args>))` when the `Func` has a first result
that is not a sole failure indicator and whose symbol requires a handle; otherwise
`return _<pkg>.<shimname>(<args>)` when there is a result, and the bare call
`_<pkg>.<shimname>(<args>)` when there is none. -/
theorem handle_result_wrapping (g g1 : pybindGen) (sym : Option symbol) (fsym : Func)
    (h : genFuncSig g sym fsym = .ok (true, g1)) :
    ∃ sig g2, fsym.sig = some sig ∧ genFuncBody g1 sym fsym = .ok g2 ∧
      g2.pywrap = g1.pywrap ++ [PrintOp.printf ":\n" [], PrintOp.indent] ++
        (match sig.Results with
         | ret :: _ =>
           if genFuncBody.rvIsErr sig.Results = false ∧ ret.sym.hasHandle = true then
             [PrintOp.printf "return %s(handle=_%s.%s("
                [ret.sym.pyname, fsym.PackageName, genFuncBody.mnm sym fsym],
              PrintOp.printf "%s)" [", ".intercalate (genFuncBody.lists sym sig).2],
              PrintOp.printf ")" []]
           else
             [PrintOp.printf "return _%s.%s(" [fsym.PackageName, genFuncBody.mnm sym fsym],
              PrintOp.printf "%s)" [", ".intercalate (genFuncBody.lists sym sig).2]]
         | [] =>
           [PrintOp.printf "_%s.%s(" [fsym.PackageName, genFuncBody.mnm sym fsym],
            PrintOp.printf "%s)" [", ".intercalate (genFuncBody.lists sym sig).2]]) ++
        [PrintOp.printf "\n" [], PrintOp.outdent, PrintOp.printf "\n" []] := by
  obtain ⟨sig, goArgs, pyArgs, wpArgs, retOp, goRet, hsig, -, -, -, -, -⟩ :=
    genFuncSig_accepted g g1 sym fsym h
  refine ⟨sig, _, hsig, genFuncBody_eq g1 sym fsym sig hsig, ?_⟩
  simp only [genFuncBody.wrapOps, genFuncBody.wrapOpenOp, genFuncBody.rvHasHandle]
  cases hres : sig.Results with
  | nil => simp
  | cons ret rest =>
    by_cases h1 : genFuncBody.rvIsErr (ret :: rest) = true <;>
      by_cases h2 : ret.sym.hasHandle = true <;> simp [h1, h2]

/-- C12, at the constructor-like function `NewFoo() pkg.Foo`. -/
theorem handle_result_wrapping_witness :
    genFuncSig g0 none fNewFoo = .ok (true, afterSig g0 none fNewFoo) ∧
    ∃ sig g2, fNewFoo.sig = some sig ∧
      genFuncBody (afterSig g0 none fNewFoo) none fNewFoo = .ok g2 ∧
      g2.pywrap = (afterSig g0 none fNewFoo).pywrap ++
        [PrintOp.printf ":\n" [], PrintOp.indent] ++
        (match sig.Results with
         | ret :: _ =>
           if genFuncBody.rvIsErr sig.Results = false ∧ ret.sym.hasHandle = true then
             [PrintOp.printf "return %s(handle=_%s.%s("
                [ret.sym.pyname, fNewFoo.PackageName, genFuncBody.mnm none fNewFoo],
              PrintOp.printf "%s)" [", ".intercalate (genFuncBody.lists none sig).2],
              PrintOp.printf ")" []]
           else
             [PrintOp.printf "return _%s.%s(" [fNewFoo.PackageName, genFuncBody.mnm none fNewFoo],
              PrintOp.printf "%s)" [", ".intercalate (genFuncBody.lists none sig).2]]
         | [] =>
           [PrintOp.printf "_%s.%s(" [fNewFoo.PackageName, genFuncBody.mnm none fNewFoo],
            PrintOp.printf "%s)" [", ".intercalate (genFuncBody.lists none sig).2]]) ++
        [PrintOp.printf "\n" [], PrintOp.outdent, PrintOp.printf "\n" []] :=
  ⟨rfl, handle_result_wrapping g0 (afterSig g0 none fNewFoo) none fNewFoo rfl⟩

/-- C13. Wrapper argument unwrapping: for an accepted `Func` the body is emitted, and the
call-argument list the wrapper joins with `", "` and writes right after the opening of the
call is `self.handle` for a method, followed by one entry per declared parameter, in
declaration order: `<p>.handle` when the symbol of `p` requires a handle, `<p>`
otherwise. -/
theorem wrapper_arguments (g g1 : pybindGen) (sym : Option symbol) (fsym : Func)
    (h : genFuncSig g sym fsym = .ok (true, g1)) :
    ∃ sig g2 opening post, fsym.sig = some sig ∧ genFuncBody g1 sym fsym = .ok g2 ∧
      g2.pywrap = g1.pywrap ++ [PrintOp.printf ":\n" [], PrintOp.indent, opening,
        PrintOp.printf "%s)" [", ".intercalate
          ((if sym.isSome then ["self.handle"] else []) ++
            sig.Params.map
              (fun p => if p.sym.hasHandle then p.Name ++ ".handle" else p.Name))]] ++ post ∧
      opening = genFuncBody.wrapOpenOp sym fsym sig.Results := by
  obtain ⟨sig, goArgs, pyArgs, wpArgs, retOp, goRet, hsig, -, -, -, -, -⟩ :=
    genFuncSig_accepted g g1 sym fsym h
  refine ⟨sig, _, genFuncBody.wrapOpenOp sym fsym sig.Results,
    (if genFuncBody.rvHasHandle sig.Results then [PrintOp.printf ")" []] else []) ++
      [PrintOp.printf "\n" [], PrintOp.outdent, PrintOp.printf "\n" []],
    hsig, genFuncBody_eq g1 sym fsym sig hsig, ?_, rfl⟩
  have hw : (genFuncBody.lists sym sig).2 = (if sym.isSome then ["self.handle"] else []) ++
      sig.Params.map (fun p => if p.sym.hasHandle then p.Name ++ ".handle" else p.Name) := by
    simp only [genFuncBody.lists, genFuncBody.argsLoop_eq]
    rfl
  simp [genFuncBody.wrapOps, hw]

/-- C13, at the method `Merge(f pkg.Foo, a int) int` of `Foo`. -/
theorem wrapper_arguments_witness :
    genFuncSig g0 (some symFoo) fMerge = .ok (true, afterSig g0 (some symFoo) fMerge) ∧
    ∃ sig g2 opening post, fMerge.sig = some sig ∧
      genFuncBody (afterSig g0 (some symFoo) fMerge) (some symFoo) fMerge = .ok g2 ∧
      g2.pywrap = (afterSig g0 (some symFoo) fMerge).pywrap ++
        [PrintOp.printf ":\n" [], PrintOp.indent, opening,
        PrintOp.printf "%s)" [", ".intercalate
          ((if (some symFoo).isSome then ["self.handle"] else []) ++
            sig.Params.map
              (fun p => if p.sym.hasHandle then p.Name ++ ".handle" else p.Name))]] ++ post ∧
      opening = genFuncBody.wrapOpenOp (some symFoo) fMerge sig.Results :=
  ⟨rfl, wrapper_arguments g0 (afterSig g0 (some symFoo) fMerge) (some symFoo) fMerge rfl⟩

/-- C14. Shim argument conversion: for an accepted `Func` the body is emitted, and the
underlying call written to the shim stream (`vifc.(<T>).<Method>(<args>)` for a method,
`<GoFmt>(<args>)` for a free function) has for `<args>` the `", "`-join of one entry per
declared parameter, in declaration order: `<py2go>(<p>)<py2goParenEx>` when the symbol of
`p` declares a `py2go` conversion, `<p>` when it declares none.  The list holds nothing
else, so the receiver handle is not among the arguments. -/
theorem shim_call_arguments (g g1 : pybindGen) (sym : Option symbol) (fsym : Func)
    (h : genFuncSig g sym fsym = .ok (true, g1)) :
    ∃ sig g2 pre post, fsym.sig = some sig ∧ genFuncBody g1 sym fsym = .ok g2 ∧
      g2.gofile = g1.gofile ++ pre ++
        (match sym with
         | some _ =>
           PrintOp.printf "vifc.(%s).%s(%s)" [genFuncBody.symNm sym, fsym.GoName,
             ", ".intercalate (sig.Params.map (fun p =>
               if p.sym.py2go != "" then p.sym.py2go ++ "(" ++ p.Name ++ ")" ++ p.sym.py2goParenEx
               else p.Name))]
         | none =>
           PrintOp.printf "%s(%s)" [fsym.GoFmt,
             ", ".intercalate (sig.Params.map (fun p =>
               if p.sym.py2go != "" then p.sym.py2go ++ "(" ++ p.Name ++ ")" ++ p.sym.py2goParenEx
               else p.Name))]) :: post := by
  obtain ⟨sig, goArgs, pyArgs, wpArgs, retOp, goRet, hsig, -, -, -, -, -⟩ :=
    genFuncSig_accepted g g1 sym fsym h
  refine ⟨sig, _,
    [PrintOp.printf " \x7b\n" [], PrintOp.indent] ++ genFuncBody.resolveOps sym sig.Results ++
      genFuncBody.retOpenOps sig.Results,
    (if genFuncBody.hasRetCvt sig.Results then [PrintOp.printf ")" []] else []) ++
      genFuncBody.errCheckOps sig.Results ++
      [PrintOp.printf "\n" [], PrintOp.outdent, PrintOp.printf "\x7d\n" []],
    hsig, genFuncBody_eq g1 sym fsym sig hsig, ?_⟩
  have hc : (genFuncBody.lists sym sig).1 = sig.Params.map (fun p =>
      if p.sym.py2go != "" then p.sym.py2go ++ "(" ++ p.Name ++ ")" ++ p.sym.py2goParenEx
      else p.Name) := by
    simp only [genFuncBody.lists, genFuncBody.argsLoop_eq]
    rfl
  cases sym <;> simp [genFuncBody.shimOps, genFuncBody.callOp, hc]

/-- C14, at the method `Merge(f pkg.Foo, a int) int` of `Foo`. -/
theorem shim_call_arguments_witness :
    genFuncSig g0 (some symFoo) fMerge = .ok (true, afterSig g0 (some symFoo) fMerge) ∧
    ∃ sig g2 pre post, fMerge.sig = some sig ∧
      genFuncBody (afterSig g0 (some symFoo) fMerge) (some symFoo) fMerge = .ok g2 ∧
      g2.gofile = (afterSig g0 (some symFoo) fMerge).gofile ++ pre ++
        PrintOp.printf "vifc.(%s).%s(%s)" [genFuncBody.symNm (some symFoo), fMerge.GoName,
          ", ".intercalate (sig.Params.map (fun p =>
            if p.sym.py2go != "" then p.sym.py2go ++ "(" ++ p.Name ++ ")" ++ p.sym.py2goParenEx
            else p.Name))] :: post :=
  ⟨rfl, shim_call_arguments g0 (afterSig g0 (some symFoo) fMerge) (some symFoo) fMerge rfl⟩

/-- C20. Checked downcast consistency: for an accepted method `Func` the body is emitted,
and one string `T`, the formatted Go name of the receiver symbol for an interface receiver
and `*` followed by that name for any other receiver, is both the kind tag passed to
`VarFmHandleTry` and, later in the shim stream, the type asserted in
`vifc.(<T>).<Method>(...)`. -/
theorem downcast_consistency (g g1 : pybindGen) (s : symbol) (fsym : Func)
    (h : genFuncSig g (some s) fsym = .ok (true, g1)) :
    ∃ sig g2 pre mid post callArgs, fsym.sig = some sig ∧
      genFuncBody g1 (some s) fsym = .ok g2 ∧
      g2.gofile = g1.gofile ++ pre ++
        PrintOp.printf genFuncBody.handleTryFormat
            [if s.isInterface then s.gofmt else "*" ++ s.gofmt] :: mid ++
        PrintOp.printf "vifc.(%s).%s(%s)"
            [if s.isInterface then s.gofmt else "*" ++ s.gofmt, fsym.GoName, callArgs] ::
          post := by
  obtain ⟨sig, goArgs, pyArgs, wpArgs, retOp, goRet, hsig, -, -, -, -, -⟩ :=
    genFuncSig_accepted g g1 (some s) fsym h
  refine ⟨sig, _, [PrintOp.printf " \x7b\n" [], PrintOp.indent],
    [PrintOp.indent, genFuncBody.earlyReturn sig.Results, PrintOp.outdent,
      PrintOp.printf "\x7d\n" []] ++ genFuncBody.retOpenOps sig.Results,
    (if genFuncBody.hasRetCvt sig.Results then [PrintOp.printf ")" []] else []) ++
      genFuncBody.errCheckOps sig.Results ++
      [PrintOp.printf "\n" [], PrintOp.outdent, PrintOp.printf "\x7d\n" []],
    ", ".intercalate (genFuncBody.lists (some s) sig).1,
    hsig, genFuncBody_eq g1 (some s) fsym sig hsig, ?_⟩
  cases hi : s.isInterface <;>
    simp [genFuncBody.shimOps, genFuncBody.resolveOps, genFuncBody.callOp, genFuncBody.symNm, hi]

/-- C20, at the method `Get() int` of the struct `Foo`: the type is `*pkg.Foo`. -/
theorem downcast_consistency_witness :
    genFuncSig g0 (some symFoo) fGet = .ok (true, afterSig g0 (some symFoo) fGet) ∧
    ∃ sig g2 pre mid post callArgs, fGet.sig = some sig ∧
      genFuncBody (afterSig g0 (some symFoo) fGet) (some symFoo) fGet = .ok g2 ∧
      g2.gofile = (afterSig g0 (some symFoo) fGet).gofile ++ pre ++
        PrintOp.printf genFuncBody.handleTryFormat
            [if symFoo.isInterface then symFoo.gofmt else "*" ++ symFoo.gofmt] :: mid ++
        PrintOp.printf "vifc.(%s).%s(%s)"
            [if symFoo.isInterface then symFoo.gofmt else "*" ++ symFoo.gofmt, fGet.GoName,
              callArgs] ::
          post :=
  ⟨rfl, downcast_consistency g0 (afterSig g0 (some symFoo) fGet) symFoo fGet rfl⟩

/-! ## The helpers of the shim preamble and the handle registry -/

/-- C18. Boolean conversion round trip: `boolGoToPy` sends true to 1 and false to 0,
`boolPyToGo` is true exactly on the non-zero values, and `boolPyToGo (boolGoToPy b) = b`
for every boolean `b`. -/
theorem bool_round_trip :
    boolGoToPy true = 1 ∧ boolGoToPy false = 0 ∧
      (∀ c : CChar, boolPyToGo c = true ↔ c ≠ 0) ∧
      ∀ b : Bool, boolPyToGo (boolGoToPy b) = b := by
  refine ⟨rfl, rfl, ?_, ?_⟩
  · intro c
    simp [boolPyToGo]
  · intro b
    cases b <;> rfl

/-- C19. Handle round trip: in every state of the registry and for every native value
`v`, resolving the handle returned by `allocate v`, in the registry after the allocation
and with the kind tag of `v`, returns `v`. -/
theorem handle_round_trip (r : VarHand) (v : NativeValue) :
    (r.allocate v).2.resolve (r.allocate v).1 v.kind = Resolved.found v := by
  simp [VarHand.allocate, VarHand.resolve, List.lookup]

/-! ## Nesting of the emitted text -/

/-- Reading two texts in a row is reading the second from the depth the first ends at. -/
theorem nesting_append (o c : Char) (d : Nat) (x y : List Char) :
    nesting o c d (x ++ y) = (nesting o c d x).bind (fun e => nesting o c e y) := by
  induction x generalizing d with
  | nil => simp [nesting]
  | cons a t ih =>
    simp only [List.cons_append, nesting]
    by_cases h1 : a = o
    · simp [h1, ih]
    · by_cases h2 : a = c
      · subst h2
        cases d with
        | zero => simp [h1]
        | succ e => simp [h1, ih]
      · simp [h1, h2, ih]

/-- Substituting neutral arguments for the verbs does not change the nesting of a
format. -/
theorem nesting_Sprintf (o c : Char) (ho : o ≠ '%' ∧ o ≠ 's' ∧ o ≠ 'v')
    (hc : c ≠ '%' ∧ c ≠ 's' ∧ c ≠ 'v') (format : List Char) (args : List String)
    (hargs : ∀ a ∈ args, Neutral o c a) (d : Nat) :
    nesting o c d (Sprintf format args) = nesting o c d format := by
  induction format, args using Sprintf.induct generalizing d with
  | case1 args => simp [Sprintf]
  | case2 rest a args ih =>
    have hn : Neutral o c a := hargs a (by simp)
    have hr : ∀ x ∈ args, Neutral o c x := fun x hx => hargs x (by simp [hx])
    simp only [Sprintf, nesting_append, hn d, Option.some_bind, ih hr, nesting]
    simp [Ne.symm ho.1, Ne.symm hc.1, Ne.symm ho.2.1, Ne.symm hc.2.1]
  | case3 rest a args ih =>
    have hn : Neutral o c a := hargs a (by simp)
    have hr : ∀ x ∈ args, Neutral o c x := fun x hx => hargs x (by simp [hx])
    simp only [Sprintf, nesting_append, hn d, Option.some_bind, ih hr, nesting]
    simp [Ne.symm ho.1, Ne.symm hc.1, Ne.symm ho.2.2, Ne.symm hc.2.2]
  | case4 ch rest args h1 h2 ih =>
    rw [Sprintf]
    · simp only [nesting]
      by_cases e1 : ch = o
      · simp [e1, ih hargs]
      · by_cases e2 : ch = c
        · subst e2
          cases d with
          | zero => simp [e1]
          | succ e => simp [e1, ih hargs]
        · simp [e1, e2, ih hargs]
    · exact h1
    · exact h2

/-- With neutral arguments, the nesting of the text written by a sequence of calls is that
of its format strings. -/
theorem nesting_opsText (o c : Char) (ho : o ≠ '%' ∧ o ≠ 's' ∧ o ≠ 'v')
    (hc : c ≠ '%' ∧ c ≠ 's' ∧ c ≠ 'v') (ops : List PrintOp)
    (hargs : ∀ op ∈ ops, ∀ a ∈ op.args, Neutral o c a) (d : Nat) :
    nesting o c d (opsText ops) = nesting o c d (ops.map PrintOp.formatChars).flatten := by
  induction ops generalizing d with
  | nil => rfl
  | cons op rest ih =>
    have hr : ∀ x ∈ rest, ∀ a ∈ x.args, Neutral o c a :=
      fun x hx => hargs x (List.mem_cons_of_mem _ hx)
    have hop : nesting o c d op.text = nesting o c d op.formatChars := by
      cases op with
      | printf format args =>
        exact nesting_Sprintf o c ho hc format.data args
          (fun a ha => hargs _ (List.mem_cons_self _ _) a ha) d
      | indent => rfl
      | outdent => rfl
    have ih' : ∀ e, nesting o c e (opsText rest) =
        nesting o c e (rest.map PrintOp.formatChars).flatten := fun e => ih hr e
    simp only [opsText, List.map_cons, List.flatten_cons, nesting_append] at ih' ⊢
    rw [hop]
    congr 1
    funext e
    exact ih' e

/-- The level of a stream after more calls is obtained by running them from the level
reached so far. -/
theorem printer.level_append (p ops : List PrintOp) :
    printer.level (p ++ ops) = ops.foldl PrintOp.step (printer.level p) := by
  simp [printer.level, List.foldl_append]

/-- The calls `genFuncBody` makes on the shim stream bring the level back to where it was. -/
theorem shim_levels (sym : Option symbol) (fsym : Func) (sig : Signature) (n : Nat) :
    (genFuncBody.shimOps sym fsym sig).foldl PrintOp.step n = n := by
  obtain ⟨params, res⟩ := sig
  simp only [genFuncBody.shimOps, genFuncBody.resolveOps, genFuncBody.retOpenOps,
    genFuncBody.errCheckOps, genFuncBody.returnCret, genFuncBody.callOp,
    genFuncBody.earlyReturn]
  cases sym <;> cases res <;> simp [PrintOp.step, List.foldl_append] <;>
    split_ifs <;> simp [PrintOp.step]

/-- The calls `genFuncBody` makes on the wrapper stream bring the level back to where it
was. -/
theorem wrap_levels (sym : Option symbol) (fsym : Func) (sig : Signature) (n : Nat) :
    (genFuncBody.wrapOps sym fsym sig).foldl PrintOp.step n = n := by
  simp only [genFuncBody.wrapOps, genFuncBody.wrapOpenOp]
  cases sig.Results <;> simp only [] <;> split_ifs <;>
    simp [PrintOp.step, List.foldl_append]

/-- Reading a text from a deeper level ends as much deeper. -/
theorem nesting_shift (o c : Char) (text : List Char) (e k : Nat)
    (h : nesting o c e text = some k) (d : Nat) :
    nesting o c (e + d) text = some (k + d) := by
  induction text generalizing e with
  | nil =>
    simp only [nesting, Option.some.injEq] at h ⊢
    omega
  | cons x rest ih =>
    simp only [nesting] at h ⊢
    by_cases h1 : x = o
    · simp only [h1, if_true] at h ⊢
      have := ih (e + 1) h
      rw [show e + d + 1 = e + 1 + d by omega]
      exact this
    · by_cases h2 : x = c
      · subst h2
        simp only [h1, if_false, if_true] at h ⊢
        cases e with
        | zero => simp at h
        | succ e' =>
          simp only [] at h
          rw [show e' + 1 + d = (e' + d) + 1 by omega]
          exact ih e' h
      · simp only [h1, h2, if_false] at h ⊢
        exact ih e h

/-- The nesting of the formats of two sequences of calls in a row. -/
theorem opsNesting_append (o c : Char) (d : Nat) (a b : List PrintOp) :
    opsNesting o c d (a ++ b) = (opsNesting o c d a).bind (fun e => opsNesting o c e b) := by
  simp [opsNesting, nesting_append]

/-- A sequence of calls whose format strings are balanced from depth 0 is balanced from
any depth. -/
theorem opsNesting_neutral (o c : Char) (ops : List PrintOp)
    (h : opsNesting o c 0 ops = some 0) (d : Nat) : opsNesting o c d ops = some d := by
  have := nesting_shift o c _ 0 0 h d
  simpa [opsNesting] using this

/-- The formats of the shim header hold no brace. -/
theorem header_braces (name : String) (goArgs : List String) (goRet : String) (d : Nat) :
    opsNesting openBrace closeBrace d
      [PrintOp.printf "\n//export %s\n" [name], PrintOp.printf "func %s(" [name],
        genFuncSig.closeShim goArgs goRet] = some d := by
  apply opsNesting_neutral
  simp only [genFuncSig.closeShim]
  split_ifs <;> rfl

set_option maxRecDepth 8000 in
/-- The formats of the receiver resolution close the brace they open. -/
theorem resolveOps_braces (sym : Option symbol) (res : List Var) (d : Nat) :
    opsNesting openBrace closeBrace d (genFuncBody.resolveOps sym res) = some d := by
  apply opsNesting_neutral
  simp only [genFuncBody.resolveOps, genFuncBody.earlyReturn]
  cases sym <;> cases res <;> simp only [] <;> (try split_ifs) <;> rfl

/-- The formats written in front of the underlying call hold no brace. -/
theorem retOpenOps_braces (res : List Var) (d : Nat) :
    opsNesting openBrace closeBrace d (genFuncBody.retOpenOps res) = some d := by
  apply opsNesting_neutral
  simp only [genFuncBody.retOpenOps]
  cases res <;> simp only [] <;> (try split_ifs) <;> rfl

set_option maxRecDepth 8000 in
/-- The formats of the exception path close the brace they open. -/
theorem errCheckOps_braces (res : List Var) (d : Nat) :
    opsNesting openBrace closeBrace d (genFuncBody.errCheckOps res) = some d := by
  apply opsNesting_neutral
  simp only [genFuncBody.errCheckOps, genFuncBody.returnCret, genFuncBody.setErrFormat]
  cases res <;> simp only [] <;> (try split_ifs) <;> rfl

set_option maxRecDepth 8000 in
/-- The format strings of everything written to the shim stream for an accepted `Func`
are balanced in braces. -/
theorem shim_formats_balanced (sym : Option symbol) (fsym : Func) (sig : Signature)
    (goArgs : List String) (goRet : String) :
    opsNesting openBrace closeBrace 0
      ([PrintOp.printf "\n//export %s\n" [genFuncBody.mnm sym fsym],
          PrintOp.printf "func %s(" [genFuncBody.mnm sym fsym],
          genFuncSig.closeShim goArgs goRet] ++ genFuncBody.shimOps sym fsym sig) = some 0 := by
  have hcall : ∀ d, opsNesting openBrace closeBrace d
      [genFuncBody.callOp sym fsym (genFuncBody.lists sym sig).1] = some d := by
    intro d
    apply opsNesting_neutral
    simp only [genFuncBody.callOp]
    split_ifs <;> rfl
  have hcvt : ∀ d, opsNesting openBrace closeBrace d
      (if genFuncBody.hasRetCvt sig.Results then [PrintOp.printf ")" []] else []) = some d := by
    intro d
    apply opsNesting_neutral
    split_ifs <;> rfl
  have hopen : ∀ d, opsNesting openBrace closeBrace d
      [PrintOp.printf " \x7b\n" [], PrintOp.indent] = some (d + 1) := by
    intro d
    have := nesting_shift openBrace closeBrace
      ([PrintOp.printf " \x7b\n" [], PrintOp.indent].map PrintOp.formatChars).flatten 0 1 rfl d
    simpa [opsNesting, Nat.add_comm] using this
  have hclose : ∀ d, opsNesting openBrace closeBrace (d + 1)
      [PrintOp.printf "\n" [], PrintOp.outdent, PrintOp.printf "\x7d\n" []] = some d := by
    intro d
    have := nesting_shift openBrace closeBrace
      ([PrintOp.printf "\n" [], PrintOp.outdent, PrintOp.printf "\x7d\n" []].map
        PrintOp.formatChars).flatten 1 0 rfl d
    simpa [opsNesting, Nat.add_comm] using this
  simp only [genFuncBody.shimOps, opsNesting_append, header_braces, hopen, resolveOps_braces,
    retOpenOps_braces, hcall, hcvt, errCheckOps_braces, hclose, Option.some_bind]

/-- The format strings of everything written to the wrapper stream for an accepted `Func`
are balanced in parentheses. -/
theorem wrap_formats_balanced (sym : Option symbol) (fsym : Func) (sig : Signature)
    (goArgs wpArgs : List String) :
    opsNesting openParen closeParen 0
      ([PrintOp.printf "def %s(" [fsym.GoName], genFuncSig.closeWrap goArgs wpArgs] ++
        genFuncBody.wrapOps sym fsym sig) = some 0 := by
  obtain ⟨params, res⟩ := sig
  simp only [genFuncBody.wrapOps, genFuncBody.wrapOpenOp, genFuncBody.rvHasHandle,
    genFuncSig.closeWrap]
  cases res with
  | nil =>
    simp only [Bool.false_eq_true, if_false]
    split_ifs <;> rfl
  | cons ret rest =>
    simp only []
    by_cases hh : (!genFuncBody.rvIsErr (ret :: rest) && ret.sym.hasHandle) = true
    · simp only [hh, if_true]
      split_ifs <;> rfl
    · simp only [hh, if_false, Bool.false_eq_true]
      split_ifs <;> rfl

/-- A string in which neither character occurs is neutral. -/
theorem neutral_of_not_mem (o c : Char) (s : String) (ho : o ∉ s.data) (hc : c ∉ s.data) :
    Neutral o c s := by
  intro d
  generalize s.data = l at ho hc
  induction l with
  | nil => rfl
  | cons x rest ih =>
    have h1 : x ≠ o := fun e => ho (by simp [e])
    have h2 : x ≠ c := fun e => hc (by simp [e])
    simp only [nesting, h1, h2, if_false]
    exact ih (fun hm => ho (List.mem_cons_of_mem _ hm)) (fun hm => hc (List.mem_cons_of_mem _ hm))

/-- For an accepted `Func` the body is emitted, and after `genFuncSig` followed by
`genFuncBody` the indentation level of each of the four streams is its level before the
two calls; the text appended to the shim stream is balanced in braces when every argument
written to it is neutral in braces, and the text appended to the wrapper stream is
balanced in parentheses when every argument written to it is neutral in parentheses. -/
theorem nesting_closed_of_neutral_args (g g1 : pybindGen) (sym : Option symbol) (fsym : Func)
    (h : genFuncSig g sym fsym = .ok (true, g1)) :
    ∃ g2, genFuncBody g1 sym fsym = .ok g2 ∧
      g2.gofile.level = g.gofile.level ∧ g2.pybuild.level = g.pybuild.level ∧
      g2.pywrap.level = g.pywrap.level ∧ g2.makefile.level = g.makefile.level ∧
      ((∀ op ∈ g2.gofile.drop g.gofile.length, ∀ a ∈ op.args,
          Neutral openBrace closeBrace a) →
        Balanced openBrace closeBrace (opsText (g2.gofile.drop g.gofile.length))) ∧
      ((∀ op ∈ g2.pywrap.drop g.pywrap.length, ∀ a ∈ op.args,
          Neutral openParen closeParen a) →
        Balanced openParen closeParen (opsText (g2.pywrap.drop g.pywrap.length))) := by
  obtain ⟨sig, goArgs, pyArgs, wpArgs, retOp, goRet, hsig, -, -, -, hret, hg1⟩ :=
    genFuncSig_accepted g g1 sym fsym h
  have hr : ∃ format args, retOp = PrintOp.printf format args := by
    unfold genFuncSig.retOf at hret
    cases hres : sig.Results with
    | nil =>
      simp only [hres, Option.some.injEq, Prod.mk.injEq] at hret
      exact ⟨_, _, hret.1.symm⟩
    | cons ret rest =>
      simp only [hres] at hret
      cases hl : g.pkg.syms.symtype ret.GoType with
      | none => simp [hl] at hret
      | some sret =>
        simp only [hl, Option.some.injEq, Prod.mk.injEq] at hret
        exact ⟨_, _, hret.1.symm⟩
  obtain ⟨rf, ra, rfl⟩ := hr
  refine ⟨_, genFuncBody_eq g1 sym fsym sig hsig, ?_, ?_, ?_, ?_, ?_, ?_⟩
  · subst hg1
    simp only [List.append_assoc]
    rw [printer.level_append, List.foldl_append, shim_levels]
    simp only [genFuncSig.closeShim]
    split_ifs <;> rfl
  · subst hg1
    simp only []
    rw [printer.level_append]
    simp only [genFuncSig.closeDecl]
    split_ifs <;> rfl
  · subst hg1
    simp only [List.append_assoc]
    rw [printer.level_append, List.foldl_append, wrap_levels]
    simp only [genFuncSig.closeWrap]
    split_ifs <;> rfl
  · subst hg1
    rfl
  · subst hg1
    simp only [List.append_assoc, List.drop_left]
    intro hargs
    unfold Balanced
    rw [nesting_opsText openBrace closeBrace (by decide) (by decide) _ hargs]
    exact shim_formats_balanced sym fsym sig goArgs goRet
  · subst hg1
    simp only [List.append_assoc, List.drop_left]
    intro hargs
    unfold Balanced
    rw [nesting_opsText openParen closeParen (by decide) (by decide) _ hargs]
    exact wrap_formats_balanced sym fsym sig goArgs wpArgs

/-- Two neutral strings in a row are neutral. -/
theorem neutral_append (o c : Char) (a b : String) (ha : Neutral o c a)
    (hb : Neutral o c b) : Neutral o c (a ++ b) := by
  intro d
  rw [String.data_append, nesting_append, ha d]
  exact hb d

/-- The empty string is neutral. -/
theorem neutral_empty (o c : Char) : Neutral o c "" := by
  intro d
  rfl

/-- The accumulating loop of a join keeps a neutral accumulator neutral. -/
theorem neutral_intercalate_go (o c : Char) (sep : String) (hs : Neutral o c sep)
    (l : List String) (hl : ∀ x ∈ l, Neutral o c x) (acc : String)
    (ha : Neutral o c acc) : Neutral o c (String.intercalate.go acc sep l) := by
  induction l generalizing acc with
  | nil => exact ha
  | cons x rest ih =>
    simp only [String.intercalate.go]
    apply ih (fun y hy => hl y (List.mem_cons_of_mem _ hy))
    exact neutral_append o c _ _ (neutral_append o c _ _ ha hs) (hl x (List.mem_cons_self _ _))

/-- The join of neutral strings with a neutral separator is neutral. -/
theorem neutral_intercalate (o c : Char) (sep : String) (hs : Neutral o c sep)
    (l : List String) (hl : ∀ x ∈ l, Neutral o c x) : Neutral o c (sep.intercalate l) := by
  cases l with
  | nil => exact neutral_empty o c
  | cons x rest =>
    exact neutral_intercalate_go o c sep hs rest
      (fun y hy => hl y (List.mem_cons_of_mem _ hy)) x (hl x (List.mem_cons_self _ _))

/-- No call substitutes nothing. -/
theorem argsNeutral_nil (o c : Char) : ArgsNeutral o c [] := by
  intro op hop
  simp at hop

/-- A call whose arguments are neutral, before calls whose arguments are neutral. -/
theorem argsNeutral_cons (o c : Char) (op : PrintOp) (ops : List PrintOp)
    (h : ∀ a ∈ op.args, Neutral o c a) (hr : ArgsNeutral o c ops) :
    ArgsNeutral o c (op :: ops) := by
  intro x hx
  rcases List.mem_cons.mp hx with rfl | hm
  · exact h
  · exact hr x hm

/-- Two sequences of calls whose arguments are neutral, one after the other. -/
theorem argsNeutral_append (o c : Char) (a b : List PrintOp) (ha : ArgsNeutral o c a)
    (hb : ArgsNeutral o c b) : ArgsNeutral o c (a ++ b) := by
  intro x hx
  rcases List.mem_append.mp hx with hm | hm
  · exact ha x hm
  · exact hb x hm

/-- A call without arguments substitutes nothing. -/
theorem argsNeutral_plain (o c : Char) (op : PrintOp) (h : op.args = []) :
    ∀ a ∈ op.args, Neutral o c a := by
  intro a ha
  rw [h] at ha
  simp at ha

/-- The strings the code itself puts between the substituted names hold no brace. -/
theorem brace_literals :
    Neutral openBrace closeBrace " " ∧ Neutral openBrace closeBrace "_" ∧
    Neutral openBrace closeBrace "*" ∧ Neutral openBrace closeBrace "(" ∧
    Neutral openBrace closeBrace ")" ∧ Neutral openBrace closeBrace ", " ∧
    Neutral openBrace closeBrace "_handle CGoHandle" :=
  ⟨neutral_of_not_mem _ _ _ (by decide) (by decide),
   neutral_of_not_mem _ _ _ (by decide) (by decide),
   neutral_of_not_mem _ _ _ (by decide) (by decide),
   neutral_of_not_mem _ _ _ (by decide) (by decide),
   neutral_of_not_mem _ _ _ (by decide) (by decide),
   neutral_of_not_mem _ _ _ (by decide) (by decide),
   neutral_of_not_mem _ _ _ (by decide) (by decide)⟩

/-- The strings the code itself puts between the substituted names hold no
parenthesis. -/
theorem paren_literals :
    Neutral openParen closeParen "_" ∧ Neutral openParen closeParen ".handle" ∧
    Neutral openParen closeParen ", " ∧ Neutral openParen closeParen "self" ∧
    Neutral openParen closeParen "self.handle" :=
  ⟨neutral_of_not_mem _ _ _ (by decide) (by decide),
   neutral_of_not_mem _ _ _ (by decide) (by decide),
   neutral_of_not_mem _ _ _ (by decide) (by decide),
   neutral_of_not_mem _ _ _ (by decide) (by decide),
   neutral_of_not_mem _ _ _ (by decide) (by decide)⟩

/-- The shim name is neutral when the names it is built from are. -/
theorem mnm_neutral (o c : Char) (hus : Neutral o c "_") (sym : Option symbol) (fsym : Func)
    (hs : ∀ s, sym = some s → Neutral o c s.goname) (hn : Neutral o c fsym.GoName) :
    Neutral o c (genFuncBody.mnm sym fsym) := by
  cases sym with
  | none => exact hn
  | some s =>
    exact neutral_append o c _ _ (neutral_append o c _ _ (hs s rfl) hus) hn

/-- The receiver type expression holds no unbalanced brace when the formatted name does
not. -/
theorem symNm_neutral (sym : Option symbol)
    (hs : ∀ s, sym = some s → Neutral openBrace closeBrace s.gofmt) :
    Neutral openBrace closeBrace (genFuncBody.symNm sym) := by
  cases sym with
  | none => exact neutral_empty _ _
  | some s =>
    simp only [genFuncBody.symNm]
    split_ifs
    · exact neutral_append _ _ _ _ brace_literals.2.2.1 (hs s rfl)
    · exact hs s rfl

/-- The entries of `goArgs` are neutral when the parameter names and the `cgoname` of the
parameter symbols are. -/
theorem goArgs_neutral (syms : symtab) (sym : Option symbol) (params : List Var)
    (goArgs pyArgs wpArgs : List String)
    (hloop : genFuncSig.argsLoop syms params (genFuncSig.initLists sym)
      = some (goArgs, pyArgs, wpArgs))
    (hp : ∀ p ∈ params, Neutral openBrace closeBrace p.Name ∧
      ∀ sarg, syms.symtype p.GoType = some sarg → Neutral openBrace closeBrace sarg.cgoname) :
    ∀ x ∈ goArgs, Neutral openBrace closeBrace x := by
  obtain ⟨ea, -, -⟩ := genFuncSig.argsLoop_eq_some _ _ _ _ _ _ _ _ hloop
  subst ea
  intro x hx
  rcases List.mem_append.mp hx with hm | hm
  · cases sym with
    | none => simp at hm
    | some s =>
      simp only [Option.isSome_some, if_true, List.mem_singleton] at hm
      subst hm
      exact brace_literals.2.2.2.2.2.2
  · obtain ⟨p, hpm, rfl⟩ := List.mem_map.mp hm
    unfold genFuncSig.goArgOf
    cases hl : syms.symtype p.GoType with
    | none => exact neutral_empty _ _
    | some sarg =>
      exact neutral_append _ _ _ _
        (neutral_append _ _ _ _ (hp p hpm).1 brace_literals.1) ((hp p hpm).2 sarg hl)

/-- The entries of `callArgs` are neutral when the parameter names and the `py2go` and
`py2goParenEx` of the parameter symbols are. -/
theorem callArgs_neutral (sym : Option symbol) (sig : Signature)
    (hp : ∀ p ∈ sig.Params, Neutral openBrace closeBrace p.Name ∧
      Neutral openBrace closeBrace p.sym.py2go ∧
      Neutral openBrace closeBrace p.sym.py2goParenEx) :
    ∀ x ∈ (genFuncBody.lists sym sig).1, Neutral openBrace closeBrace x := by
  intro x hx
  simp only [genFuncBody.lists, genFuncBody.argsLoop_eq, List.nil_append] at hx
  obtain ⟨p, hpm, rfl⟩ := List.mem_map.mp hx
  unfold genFuncBody.callArgOf
  obtain ⟨h1, h2, h3⟩ := hp p hpm
  split_ifs
  · exact neutral_append _ _ _ _ (neutral_append _ _ _ _
      (neutral_append _ _ _ _ h2 brace_literals.2.2.2.1) h1) brace_literals.2.2.2.2.1 |>
      fun h => neutral_append _ _ _ _ h h3
  · exact h1

/-- The entries of `wpArgs` are neutral when the parameter names are. -/
theorem wpArgs_neutral (syms : symtab) (sym : Option symbol) (params : List Var)
    (goArgs pyArgs wpArgs : List String)
    (hloop : genFuncSig.argsLoop syms params (genFuncSig.initLists sym)
      = some (goArgs, pyArgs, wpArgs))
    (hp : ∀ p ∈ params, Neutral openParen closeParen p.Name) :
    ∀ x ∈ wpArgs, Neutral openParen closeParen x := by
  obtain ⟨-, -, ec⟩ := genFuncSig.argsLoop_eq_some _ _ _ _ _ _ _ _ hloop
  subst ec
  intro x hx
  rcases List.mem_append.mp hx with hm | hm
  · cases sym with
    | none => simp at hm
    | some s =>
      simp only [Option.isSome_some, if_true, List.mem_singleton] at hm
      subst hm
      exact paren_literals.2.2.2.1
  · obtain ⟨p, hpm, rfl⟩ := List.mem_map.mp hm
    exact hp p hpm

/-- The entries of `wrapArgs` are neutral when the parameter names are. -/
theorem wrapArgs_neutral (sym : Option symbol) (sig : Signature)
    (hp : ∀ p ∈ sig.Params, Neutral openParen closeParen p.Name) :
    ∀ x ∈ (genFuncBody.lists sym sig).2, Neutral openParen closeParen x := by
  intro x hx
  simp only [genFuncBody.lists, genFuncBody.argsLoop_eq] at hx
  rcases List.mem_append.mp hx with hm | hm
  · cases sym with
    | none => simp at hm
    | some s =>
      simp only [Option.isSome_some, if_true, List.mem_singleton] at hm
      subst hm
      exact paren_literals.2.2.2.2
  · obtain ⟨p, hpm, rfl⟩ := List.mem_map.mp hm
    unfold genFuncBody.wrapArgOf
    split_ifs
    · exact neutral_append _ _ _ _ (hp p hpm) paren_literals.2.1
    · exact hp p hpm

/-- Every string written to the shim stream for an accepted `Func` is neutral in braces
when the input strings are. -/
theorem shim_args_neutral (g : pybindGen) (sym : Option symbol) (fsym : Func)
    (sig : Signature) (goArgs pyArgs wpArgs : List String) (retOp : PrintOp)
    (goRet : String)
    (hloop : genFuncSig.argsLoop g.pkg.syms sig.Params (genFuncSig.initLists sym)
      = some (goArgs, pyArgs, wpArgs))
    (hret : genFuncSig.retOf g.pkg.syms sig.Results = some (retOp, goRet))
    (hin : ShimInputsNeutral openBrace closeBrace g sym fsym sig) :
    ArgsNeutral openBrace closeBrace
      ([PrintOp.printf "\n//export %s\n" [genFuncBody.mnm sym fsym],
        PrintOp.printf "func %s(" [genFuncBody.mnm sym fsym],
        genFuncSig.closeShim goArgs goRet] ++ genFuncBody.shimOps sym fsym sig) := by
  obtain ⟨hrecv, hname, hfmt, hparams, hresult⟩ := hin
  have hm : Neutral openBrace closeBrace (genFuncBody.mnm sym fsym) :=
    mnm_neutral _ _ brace_literals.2.1 sym fsym (fun s hs => (hrecv s hs).1) hname
  have hsn : Neutral openBrace closeBrace (genFuncBody.symNm sym) :=
    symNm_neutral sym (fun s hs => (hrecv s hs).2)
  have hga : Neutral openBrace closeBrace (", ".intercalate goArgs) :=
    neutral_intercalate _ _ _ brace_literals.2.2.2.2.2.1 _
      (goArgs_neutral _ sym _ _ _ _ hloop (fun p hp => ⟨(hparams p hp).1, (hparams p hp).2.2.2⟩))
  have hca : Neutral openBrace closeBrace (", ".intercalate (genFuncBody.lists sym sig).1) :=
    neutral_intercalate _ _ _ brace_literals.2.2.2.2.2.1 _
      (callArgs_neutral sym sig
        (fun p hp => ⟨(hparams p hp).1, (hparams p hp).2.1, (hparams p hp).2.2.1⟩))
  have hgr : Neutral openBrace closeBrace goRet := by
    unfold genFuncSig.retOf at hret
    cases hres : sig.Results with
    | nil =>
      simp only [hres, Option.some.injEq, Prod.mk.injEq] at hret
      rw [← hret.2]
      exact neutral_empty _ _
    | cons r rest =>
      simp only [hres] at hret
      cases hl : g.pkg.syms.symtype r.GoType with
      | none => simp [hl] at hret
      | some sret =>
        simp only [hl, Option.some.injEq, Prod.mk.injEq] at hret
        rw [← hret.2]
        exact (hresult r (by simp [hres])).2.2 sret hl
  have hgo2py : ∀ r rest, sig.Results = r :: rest → Neutral openBrace closeBrace r.sym.go2py :=
    fun r rest hr => (hresult r (by simp [hr])).1
  have hzval : ∀ r rest, sig.Results = r :: rest → Neutral openBrace closeBrace r.sym.zval :=
    fun r rest hr => (hresult r (by simp [hr])).2.1
  have b1 : ArgsNeutral openBrace closeBrace
      [PrintOp.printf "\n//export %s\n" [genFuncBody.mnm sym fsym],
        PrintOp.printf "func %s(" [genFuncBody.mnm sym fsym],
        genFuncSig.closeShim goArgs goRet] := by
    simp only [ArgsNeutral, genFuncSig.closeShim]
    split_ifs <;> simp [PrintOp.args, hm, hga, hgr]
  have b2 : ArgsNeutral openBrace closeBrace (genFuncBody.resolveOps sym sig.Results) := by
    simp only [ArgsNeutral, genFuncBody.resolveOps, genFuncBody.earlyReturn]
    cases sym with
    | none => simp only []; split_ifs <;> simp [PrintOp.args]
    | some s =>
      cases hr : sig.Results with
      | nil => simp [PrintOp.args, hsn]
      | cons r rest =>
        simp only []
        split_ifs <;> simp [PrintOp.args, hsn, hgo2py r rest hr, hzval r rest hr]
  have b3 : ArgsNeutral openBrace closeBrace (genFuncBody.retOpenOps sig.Results) := by
    simp only [ArgsNeutral, genFuncBody.retOpenOps]
    cases hr : sig.Results with
    | nil => simp
    | cons r rest =>
      simp only []
      split_ifs <;> simp [PrintOp.args, hgo2py r rest hr]
  have b4 : ArgsNeutral openBrace closeBrace
      [genFuncBody.callOp sym fsym (genFuncBody.lists sym sig).1] := by
    simp only [ArgsNeutral, genFuncBody.callOp]
    split_ifs <;> simp [PrintOp.args, hsn, hname, hfmt, hca]
  have b5 : ArgsNeutral openBrace closeBrace
      (if genFuncBody.hasRetCvt sig.Results then [PrintOp.printf ")" []] else []) := by
    simp only [ArgsNeutral]
    split_ifs <;> simp [PrintOp.args]
  have b6 : ArgsNeutral openBrace closeBrace (genFuncBody.errCheckOps sig.Results) := by
    simp only [ArgsNeutral, genFuncBody.errCheckOps, genFuncBody.returnCret]
    cases hr : sig.Results with
    | nil => simp only []; split_ifs <;> simp [PrintOp.args]
    | cons r rest =>
      simp only []
      split_ifs <;> simp [PrintOp.args, hgo2py r rest hr]
  have b0 : ArgsNeutral openBrace closeBrace [PrintOp.printf " \x7b\n" [], PrintOp.indent] := by
    simp [ArgsNeutral, PrintOp.args]
  have b7 : ArgsNeutral openBrace closeBrace
      [PrintOp.printf "\n" [], PrintOp.outdent, PrintOp.printf "\x7d\n" []] := by
    simp [ArgsNeutral, PrintOp.args]
  unfold genFuncBody.shimOps
  exact argsNeutral_append _ _ _ _ b1
    (argsNeutral_append _ _ _ _ (argsNeutral_append _ _ _ _ (argsNeutral_append _ _ _ _
      (argsNeutral_append _ _ _ _ (argsNeutral_append _ _ _ _ (argsNeutral_append _ _ _ _
        b0 b2) b3) b4) b5) b6) b7)

/-- Every string written to the wrapper stream for an accepted `Func` is neutral in
parentheses when the input strings are. -/
theorem wrap_args_neutral (syms : symtab) (sym : Option symbol) (fsym : Func)
    (sig : Signature) (goArgs pyArgs wpArgs : List String)
    (hloop : genFuncSig.argsLoop syms sig.Params (genFuncSig.initLists sym)
      = some (goArgs, pyArgs, wpArgs))
    (hin : WrapInputsNeutral openParen closeParen sym fsym sig) :
    ArgsNeutral openParen closeParen
      ([PrintOp.printf "def %s(" [fsym.GoName], genFuncSig.closeWrap goArgs wpArgs] ++
        genFuncBody.wrapOps sym fsym sig) := by
  obtain ⟨hrecv, hname, hpkg, hparams, hresult⟩ := hin
  have hm : Neutral openParen closeParen (genFuncBody.mnm sym fsym) :=
    mnm_neutral _ _ paren_literals.1 sym fsym hrecv hname
  have hwp : Neutral openParen closeParen (", ".intercalate wpArgs) :=
    neutral_intercalate _ _ _ paren_literals.2.2.1 _
      (wpArgs_neutral syms sym _ _ _ _ hloop hparams)
  have hwa : Neutral openParen closeParen (", ".intercalate (genFuncBody.lists sym sig).2) :=
    neutral_intercalate _ _ _ paren_literals.2.2.1 _ (wrapArgs_neutral sym sig hparams)
  have b1 : ArgsNeutral openParen closeParen
      [PrintOp.printf "def %s(" [fsym.GoName], genFuncSig.closeWrap goArgs wpArgs] := by
    simp only [ArgsNeutral, genFuncSig.closeWrap]
    split_ifs <;> simp [PrintOp.args, hname, hwp]
  have b2 : ArgsNeutral openParen closeParen (genFuncBody.wrapOps sym fsym sig) := by
    simp only [ArgsNeutral, genFuncBody.wrapOps, genFuncBody.wrapOpenOp]
    cases hr : sig.Results with
    | nil => simp only []; split_ifs <;> simp [PrintOp.args, hpkg, hm, hwa]
    | cons r rest =>
      have hpy : Neutral openParen closeParen r.sym.pyname := hresult r (by simp [hr])
      simp only []
      split_ifs <;> simp [PrintOp.args, hpkg, hm, hwa, hpy]
  exact argsNeutral_append _ _ _ _ b1 b2

set_option maxRecDepth 100000 in
/-- C17, as stated, fails: the method `Odd` of `Foo` is accepted and its body is emitted,
but the zero-value literal of its result symbol is an opening brace, which the early
return copies into the shim stream: the appended text leaves one brace open. -/
theorem unbalanced_zval :
    genFuncSig gOdd (some symFoo) fOdd = .ok (true, afterSig gOdd (some symFoo) fOdd) ∧
    genFuncBody (afterSig gOdd (some symFoo) fOdd) (some symFoo) fOdd
      = .ok (afterBody gOdd (some symFoo) fOdd) ∧
    nesting openBrace closeBrace 0
      (opsText ((afterBody gOdd (some symFoo) fOdd).gofile.drop gOdd.gofile.length)) = some 1 ∧
    ¬ Balanced openBrace closeBrace
      (opsText ((afterBody gOdd (some symFoo) fOdd).gofile.drop gOdd.gofile.length)) := by
  have h1 : nesting openBrace closeBrace 0
      (opsText ((afterBody gOdd (some symFoo) fOdd).gofile.drop gOdd.gofile.length)) = some 1 := by
    decide
  refine ⟨rfl, rfl, h1, ?_⟩
  unfold Balanced
  rw [h1]
  decide

/-- C17, amended. Per-symbol nesting is closed: for an accepted `Func` the body is
emitted, and after `genFuncSig` followed by `genFuncBody` the indentation level of each of
the four streams is its level before the two calls.  When the strings the shim stream
takes from its input (`ShimInputsNeutral`) are neutral in braces, the text appended to the
shim stream is balanced in braces; when the strings the wrapper stream takes from its
input (`WrapInputsNeutral`) are neutral in parentheses, the text appended to the wrapper
stream is balanced in parentheses.  Everything the code builds around these strings is
covered by the conclusion. -/
theorem nesting_closed (g g1 : pybindGen) (sym : Option symbol) (fsym : Func)
    (sig : Signature) (hsig : fsym.sig = some sig)
    (h : genFuncSig g sym fsym = .ok (true, g1)) :
    ∃ g2, genFuncBody g1 sym fsym = .ok g2 ∧
      g2.gofile.level = g.gofile.level ∧ g2.pybuild.level = g.pybuild.level ∧
      g2.pywrap.level = g.pywrap.level ∧ g2.makefile.level = g.makefile.level ∧
      (ShimInputsNeutral openBrace closeBrace g sym fsym sig →
        Balanced openBrace closeBrace (opsText (g2.gofile.drop g.gofile.length))) ∧
      (WrapInputsNeutral openParen closeParen sym fsym sig →
        Balanced openParen closeParen (opsText (g2.pywrap.drop g.pywrap.length))) := by
  obtain ⟨g2, hb, l1, l2, l3, l4, hbr, hpa⟩ := nesting_closed_of_neutral_args g g1 sym fsym h
  obtain ⟨sig₁, goArgs, pyArgs, wpArgs, retOp, goRet, hsig₁, -, -, hloop, hret, hg1⟩ :=
    genFuncSig_accepted g g1 sym fsym h
  rw [hsig] at hsig₁
  cases hsig₁
  have e : g2 = { g1 with
      gofile := g1.gofile ++ genFuncBody.shimOps sym fsym sig,
      pywrap := g1.pywrap ++ genFuncBody.wrapOps sym fsym sig,
      stdout := g1.stdout ++ genFuncBody.resolveDiag sym sig.Results } := by
    rw [genFuncBody_eq g1 sym fsym sig hsig] at hb
    cases hb
    rfl
  refine ⟨g2, hb, l1, l2, l3, l4, fun hin => hbr ?_, fun hin => hpa ?_⟩
  · subst e
    subst hg1
    simp only [List.append_assoc, List.drop_left]
    exact shim_args_neutral g sym fsym sig goArgs pyArgs wpArgs retOp goRet hloop hret hin
  · subst e
    subst hg1
    simp only [List.append_assoc, List.drop_left]
    exact wrap_args_neutral g.pkg.syms sym fsym sig goArgs pyArgs wpArgs hloop hin

/-- The strings the shim stream takes from `Merge` of `Foo` hold no brace. -/
theorem merge_shim_inputs :
    ShimInputsNeutral openBrace closeBrace g0 (some symFoo) fMerge sigMerge := by
  refine ⟨?_, neutral_of_not_mem _ _ _ (by decide) (by decide),
    neutral_of_not_mem _ _ _ (by decide) (by decide), ?_, ?_⟩
  · intro s hs
    cases hs
    exact ⟨neutral_of_not_mem _ _ _ (by decide) (by decide),
      neutral_of_not_mem _ _ _ (by decide) (by decide)⟩
  · intro p hp
    simp only [sigMerge, List.mem_cons, List.mem_singleton, List.not_mem_nil, or_false] at hp
    rcases hp with rfl | rfl
    · refine ⟨neutral_of_not_mem _ _ _ (by decide) (by decide),
        neutral_of_not_mem _ _ _ (by decide) (by decide),
        neutral_of_not_mem _ _ _ (by decide) (by decide), ?_⟩
      intro sarg hs
      have e : g0.pkg.syms.symtype varF.GoType = some symFoo := rfl
      rw [e] at hs
      cases hs
      exact neutral_of_not_mem _ _ _ (by decide) (by decide)
    · refine ⟨neutral_of_not_mem _ _ _ (by decide) (by decide),
        neutral_of_not_mem _ _ _ (by decide) (by decide),
        neutral_of_not_mem _ _ _ (by decide) (by decide), ?_⟩
      intro sarg hs
      have e : g0.pkg.syms.symtype varA.GoType = some symInt := rfl
      rw [e] at hs
      cases hs
      exact neutral_of_not_mem _ _ _ (by decide) (by decide)
  · intro r hr
    simp only [sigMerge, List.head?_cons, Option.some.injEq] at hr
    subst hr
    refine ⟨neutral_of_not_mem _ _ _ (by decide) (by decide),
      neutral_of_not_mem _ _ _ (by decide) (by decide), ?_⟩
    intro sret hs
    have e : g0.pkg.syms.symtype retInt.GoType = some symInt := rfl
    rw [e] at hs
    cases hs
    exact neutral_of_not_mem _ _ _ (by decide) (by decide)

/-- The strings the wrapper stream takes from `Merge` of `Foo` hold no parenthesis. -/
theorem merge_wrap_inputs :
    WrapInputsNeutral openParen closeParen (some symFoo) fMerge sigMerge := by
  refine ⟨?_, neutral_of_not_mem _ _ _ (by decide) (by decide),
    neutral_of_not_mem _ _ _ (by decide) (by decide), ?_, ?_⟩
  · intro s hs
    cases hs
    exact neutral_of_not_mem _ _ _ (by decide) (by decide)
  · intro p hp
    simp only [sigMerge, List.mem_cons, List.mem_singleton, List.not_mem_nil, or_false] at hp
    rcases hp with rfl | rfl <;> exact neutral_of_not_mem _ _ _ (by decide) (by decide)
  · intro r hr
    simp only [sigMerge, List.head?_cons, Option.some.injEq] at hr
    subst hr
    exact neutral_of_not_mem _ _ _ (by decide) (by decide)

/-- C17, amended, at the method `Merge(f pkg.Foo, a int) int` of `Foo`, whose input strings
hold neither brace nor parenthesis: the levels are kept and both texts, with the
arguments `f.handle`, `*ptrFmHandle_Foo(f)` and `int(a)` the code builds, are balanced. -/
theorem nesting_closed_witness :
    fMerge.sig = some sigMerge ∧
    genFuncSig g0 (some symFoo) fMerge = .ok (true, afterSig g0 (some symFoo) fMerge) ∧
    genFuncBody (afterSig g0 (some symFoo) fMerge) (some symFoo) fMerge
      = .ok (afterBody g0 (some symFoo) fMerge) ∧
    (afterBody g0 (some symFoo) fMerge).gofile.level = g0.gofile.level ∧
    (afterBody g0 (some symFoo) fMerge).pybuild.level = g0.pybuild.level ∧
    (afterBody g0 (some symFoo) fMerge).pywrap.level = g0.pywrap.level ∧
    (afterBody g0 (some symFoo) fMerge).makefile.level = g0.makefile.level ∧
    ShimInputsNeutral openBrace closeBrace g0 (some symFoo) fMerge sigMerge ∧
    WrapInputsNeutral openParen closeParen (some symFoo) fMerge sigMerge ∧
    Balanced openBrace closeBrace
      (opsText ((afterBody g0 (some symFoo) fMerge).gofile.drop g0.gofile.length)) ∧
    Balanced openParen closeParen
      (opsText ((afterBody g0 (some symFoo) fMerge).pywrap.drop g0.pywrap.length)) := by
  obtain ⟨g2, hb, l1, l2, l3, l4, hbr, hpa⟩ :=
    nesting_closed g0 (afterSig g0 (some symFoo) fMerge) (some symFoo) fMerge sigMerge
      rfl rfl
  have e : g2 = afterBody g0 (some symFoo) fMerge := by
    have hb2 : genFuncBody (afterSig g0 (some symFoo) fMerge) (some symFoo) fMerge
        = .ok (afterBody g0 (some symFoo) fMerge) := rfl
    rw [hb2] at hb
    cases hb
    rfl
  subst e
  exact ⟨rfl, rfl, rfl, l1, l2, l3, l4, merge_shim_inputs, merge_wrap_inputs,
    hbr merge_shim_inputs, hpa merge_wrap_inputs⟩

/-! ## `genAll` -/

/-- A call of an outside generator that returns has appended its emission. -/
theorem pybindGen.run_ok (g g1 : pybindGen) (r : Except GenPanic Emission)
    (h : g.run r = .ok g1) : ∃ em, r = .ok em ∧ g1 = g.emit em := by
  cases r with
  | error e => simp [pybindGen.run] at h
  | ok em =>
    simp only [pybindGen.run, Except.ok.injEq] at h
    exact ⟨em, rfl, h.symm⟩

/-- A sequence of two steps that returns went through a result of the first step. -/
theorem bind_ok {α β : Type} (x : Except GenPanic α) (f : α → Except GenPanic β) (r : β)
    (h : (x >>= f) = .ok r) : ∃ a, x = .ok a ∧ f a = .ok r := by
  cases x with
  | error e => simp [bind, Except.bind] at h
  | ok a => exact ⟨a, rfl, h⟩

/-- A loop whose body keeps the package and only appends to the wrapper stream appends,
in the order of the list, one output per element. -/
theorem forEach_trace {α : Type} (f : pybindGen → α → Except GenPanic pybindGen)
    (Q : α → List PrintOp → Prop) (pkg : Package)
    (hf : ∀ g x g1, g.pkg = pkg → f g x = .ok g1 →
      g1.pkg = pkg ∧ ∃ out, g1.pywrap = g.pywrap ++ out ∧ Q x out)
    (xs : List α) (g g1 : pybindGen) (hp : g.pkg = pkg) (h : forEach f g xs = .ok g1) :
    g1.pkg = pkg ∧ ∃ outs, List.Forall₂ Q xs outs ∧ g1.pywrap = g.pywrap ++ outs.flatten := by
  induction xs generalizing g with
  | nil =>
    simp only [forEach, Except.ok.injEq] at h
    subst h
    exact ⟨hp, [], List.Forall₂.nil, by simp⟩
  | cons x rest ih =>
    simp only [forEach] at h
    cases hx : f g x with
    | error e => simp [hx] at h
    | ok g2 =>
      simp only [hx] at h
      obtain ⟨hp2, out, ho, hq⟩ := hf g x g2 hp hx
      obtain ⟨hp1, outs, hall, hw⟩ := ih g2 hp2 h
      exact ⟨hp1, out :: outs, List.Forall₂.cons hq hall, by simp [hw, ho]⟩

/-- A loop over two lists in a row is the loop over the first, then the loop over the
second. -/
theorem forEach_append {α : Type} (f : pybindGen → α → Except GenPanic pybindGen)
    (xs ys : List α) (g : pybindGen) :
    forEach f g (xs ++ ys) =
      match forEach f g xs with
      | .error e => .error e
      | .ok g1 => forEach f g1 ys := by
  induction xs generalizing g with
  | nil => simp [forEach]
  | cons x rest ih =>
    simp only [List.cons_append, forEach]
    cases f g x with
    | error e => rfl
    | ok g2 => exact ih g2

/-- The nested constructor loop of `genAll` is one loop over the constructors of all
structs, struct by struct. -/
theorem forEach_ctors (structs : List Struct) (g : pybindGen) :
    forEach (fun g s => forEach genFunc g s.ctors) g structs =
      forEach genFunc g (structs.map (fun s => s.ctors)).flatten := by
  induction structs generalizing g with
  | nil => simp [forEach]
  | cons s rest ih =>
    simp only [forEach, List.map_cons, List.flatten_cons, forEach_append]
    cases forEach genFunc g s.ctors with
    | error e => rfl
    | ok g2 => exact ih g2

/-- A call of `genFunc` keeps the package and appends to the wrapper stream, and what it
appends holds no section header. -/
theorem genFunc_trace (g g1 : pybindGen) (o : Func) (h : genFunc g o = .ok g1) :
    g1.pkg = g.pkg ∧ ∃ out, g1.pywrap = g.pywrap ++ out ∧ HeaderFree out := by
  unfold genFunc at h
  cases hs : genFuncSig g none o with
  | error e => simp [hs] at h
  | ok r =>
    obtain ⟨b, g2⟩ := r
    cases b with
    | false =>
      have e := genFuncSig_rejected g g2 none o hs
      subst e
      simp only [hs, Except.ok.injEq] at h
      subst h
      exact ⟨rfl, [], by simp, by intro H _; simp⟩
    | true =>
      simp only [hs] at h
      obtain ⟨sig, goArgs, pyArgs, wpArgs, retOp, goRet, hsig, -, -, -, -, hg2⟩ :=
        genFuncSig_accepted g g2 none o hs
      rw [genFuncBody_eq g2 none o sig hsig] at h
      simp only [Except.ok.injEq] at h
      subst h
      subst hg2
      refine ⟨rfl, [PrintOp.printf "def %s(" [o.GoName], genFuncSig.closeWrap goArgs wpArgs] ++
        genFuncBody.wrapOps none o sig, by simp, ?_⟩
      intro H hH
      simp only [genAll.wrapHeaders, List.mem_cons, List.mem_singleton, List.not_mem_nil,
        or_false] at hH
      simp only [genFuncBody.wrapOps, genFuncBody.wrapOpenOp, genFuncSig.closeWrap]
      rcases hH with rfl | rfl | rfl | rfl | rfl | rfl | rfl <;>
        cases sig.Results <;> simp <;> split_ifs <;> simp

/-- Appending an emission appends its wrapper part and keeps the package. -/
theorem emit_pywrap (g : pybindGen) (em : Emission) :
    (g.emit em).pywrap = g.pywrap ++ em.pywrap ∧ (g.emit em).pkg = g.pkg :=
  ⟨rfl, rfl⟩

/-- One turn of the first loop of `genAll` keeps the package and appends its output. -/
theorem typeStep_trace (G : Generators) (pkg : Package) (g : pybindGen) (n : String)
    (g1 : pybindGen) (hp : g.pkg = pkg) (h : genAll.typeStep G g n = .ok g1) :
    g1.pkg = pkg ∧ ∃ out, g1.pywrap = g.pywrap ++ out ∧ genAll.TypeOut G pkg n out := by
  unfold genAll.typeStep at h
  subst hp
  cases hs : g.pkg.syms.sym n with
  | none => simp [hs] at h
  | some sym =>
    simp only [hs] at h
    cases ht : sym.isType with
    | false =>
      simp only [ht, Bool.not_false, if_true, Except.ok.injEq] at h
      subst h
      exact ⟨rfl, [], by simp, sym, hs, Or.inl ⟨ht, rfl⟩⟩
    | true =>
      simp only [ht, Bool.not_true, Bool.false_eq_true, if_false] at h
      obtain ⟨em, he, rfl⟩ := pybindGen.run_ok _ _ _ h
      exact ⟨rfl, em.pywrap, rfl, sym, hs, Or.inr ⟨ht, em, he, rfl⟩⟩

/-- A call of `genConst` keeps the package and appends its output. -/
theorem genConst_trace (G : Generators) (pkg : Package) (g : pybindGen) (c : Const)
    (g1 : pybindGen) (hp : g.pkg = pkg) (h : genConst G g c = .ok g1) :
    g1.pkg = pkg ∧ ∃ out, g1.pywrap = g.pywrap ++ out ∧ genAll.ConstOut G pkg c out := by
  subst hp
  obtain ⟨em, he, rfl⟩ := pybindGen.run_ok _ _ _ h
  exact ⟨rfl, em.pywrap, rfl, em, he, rfl⟩

/-- A call of `genVar` keeps the package and appends the getter, then the setter. -/
theorem genVar_trace (G : Generators) (pkg : Package) (g : pybindGen) (v : Var)
    (g1 : pybindGen) (hp : g.pkg = pkg) (h : genVar G g v = .ok g1) :
    g1.pkg = pkg ∧ ∃ out, g1.pywrap = g.pywrap ++ out ∧ genAll.VarOut G pkg v out := by
  subst hp
  unfold genVar at h
  cases hg : g.run (G.genVarGetter g.pkg v) with
  | error e => simp [hg] at h
  | ok g2 =>
    simp only [hg] at h
    obtain ⟨e1, he1, rfl⟩ := pybindGen.run_ok _ _ _ hg
    obtain ⟨e2, he2, rfl⟩ := pybindGen.run_ok _ _ _ h
    exact ⟨rfl, e1.pywrap ++ e2.pywrap, by simp [pybindGen.emit], e1, e2, he1, he2, rfl⟩

/-- A call of `genInterface` keeps the package and appends its output. -/
theorem genInterface_trace (G : Generators) (pkg : Package) (g : pybindGen)
    (ifc : Interface) (g1 : pybindGen) (hp : g.pkg = pkg)
    (h : g.run (G.genInterface g.pkg ifc) = .ok g1) :
    g1.pkg = pkg ∧ ∃ out, g1.pywrap = g.pywrap ++ out ∧ genAll.IfaceOut G pkg ifc out := by
  subst hp
  obtain ⟨em, he, rfl⟩ := pybindGen.run_ok _ _ _ h
  exact ⟨rfl, em.pywrap, rfl, em, he, rfl⟩

/-- A call of `genStruct` keeps the package and appends its output. -/
theorem genStruct_trace (G : Generators) (pkg : Package) (g : pybindGen)
    (s : Struct) (g1 : pybindGen) (hp : g.pkg = pkg)
    (h : g.run (G.genStruct g.pkg s) = .ok g1) :
    g1.pkg = pkg ∧ ∃ out, g1.pywrap = g.pywrap ++ out ∧ genAll.StructOut G pkg s out := by
  subst hp
  obtain ⟨em, he, rfl⟩ := pybindGen.run_ok _ _ _ h
  exact ⟨rfl, em.pywrap, rfl, em, he, rfl⟩

/-- A call of `genFunc` keeps the package and appends its output. -/
theorem genFunc_trace_out (pkg : Package) (g : pybindGen) (o : Func) (g1 : pybindGen)
    (hp : g.pkg = pkg) (h : genFunc g o = .ok g1) :
    g1.pkg = pkg ∧ ∃ out, g1.pywrap = g.pywrap ++ out ∧ genAll.FuncOut pkg o out := by
  obtain ⟨hp1, out, ho, -⟩ := genFunc_trace g g1 o h
  exact ⟨hp1.trans hp, out, ho, g, g1, hp, h, ho⟩

/-- What `genFunc` appends to the wrapper stream holds no section header. -/
theorem funcOut_headerFree (pkg : Package) (o : Func) (out : List PrintOp)
    (h : genAll.FuncOut pkg o out) : HeaderFree out := by
  obtain ⟨ga, gb, -, hf, ho⟩ := h
  obtain ⟨-, out', ho', hh⟩ := genFunc_trace ga gb o hf
  rw [ho] at ho'
  rw [List.append_cancel_left ho']
  exact hh

/-- When every output of a section is free of headers, so is the section. -/
theorem section_headerFree {α : Type} (Q : α → List PrintOp → Prop) (xs : List α)
    (outs : List (List PrintOp)) (h : List.Forall₂ Q xs outs)
    (hq : ∀ x out, Q x out → HeaderFree out) : HeaderFree outs.flatten := by
  induction h with
  | nil => intro H _; simp
  | cons hx _ ih =>
    intro H hH
    simp only [List.flatten_cons, List.mem_append, not_or]
    exact ⟨hq _ _ hx H hH, ih H hH⟩

/-- C15. Fixed section order: when `genAll` returns, what it has appended to the wrapper
stream is the seven section headers in the order types, constants, variables, interfaces,
structs, constructors, functions, each followed by the outputs of its section and by
nothing else: one output per element of the package's list, in the order of that list (for
the constructors: the constructors of all structs, struct by struct).  The generators
declared outside the files under study writing no header of their own, each header occurs
exactly once. -/
theorem section_order (G : Generators) (g g1 : pybindGen) (hG : G.HeaderFree g.pkg)
    (h : genAll G g = .ok g1) :
    ∃ T C V I S K F : List (List PrintOp),
      g1.pywrap = g.pywrap ++
        (PrintOp.printf "\n# ---- Types ---\n" [] :: T.flatten ++
         PrintOp.printf "\n\n#---- Constants from Go: Python can only ask that you please don't change these! ---\n" [] :: C.flatten ++
         PrintOp.printf "\n\n# ---- Global Variables: can only use functions to access ---\n" [] :: V.flatten ++
         PrintOp.printf "\n\n# ---- Interfaces ---\n" [] :: I.flatten ++
         PrintOp.printf "\n\n# ---- Structs ---\n" [] :: S.flatten ++
         PrintOp.printf "\n\n# ---- Constructors ---\n" [] :: K.flatten ++
         PrintOp.printf "\n\n# ---- Functions ---\n" [] :: F.flatten) ∧
      List.Forall₂ (genAll.TypeOut G g.pkg) g.pkg.syms.names T ∧
      List.Forall₂ (genAll.ConstOut G g.pkg) g.pkg.consts C ∧
      List.Forall₂ (genAll.VarOut G g.pkg) g.pkg.vars V ∧
      List.Forall₂ (genAll.IfaceOut G g.pkg) g.pkg.ifaces I ∧
      List.Forall₂ (genAll.StructOut G g.pkg) g.pkg.structs S ∧
      List.Forall₂ (genAll.FuncOut g.pkg) (g.pkg.structs.map (fun s => s.ctors)).flatten K ∧
      List.Forall₂ (genAll.FuncOut g.pkg) g.pkg.funcs F ∧
      ∀ H ∈ genAll.wrapHeaders, (g1.pywrap.drop g.pywrap.length).count H = 1 := by
  obtain ⟨hG1, hG2, hG3, hG4, hG5, hG6⟩ := hG
  unfold genAll at h
  obtain ⟨a1, h1, h⟩ := bind_ok _ _ _ h
  obtain ⟨p1, T, hT, w1⟩ := forEach_trace (genAll.typeStep G) (genAll.TypeOut G g.pkg) g.pkg
    (typeStep_trace G g.pkg) _ _ a1 (by rfl) h1
  obtain ⟨a2, h2, h⟩ := bind_ok _ _ _ h
  obtain ⟨p2, C, hC, w2⟩ := forEach_trace (genConst G) (genAll.ConstOut G g.pkg) g.pkg
    (genConst_trace G g.pkg) _ _ a2 (by exact p1) h2
  obtain ⟨a3, h3, h⟩ := bind_ok _ _ _ h
  obtain ⟨p3, V, hV, w3⟩ := forEach_trace (genVar G) (genAll.VarOut G g.pkg) g.pkg
    (genVar_trace G g.pkg) _ _ a3 (by exact p2) h3
  obtain ⟨a4, h4, h⟩ := bind_ok _ _ _ h
  obtain ⟨p4, I, hI, w4⟩ := forEach_trace _ (genAll.IfaceOut G g.pkg) g.pkg
    (genInterface_trace G g.pkg) _ _ a4 (by exact p3) h4
  obtain ⟨a5, h5, h⟩ := bind_ok _ _ _ h
  obtain ⟨p5, S, hS, w5⟩ := forEach_trace _ (genAll.StructOut G g.pkg) g.pkg
    (genStruct_trace G g.pkg) _ _ a5 (by exact p4) h5
  obtain ⟨a6, h6, h⟩ := bind_ok _ _ _ h
  rw [forEach_ctors] at h6
  obtain ⟨p6, K, hK, w6⟩ := forEach_trace genFunc (genAll.FuncOut g.pkg) g.pkg
    (genFunc_trace_out g.pkg) _ _ a6 (by exact p5) h6
  obtain ⟨a7, h7, h⟩ := bind_ok _ _ _ h
  obtain ⟨p7, F, hF, w7⟩ := forEach_trace genFunc (genAll.FuncOut g.pkg) g.pkg
    (genFunc_trace_out g.pkg) _ _ a7 (by exact p6) h7
  simp only [pure, Except.pure, Except.ok.injEq] at h
  subst h
  simp only [printer.Printf] at w1 w2 w3 w4 w5 w6 w7
  simp only [p1] at hC
  simp only [p2] at hV
  simp only [p3] at hI
  simp only [p4] at hS
  simp only [p5] at hK
  simp only [p6] at hF
  have hw : a7.pywrap = g.pywrap ++
        (PrintOp.printf "\n# ---- Types ---\n" [] :: T.flatten ++
         PrintOp.printf "\n\n#---- Constants from Go: Python can only ask that you please don't change these! ---\n" [] :: C.flatten ++
         PrintOp.printf "\n\n# ---- Global Variables: can only use functions to access ---\n" [] :: V.flatten ++
         PrintOp.printf "\n\n# ---- Interfaces ---\n" [] :: I.flatten ++
         PrintOp.printf "\n\n# ---- Structs ---\n" [] :: S.flatten ++
         PrintOp.printf "\n\n# ---- Constructors ---\n" [] :: K.flatten ++
         PrintOp.printf "\n\n# ---- Functions ---\n" [] :: F.flatten) := by
    rw [w7, w6, w5, w4, w3, w2, w1]
    simp
  refine ⟨T, C, V, I, S, K, F, hw, hT, hC, hV, hI, hS, hK, hF, ?_⟩
  have fT : HeaderFree T.flatten := section_headerFree _ _ _ hT (by
    rintro n out ⟨sym, -, ⟨-, rfl⟩ | ⟨-, em, he, rfl⟩⟩
    · intro H _; simp
    · exact hG1 _ _ he)
  have fC : HeaderFree C.flatten := section_headerFree _ _ _ hC (by
    rintro c out ⟨em, he, rfl⟩
    exact hG2 _ _ he)
  have fV : HeaderFree V.flatten := section_headerFree _ _ _ hV (by
    rintro v out ⟨e1, e2, he1, he2, rfl⟩
    intro H hH
    simp only [List.mem_append, not_or]
    exact ⟨hG3 _ _ he1 H hH, hG4 _ _ he2 H hH⟩)
  have fI : HeaderFree I.flatten := section_headerFree _ _ _ hI (by
    rintro c out ⟨em, he, rfl⟩
    exact hG5 _ _ he)
  have fS : HeaderFree S.flatten := section_headerFree _ _ _ hS (by
    rintro c out ⟨em, he, rfl⟩
    exact hG6 _ _ he)
  have fK : HeaderFree K.flatten := section_headerFree _ _ _ hK (funcOut_headerFree g.pkg)
  have fF : HeaderFree F.flatten := section_headerFree _ _ _ hF (funcOut_headerFree g.pkg)
  intro H hH
  rw [hw, List.drop_left]
  have c1 := List.count_eq_zero.mpr (fT H hH)
  have c2 := List.count_eq_zero.mpr (fC H hH)
  have c3 := List.count_eq_zero.mpr (fV H hH)
  have c4 := List.count_eq_zero.mpr (fI H hH)
  have c5 := List.count_eq_zero.mpr (fS H hH)
  have c6 := List.count_eq_zero.mpr (fK H hH)
  have c7 := List.count_eq_zero.mpr (fF H hH)
  simp only [genAll.wrapHeaders, List.mem_cons, List.mem_singleton, List.not_mem_nil,
    or_false] at hH
  rcases hH with rfl | rfl | rfl | rfl | rfl | rfl | rfl <;>
    simp [List.count_cons, c1, c2, c3, c4, c5, c6, c7]

/-- The sample generators write no section header. -/
theorem G0_headerFree (pkg : Package) : G0.HeaderFree pkg := by
  refine ⟨?_, ?_, ?_, ?_, ?_, ?_⟩ <;>
    · intro x em he H hH
      simp only [G0, Except.ok.injEq] at he
      subst he
      simp only [genAll.wrapHeaders, List.mem_cons, List.mem_singleton, List.not_mem_nil,
        or_false] at hH
      rcases hH with rfl | rfl | rfl | rfl | rfl | rfl | rfl <;> simp

/-- C15, at the package `pkgAll` with the sample generators. -/
theorem section_order_witness :
    G0.HeaderFree gAll.pkg ∧ genAll G0 gAll = .ok (afterAll G0 gAll) ∧
    ∃ T C V I S K F : List (List PrintOp),
      (afterAll G0 gAll).pywrap = gAll.pywrap ++
        (PrintOp.printf "\n# ---- Types ---\n" [] :: T.flatten ++
         PrintOp.printf "\n\n#---- Constants from Go: Python can only ask that you please don't change these! ---\n" [] :: C.flatten ++
         PrintOp.printf "\n\n# ---- Global Variables: can only use functions to access ---\n" [] :: V.flatten ++
         PrintOp.printf "\n\n# ---- Interfaces ---\n" [] :: I.flatten ++
         PrintOp.printf "\n\n# ---- Structs ---\n" [] :: S.flatten ++
         PrintOp.printf "\n\n# ---- Constructors ---\n" [] :: K.flatten ++
         PrintOp.printf "\n\n# ---- Functions ---\n" [] :: F.flatten) ∧
      List.Forall₂ (genAll.TypeOut G0 gAll.pkg) gAll.pkg.syms.names T ∧
      List.Forall₂ (genAll.ConstOut G0 gAll.pkg) gAll.pkg.consts C ∧
      List.Forall₂ (genAll.VarOut G0 gAll.pkg) gAll.pkg.vars V ∧
      List.Forall₂ (genAll.IfaceOut G0 gAll.pkg) gAll.pkg.ifaces I ∧
      List.Forall₂ (genAll.StructOut G0 gAll.pkg) gAll.pkg.structs S ∧
      List.Forall₂ (genAll.FuncOut gAll.pkg)
        (gAll.pkg.structs.map (fun s => s.ctors)).flatten K ∧
      List.Forall₂ (genAll.FuncOut gAll.pkg) gAll.pkg.funcs F ∧
      ∀ H ∈ genAll.wrapHeaders,
        ((afterAll G0 gAll).pywrap.drop gAll.pywrap.length).count H = 1 :=
  ⟨G0_headerFree gAll.pkg, rfl,
    section_order G0 gAll (afterAll G0 gAll) (G0_headerFree gAll.pkg) rfl⟩

end Gopy
